import Mathlib

/-!
The hlb front end: tokenizer and grammar of `parse.go`

A shallow embedding of `Parse` from `parse.go`.

* The tokenizer is the rule table `hlbLexer`: the rules are tried in the order
  they are written and the first rule whose regular expression matches a
  prefix of the remaining input produces the token (Go regular expressions
  are leftmost-first, so every rule below is written as the prefix matcher of
  its expression).  `String` tokens are unquoted (`participle.Unquote`).
* The grammar is the set of struct tags of `parse.go`, interpreted by the
  parsing engine the file builds its parser with: ordered alternatives,
  optional groups and repetitions run on a branch of the token cursor, a
  failed branch is abandoned when it got at most `lookahead = 1` token far and
  stops the whole parse otherwise, and fields captured on a branch are
  assigned only when the branch is accepted.  The engine's bound of 10^6
  iterations per repetition is not modelled.
-/

namespace Hlb

/-! ## Tokens -/

/-- Source position of a token: byte offset (0-based), line and column (1-based). -/
structure Position where
  offset : Nat
  line : Nat
  column : Nat
deriving DecidableEq, Repr

/-- The upper-case (emitted) symbols of `hlbLexer`, and the end-of-input marker
that closes every token stream. -/
inductive TokenKind where
  | Keyword | Ident | Int | String | Operator | EOF
deriving DecidableEq, Repr

/-- A token of the stream: symbol, text (unquoted for `String`) and position. -/
structure Token where
  kind : TokenKind
  value : List Char
  pos : Position
deriving DecidableEq, Repr

/-! ## Tokenizer rules -/

/-- `[a-zA-Z_]`. -/
def isIdentStart (c : Char) : Bool := c.isAlpha || c == '_'

/-- `[a-zA-Z0-9_]`. -/
def isIdentChar (c : Char) : Bool := c.isAlphanum || c == '_'

/-- `\s` of Go regular expressions: `[\t\n\f\r ]`. -/
def isSpace (c : Char) : Bool :=
  c == '\t' || c == '\n' || c == '\x0c' || c == '\r' || c == ' '

/-- Length of the longest leading run of characters satisfying `p`. -/
def spanLen (p : Char → Bool) : List Char → Nat
  | [] => 0
  | c :: cs => if p c then spanLen p cs + 1 else 0

/-- `Keyword = state`. -/
def matchKeyword : List Char → Option Nat
  | 's' :: 't' :: 'a' :: 't' :: 'e' :: _ => some 5
  | _ => none

/-- `Ident = [a-zA-Z_][a-zA-Z0-9_]*`. -/
def matchIdent : List Char → Option Nat
  | [] => none
  | c :: cs => if isIdentStart c then some (spanLen isIdentChar cs + 1) else none

/-- `Int = [0-9][0-9]*`. -/
def matchInt : List Char → Option Nat
  | [] => none
  | c :: cs => if c.isDigit then some (spanLen Char.isDigit cs + 1) else none

/-- The part `(?:\\.|[^q])*q` of the `String` rule, after the opening quote `q`:
number of characters up to and including the closing quote.  The alternatives
are tried in order (`\\.` first, `.` does not match a newline), with
backtracking. -/
def matchStringBody (q : Char) : List Char → Option Nat
  | [] => none
  | [c] => if c == q then some 1 else none
  | c :: d :: ds =>
    if c == q then some 1
    else
      let viaClass := (matchStringBody q (d :: ds)).map (· + 1)
      if c == '\\' then
        if d == '\n' then viaClass
        else match matchStringBody q ds with
          | some n => some (n + 2)
          | none => viaClass
      else viaClass

/-- `String = '(?:\\.|[^'])*'|"(?:\\.|[^"])*"`. -/
def matchString : List Char → Option Nat
  | [] => none
  | c :: cs =>
    if c == '\'' || c == '"' then (matchStringBody c cs).map (· + 1) else none

/-- `Operator = {|}|;|\(|\)|,`. -/
def matchOperator : List Char → Option Nat
  | [] => none
  | c :: _ =>
    if c == '{' || c == '}' || c == ';' || c == '(' || c == ')' || c == ',' then some 1
    else none

/-- `whitespace = \s+`. -/
def matchWhitespace : List Char → Option Nat
  | [] => none
  | c :: cs => if isSpace c then some (spanLen isSpace cs + 1) else none

/-- `comment = //[^\n]*`. -/
def matchComment : List Char → Option Nat
  | '/' :: '/' :: cs => some (spanLen (fun c => c != '\n') cs + 2)
  | _ => none

/-- Outcome of trying the rule table at one position: an emitted symbol or an
ignored (lower-case) rule, with the length of the match. -/
inductive RuleMatch where
  | emit (k : TokenKind) (len : Nat)
  | skip (len : Nat)
deriving DecidableEq, Repr

/-- The rules of `hlbLexer`, tried top to bottom; the first that matches wins. -/
def matchRules (s : List Char) : Option RuleMatch :=
  match matchKeyword s with
  | some n => some (.emit .Keyword n)
  | none =>
  match matchIdent s with
  | some n => some (.emit .Ident n)
  | none =>
  match matchInt s with
  | some n => some (.emit .Int n)
  | none =>
  match matchString s with
  | some n => some (.emit .String n)
  | none =>
  match matchOperator s with
  | some n => some (.emit .Operator n)
  | none =>
  match matchWhitespace s with
  | some n => some (.skip n)
  | none =>
  match matchComment s with
  | some n => some (.skip n)
  | none => none

/-! ## Unquoting of `String` tokens -/

/-- Value of a hexadecimal digit. -/
def unhex (c : Char) : Option Nat :=
  if c.isDigit then some (c.toNat - '0'.toNat)
  else if 'a' ≤ c ∧ c ≤ 'f' then some (c.toNat - 'a'.toNat + 10)
  else if 'A' ≤ c ∧ c ≤ 'F' then some (c.toNat - 'A'.toNat + 10)
  else none

/-- Value of a run of hexadecimal digits, most significant first. -/
def hexValue (acc : Nat) : List Char → Option Nat
  | [] => some acc
  | c :: cs => (unhex c).bind fun d => hexValue (acc * 16 + d) cs

/-- Value of a run of octal digits, most significant first. -/
def octValue (acc : Nat) : List Char → Option Nat
  | [] => some acc
  | c :: cs => if '0' ≤ c ∧ c ≤ '7' then octValue (acc * 8 + (c.toNat - '0'.toNat)) cs else none

/-- A code point that is a valid rune (not a surrogate, at most U+10FFFF). -/
def validRune (v : Nat) : Bool := v < 0xD800 || (0xE000 ≤ v && v ≤ 0x10FFFF)

/-- One step of Go's `strconv.UnquoteChar` on the text after a backslash:
the decoded character and the rest of the text. -/
def unquoteEscape (quote c : Char) (s : List Char) : Option (Char × List Char) :=
  if c == 'a' then some ('\x07', s)
  else if c == 'b' then some ('\x08', s)
  else if c == 'f' then some ('\x0c', s)
  else if c == 'n' then some ('\n', s)
  else if c == 'r' then some ('\r', s)
  else if c == 't' then some ('\t', s)
  else if c == 'v' then some ('\x0b', s)
  else if c == 'x' || c == 'u' || c == 'U' then
    let n := if c == 'x' then 2 else if c == 'u' then 4 else 8
    if s.length < n then none
    else match hexValue 0 (s.take n) with
      | none => none
      | some v =>
        if c == 'x' || validRune v then some (Char.ofNat v, s.drop n) else none
  else if '0' ≤ c ∧ c ≤ '7' then
    if s.length < 2 then none
    else match octValue (c.toNat - '0'.toNat) (s.take 2) with
      | none => none
      | some v => if v > 255 then none else some (Char.ofNat v, s.drop 2)
  else if c == '\\' then some ('\\', s)
  else if c == '\'' || c == '"' then (if c != quote then none else some (c, s))
  else none

/-- The unquoting loop over the text between the quotes (fuel: its length). -/
def unquoteLoop (quote : Char) : Nat → List Char → Option (List Char)
  | _, [] => some []
  | 0, _ :: _ => none
  | fuel + 1, c :: s =>
    if c == quote then none
    else if c != '\\' then (unquoteLoop quote fuel s).map (c :: ·)
    else match s with
      | [] => none
      | e :: s2 =>
        match unquoteEscape quote e s2 with
        | none => none
        | some (v, tail) => (unquoteLoop quote fuel tail).map (v :: ·)

/-- Unquote the text of a `String` token: strip the quotes, decode escapes. -/
def unquote (raw : List Char) : Option (List Char) :=
  match raw with
  | [] => none
  | q :: rest => unquoteLoop q rest.length (rest.take (rest.length - 1))

/-! ## The tokenizer loop -/

/-- Number of bytes of the UTF-8 encoding of a text. -/
def byteLen (s : List Char) : Nat := (s.map fun c => c.utf8Size).sum

/-- Characters after the last newline of a text (all of it when there is none). -/
def afterLastNewline (s : List Char) : List Char :=
  (s.reverse.takeWhile (fun c => c != '\n')).reverse

/-- Cursor position after consuming the text `s`. -/
def Position.advance (p : Position) (s : List Char) : Position :=
  let lines := s.count '\n'
  { offset := p.offset + byteLen s
    line := p.line + lines
    column := if lines = 0 then p.column + s.length else (afterLastNewline s).length + 1 }

/-- Position of the first character of the input. -/
def Position.start : Position := { offset := 0, line := 1, column := 1 }

/-- The tokenizer stopped: no rule matches at `pos`, or a `String` token at
`pos` cannot be unquoted. -/
structure LexError where
  pos : Position
deriving DecidableEq, Repr

/-- Tokenize the input from position `pos` on (fuel: the length of the input;
every rule consumes at least one character). -/
def lexFrom : Nat → Position → List Char → Except LexError (List Token)
  | _, pos, [] => .ok [⟨.EOF, [], pos⟩]
  | 0, pos, _ :: _ => .error ⟨pos⟩
  | fuel + 1, pos, s@(_ :: _) =>
    match matchRules s with
    | none => .error ⟨pos⟩
    | some (.skip n) => lexFrom fuel (pos.advance (s.take n)) (s.drop n)
    | some (.emit k n) =>
      let text := s.take n
      let value := if k = .String then unquote text else some text
      match value with
      | none => .error ⟨pos⟩
      | some v =>
        match lexFrom fuel (pos.advance text) (s.drop n) with
        | .ok ts => .ok (⟨k, v, pos⟩ :: ts)
        | .error e => .error e

/-- The token stream of an input (`parser.Lexer().Lex` followed by `lexer.Upgrade`,
which reads the whole stream before parsing starts); its last token is the
end-of-input marker. -/
def lex (input : List Char) : Except LexError (List Token) :=
  lexFrom input.length Position.start input

/-! ## The AST of `parse.go`

Pointer fields are `Option`s (`none` is `nil`), slices are lists, Go strings
are character lists.  The node types that can contain a nested `State` take the
type of states as a parameter `S`; `State` closes the recursion.  The eleven
`...Option` structs of `parse.go` have the same shape and the same tag and are
instances of `OptionBlock`. -/

abbrev Str := List Char

structure BlockEnd where
  Pos : Position := ⟨0, 0, 0⟩
  Brace : Str := []
deriving Repr

/-- Shape shared by `ImageOption`, `HTTPOption`, `GitOption`, `ExecOption`,
`SSHOption`, `SecretOption`, `MountOption`, `MkdirOption`, `MkfileOption`,
`RmOption` and `CopyOption`: tag
`( "option" "{" ( @@ [ ";" ] )* ` / `@@` / `| @Ident )`. -/
structure OptionBlock (F : Type) where
  Pos : Position := ⟨0, 0, 0⟩
  Fields : List F := []
  BlockEnd : BlockEnd := {}
  Name : Option Str := none
deriving Repr

/-- `Arg`; the Go field `Type` is `Ty` here. -/
structure Arg where
  Ty : Str := []
  Name : Str := []
deriving Repr

structure Signature where
  Args : List Arg := []
deriving Repr

structure FileMode where
  Pos : Position := ⟨0, 0, 0⟩
  Value : Nat := 0
deriving Repr

structure ImageField where
  Pos : Position := ⟨0, 0, 0⟩
  Resolve : Option Bool := none
deriving Repr

abbrev ImageOption := OptionBlock ImageField

structure Image where
  Pos : Position := ⟨0, 0, 0⟩
  Ref : Str := []
  Option : Option ImageOption := none
deriving Repr

structure Checksum where
  Pos : Position := ⟨0, 0, 0⟩
  Digest : Str := []
deriving Repr

structure Chmod where
  Pos : Position := ⟨0, 0, 0⟩
  Mode : Option FileMode := none
deriving Repr

structure Filename where
  Pos : Position := ⟨0, 0, 0⟩
  Name : Str := []
deriving Repr

structure HTTPField where
  Pos : Position := ⟨0, 0, 0⟩
  Checksum : Option Checksum := none
  Chmod : Option Chmod := none
  Filename : Option Filename := none
deriving Repr

abbrev HTTPOption := OptionBlock HTTPField

structure HTTP where
  Pos : Position := ⟨0, 0, 0⟩
  URL : Str := []
  Option : Option HTTPOption := none
deriving Repr

structure GitField where
  Pos : Position := ⟨0, 0, 0⟩
  KeepGitDir : Option Bool := none
deriving Repr

abbrev GitOption := OptionBlock GitField

structure Git where
  Pos : Position := ⟨0, 0, 0⟩
  Remote : Str := []
  Ref : Str := []
  Option : Option GitOption := none
deriving Repr

structure Network where
  Pos : Position := ⟨0, 0, 0⟩
  Mode : Str := []
deriving Repr

structure Security where
  Pos : Position := ⟨0, 0, 0⟩
  Mode : Str := []
deriving Repr

structure Host where
  Pos : Position := ⟨0, 0, 0⟩
  Name : Str := []
  Address : Str := []
deriving Repr

structure CacheID where
  Pos : Position := ⟨0, 0, 0⟩
  ID : Str := []
deriving Repr

/-- `ID int`: the value is kept as an integer. -/
structure SystemID where
  Pos : Position := ⟨0, 0, 0⟩
  ID : Int := 0
deriving Repr

structure Mountpoint where
  Pos : Position := ⟨0, 0, 0⟩
  Path : Str := []
deriving Repr

structure SSHField where
  Pos : Position := ⟨0, 0, 0⟩
  Mountpoint : Option Mountpoint := none
  ID : Option CacheID := none
  UID : Option SystemID := none
  GID : Option SystemID := none
  Mode : Option FileMode := none
  Optional : Option Bool := none
deriving Repr

abbrev SSHOption := OptionBlock SSHField

structure SSH where
  Pos : Position := ⟨0, 0, 0⟩
  Option : Option SSHOption := none
deriving Repr

structure SecretField where
  Pos : Position := ⟨0, 0, 0⟩
  ID : Option CacheID := none
  UID : Option SystemID := none
  GID : Option SystemID := none
  Mode : Option FileMode := none
  Optional : Option Bool := none
deriving Repr

abbrev SecretOption := OptionBlock SecretField

structure Secret where
  Pos : Position := ⟨0, 0, 0⟩
  Mountpoint : Str := []
  Option : Option SecretOption := none
deriving Repr

structure Cache where
  Pos : Position := ⟨0, 0, 0⟩
  ID : Str := []
  Sharing : Str := []
deriving Repr

structure MountField where
  Pos : Position := ⟨0, 0, 0⟩
  Readonly : Option Bool := none
  Tmpfs : Option Bool := none
  Source : Option Mountpoint := none
  Cache : Option Cache := none
deriving Repr

abbrev MountOption := OptionBlock MountField

structure MountBase where
  Mountpoint : Str := []
  Option : Option MountOption := none
deriving Repr

structure MountState (S : Type) where
  Pos : Position := ⟨0, 0, 0⟩
  Input : Option S := none
  MountBase : MountBase := {}
deriving Repr

structure Mount where
  Pos : Position := ⟨0, 0, 0⟩
  Input : Str := []
  MountBase : MountBase := {}
deriving Repr

structure Env where
  Pos : Position := ⟨0, 0, 0⟩
  Key : Str := []
  Value : Str := []
deriving Repr

structure Dir where
  Pos : Position := ⟨0, 0, 0⟩
  Path : Str := []
deriving Repr

structure User where
  Pos : Position := ⟨0, 0, 0⟩
  Name : Str := []
deriving Repr

structure Chown where
  Pos : Position := ⟨0, 0, 0⟩
  Owner : Str := []
deriving Repr

structure Time where
  Pos : Position := ⟨0, 0, 0⟩
  Value : Str := []
deriving Repr

structure ExecField (S : Type) where
  Pos : Position := ⟨0, 0, 0⟩
  ReadonlyRootfs : Option Bool := none
  Env : Option Env := none
  Dir : Option Dir := none
  User : Option User := none
  Network : Option Network := none
  Security : Option Security := none
  Host : Option Host := none
  SSH : Option SSH := none
  Secret : Option Secret := none
  MountState : Option (MountState S) := none
  Mount : Option Mount := none
deriving Repr

abbrev ExecOption (S : Type) := OptionBlock (ExecField S)

structure Exec (S : Type) where
  Pos : Position := ⟨0, 0, 0⟩
  Shlex : Str := []
  Option : Option (OptionBlock (ExecField S)) := none
deriving Repr

structure MkdirField where
  Pos : Position := ⟨0, 0, 0⟩
  CreateParents : Option Bool := none
  Chown : Option Chown := none
  CreatedTime : Option Time := none
deriving Repr

abbrev MkdirOption := OptionBlock MkdirField

structure Mkdir where
  Pos : Position := ⟨0, 0, 0⟩
  Path : Str := []
  Mode : Option FileMode := none
  Option : Option MkdirOption := none
deriving Repr

structure MkfileField where
  Pos : Position := ⟨0, 0, 0⟩
  Chown : Option Chown := none
  CreatedTime : Option Time := none
deriving Repr

abbrev MkfileOption := OptionBlock MkfileField

structure Mkfile where
  Pos : Position := ⟨0, 0, 0⟩
  Path : Str := []
  Mode : Option FileMode := none
  Content : Str := []
  Option : Option MkfileOption := none
deriving Repr

structure RmField where
  Pos : Position := ⟨0, 0, 0⟩
  AllowNotFound : Option Bool := none
  AllowWildcard : Option Bool := none
deriving Repr

abbrev RmOption := OptionBlock RmField

structure Rm where
  Pos : Position := ⟨0, 0, 0⟩
  Path : Str := []
  Option : Option RmOption := none
deriving Repr

structure CopyField where
  Pos : Position := ⟨0, 0, 0⟩
  FollowSymlinks : Option Bool := none
  ContentsOnly : Option Bool := none
  Unpack : Option Bool := none
  CreateDestPath : Option Bool := none
  AllowWildcard : Option Bool := none
  AllowEmptyWildcard : Option Bool := none
  Chown : Option Chown := none
  CreatedTime : Option Time := none
deriving Repr

abbrev CopyOption := OptionBlock CopyField

structure CopyBase where
  Src : Str := []
  Dst : Str := []
  Option : Option CopyOption := none
deriving Repr

structure CopyState (S : Type) where
  Pos : Position := ⟨0, 0, 0⟩
  Input : Option S := none
  CopyBase : CopyBase := {}
deriving Repr

structure Copy where
  Pos : Position := ⟨0, 0, 0⟩
  Input : Str := []
  CopyBase : CopyBase := {}
deriving Repr

structure Op (S : Type) where
  Pos : Position := ⟨0, 0, 0⟩
  Exec : Option (Exec S) := none
  Env : Option Env := none
  Dir : Option Dir := none
  User : Option User := none
  Mkdir : Option Mkdir := none
  Mkfile : Option Mkfile := none
  Rm : Option Rm := none
  CopyState : Option (CopyState S) := none
  Copy : Option Copy := none
deriving Repr

structure FromState (S : Type) where
  Pos : Position := ⟨0, 0, 0⟩
  Input : Option S := none
deriving Repr

structure From where
  Pos : Position := ⟨0, 0, 0⟩
  Input : Str := []
deriving Repr

structure Source (S : Type) where
  Pos : Position := ⟨0, 0, 0⟩
  FromState : Option (FromState S) := none
  From : Option From := none
  Scratch : Option Str := none
  Image : Option Image := none
  HTTP : Option HTTP := none
  Git : Option Git := none
deriving Repr

structure StateBody (S : Type) where
  Pos : Position := ⟨0, 0, 0⟩
  Source : Option (Source S) := none
  Ops : List (Op S) := []
  BlockEnd : BlockEnd := {}
deriving Repr

/-- `State`: an optional explicit `state` marker and a body, which may nest
further states through its source and ops. -/
inductive State where
  | mk (Pos : Position) (Explicit : Option Str) (Body : Option (StateBody State))
deriving Repr

structure StateEntry where
  Pos : Position := ⟨0, 0, 0⟩
  Name : Str := []
  Signature : Option Signature := none
  Body : Option (StateBody State) := none
deriving Repr

structure Entry where
  Pos : Position := ⟨0, 0, 0⟩
  State : Option StateEntry := none
deriving Repr

structure AST where
  Pos : Position := ⟨0, 0, 0⟩
  Entries : List Entry := []
deriving Repr

/-! ## The parsing engine

A grammar node acts on the struct value under construction (the *parent*) and
on the tokens from the cursor on.  It reports a match with the updated parent
and the number of tokens consumed, no match, or an error with the parent as
far as it was assigned and the cursor advance at the time of the error. -/

/-- What a sequence was looking for when it met a token it could not use. -/
inductive Expect where
  | literal (v : Str)
  | token (k : TokenKind)
  | rule (name : Str)
  | endOfInput
deriving DecidableEq, Repr

/-- Grammar error: an unexpected token, or an integer literal that does not fit
the field it is captured into. -/
inductive ParseError where
  | unexpected (tok : Token) (expected : Expect)
  | invalidInt (tok : Token)
deriving DecidableEq, Repr

/-- Result of running a grammar node. -/
inductive Res (σ : Type) where
  | ok (s : σ) (n : Nat)
  | noMatch
  | err (e : ParseError) (s : σ) (n : Nat)
deriving Repr

/-- A grammar node for fields of the struct `σ`. -/
abbrev Node (σ : Type) := σ → List Token → Res σ

/-- The token under the cursor; token streams end with the end-of-input marker. -/
def peek (ts : List Token) : Token := ts.headD ⟨.EOF, [], ⟨0, 0, 0⟩⟩

/-- Number of tokens a failed branch may have consumed and still be abandoned. -/
def lookahead : Nat := 1

/-- A quoted literal of a tag, e.g. `"state"`: matches a token by its text. -/
def lit (v : Str) : Node σ := fun s ts =>
  match ts with
  | [] => .noMatch
  | t :: _ => if t.value = v then .ok s 1 else .noMatch

/-- A captured literal, e.g. `@"scratch"`. -/
def capLit (v : Str) (set : σ → Str → σ) : Node σ := fun s ts =>
  match ts with
  | [] => .noMatch
  | t :: _ => if t.value = v then .ok (set s t.value) 1 else .noMatch

/-- A captured token of a given symbol, e.g. `@Ident`, `@String`. -/
def capTok (k : TokenKind) (set : σ → Str → σ) : Node σ := fun s ts =>
  match ts with
  | [] => .noMatch
  | t :: _ => if t.kind = k then .ok (set s t.value) 1 else .noMatch

/-- A captured token converted to a number (`@Int` into an integer field); a
text that does not convert is an error raised once the token is consumed. -/
def capNum (k : TokenKind) (conv : Str → Option β) (set : σ → β → σ) : Node σ := fun s ts =>
  match ts with
  | [] => .noMatch
  | t :: _ =>
    if t.kind = k then
      match conv t.value with
      | some v => .ok (set s v) 1
      | none => .err (.invalidInt t) s 1
    else .noMatch

/-- A captured sub-struct, `@@`. -/
def capStruct (child : List Token → Res τ) (set : σ → τ → σ) : Node σ := fun s ts =>
  match child ts with
  | .ok v n => .ok (set s v) n
  | .noMatch => .noMatch
  | .err e v n => .err e (set s v) n

/-- A struct node: a fresh value, stamped with the position of the token under
the cursor, filled in by the struct's expression. -/
def strct (zero : Position → τ) (expr : Node τ) : List Token → Res τ := fun ts =>
  expr (zero (peek ts).pos) ts

/-- Sequence: `p` then `q`.  When `p` does not match the sequence does not
match; once `p` matched, `q` failing to match is an error at the token under
the cursor. -/
def andThen (p : Node σ) (expected : Expect) (q : Node σ) : Node σ := fun s ts =>
  match p s ts with
  | .noMatch => .noMatch
  | .err e s1 n => .err e s1 n
  | .ok s1 n =>
    match q s1 (ts.drop n) with
    | .ok s2 m => .ok s2 (n + m)
    | .noMatch => .err (.unexpected (peek (ts.drop n)) expected) s1 n
    | .err e s2 m => .err e s2 (n + m)

/-- Optional group `( ... )?` / `[ ... ]`: the group runs on a branch; a branch
that failed within the lookahead is abandoned, a branch that failed further on
stops the parse. -/
def opt (p : Node σ) : Node σ := fun s ts =>
  match p s ts with
  | .ok s1 n => .ok s1 n
  | .noMatch => .ok s 0
  | .err e s1 n => if n > lookahead then .err e s1 n else .ok s 0

/-- The loop of a repetition (fuel bounds the number of iterations). -/
def manyLoop (p : Node σ) : Nat → Node σ
  | 0, s, _ => .ok s 0
  | fuel + 1, s, ts =>
    match p s ts with
    | .noMatch => .ok s 0
    | .err e s1 n => if n > lookahead then .err e s1 n else .ok s 0
    | .ok s1 n =>
      match manyLoop p fuel s1 (ts.drop n) with
      | .ok s2 m => .ok s2 (n + m)
      | .noMatch => .ok s1 n
      | .err e s2 m => .err e s2 (n + m)

/-- Repetition `( ... )*`; an iteration consumes at least one token, so the
number of tokens bounds the number of iterations. -/
def many (p : Node σ) : Node σ := fun s ts => manyLoop p ts.length s ts

/-- The loop of a disjunction: the alternatives run in order, each on a branch.
`best` is the error of the failed branch that got furthest so far (the later
one on a tie), with its cursor advance. -/
def altLoop (s : σ) (ts : List Token) : List (Node σ) → Option (ParseError × Nat) → Res σ
  | [], none => .noMatch
  | [], some (e, _) => .err e s 0
  | p :: ps, best =>
    match p s ts with
    | .ok s1 n => .ok s1 n
    | .noMatch => altLoop s ts ps best
    | .err e s1 n =>
      if n > lookahead then .err e s1 n
      else altLoop s ts ps
        (match best with
          | none => some (e, n)
          | some (e0, n0) => if n0 ≤ n then some (e, n) else some (e0, n0))

/-- Disjunction `a | b | ...`. -/
def alt (ps : List (Node σ)) : Node σ := fun s ts => altLoop s ts ps none

/-! ## Integer fields -/

/-- Value of a run of digits in the given base, most significant first. -/
def digitsValue (base : Nat) (acc : Nat) : List Char → Option Nat
  | [] => some acc
  | c :: cs =>
    if c.isDigit ∧ c.toNat - '0'.toNat < base then
      digitsValue base (acc * base + (c.toNat - '0'.toNat)) cs
    else none

/-- Numeric value of an `Int` token read with base 0 (`strconv.ParseUint(s, 0, _)`
on a run of decimal digits): a leading `0` selects octal, otherwise decimal. -/
def intLiteral : Str → Option Nat
  | [] => none
  | c :: cs => if c == '0' then digitsValue 8 0 cs else digitsValue 10 0 (c :: cs)

/-- Conversion into a `uint32` field: the value must fit in 32 bits. -/
def toUint32 (s : Str) : Option Nat := (intLiteral s).filter (· < 2 ^ 32)

/-- Conversion into an `int` field (64 bits). -/
def toInt (s : Str) : Option Int := ((intLiteral s).filter (· < 2 ^ 63)).map Int.ofNat

/-! ## The grammar: one parser per struct of `parse.go` -/

/-- `BlockEnd`: tag `@"}"`. -/
def BlockEnd.parse : List Token → Res BlockEnd :=
  strct (fun pos => { Pos := pos })
    (capLit "\x7d".toList fun s v => { s with Brace := v })

/-- The tag `( "option" "{" ( @@ [ ";" ] )*` / `@@` / `| @Ident )` shared by all
option structs, for the field parser `field`. -/
def OptionBlock.parse (field : List Token → Res F) : List Token → Res (OptionBlock F) :=
  strct (fun pos => { Pos := pos })
    (alt [
      andThen
        (andThen
          (andThen (lit "option".toList) (.literal "\x7b".toList) (lit "\x7b".toList))
          (.rule "Fields".toList)
          (many (andThen (capStruct field fun s v => { s with Fields := s.Fields ++ [v] })
            (.literal ";".toList) (opt (lit ";".toList)))))
        (.rule "BlockEnd".toList)
        (capStruct BlockEnd.parse fun s v => { s with BlockEnd := v }),
      capTok .Ident fun s v => { s with Name := some v }])

/-- The tag `( "with" @@ )?` that attaches an option block. -/
def withOption (field : List Token → Res F) (set : σ → OptionBlock F → σ) : Node σ :=
  opt (andThen (lit "with".toList) (.rule "Option".toList)
    (capStruct (OptionBlock.parse field) set))

/-- `Arg`: `@Ident` `@Ident`. -/
def Arg.parse : List Token → Res Arg :=
  strct (fun _ => {})
    (andThen (capTok .Ident fun s v => { s with Ty := v }) (.token .Ident)
      (capTok .Ident fun s v => { s with Name := v }))

/-- `Signature`: `"(" ( @@ )* ")"`. -/
def Signature.parse : List Token → Res Signature :=
  strct (fun _ => {})
    (andThen
      (andThen (lit "(".toList) (.rule "Args".toList)
        (many (capStruct Arg.parse fun s v => { s with Args := s.Args ++ [v] })))
      (.literal ")".toList) (lit ")".toList))

/-- `FileMode`: `Value uint32` with tag `@Int`. -/
def FileMode.parse : List Token → Res FileMode :=
  strct (fun pos => { Pos := pos })
    (capNum .Int toUint32 fun s v => { s with Value := v })

def ImageField.parse : List Token → Res ImageField :=
  strct (fun pos => { Pos := pos })
    (capLit "resolve".toList fun s _ => { s with Resolve := some true })

def Image.parse : List Token → Res Image :=
  strct (fun pos => { Pos := pos })
    (andThen (capTok .String fun s v => { s with Ref := v }) (.rule "Option".toList)
      (withOption ImageField.parse fun s v => { s with Option := some v }))

def Checksum.parse : List Token → Res Checksum :=
  strct (fun pos => { Pos := pos }) (capTok .String fun s v => { s with Digest := v })

def Chmod.parse : List Token → Res Chmod :=
  strct (fun pos => { Pos := pos }) (capStruct FileMode.parse fun s v => { s with Mode := some v })

def Filename.parse : List Token → Res Filename :=
  strct (fun pos => { Pos := pos }) (capTok .String fun s v => { s with Name := v })

def HTTPField.parse : List Token → Res HTTPField :=
  strct (fun pos => { Pos := pos })
    (alt [
      andThen (lit "checksum".toList) (.rule "Checksum".toList)
        (capStruct Checksum.parse fun s v => { s with Checksum := some v }),
      andThen (lit "chmod".toList) (.rule "Chmod".toList)
        (capStruct Chmod.parse fun s v => { s with Chmod := some v }),
      andThen (lit "filename".toList) (.rule "Filename".toList)
        (capStruct Filename.parse fun s v => { s with Filename := some v })])

def HTTP.parse : List Token → Res HTTP :=
  strct (fun pos => { Pos := pos })
    (andThen (capTok .String fun s v => { s with URL := v }) (.rule "Option".toList)
      (withOption HTTPField.parse fun s v => { s with Option := some v }))

def GitField.parse : List Token → Res GitField :=
  strct (fun pos => { Pos := pos })
    (capLit "keepGitDir".toList fun s _ => { s with KeepGitDir := some true })

def Git.parse : List Token → Res Git :=
  strct (fun pos => { Pos := pos })
    (andThen
      (andThen (capTok .String fun s v => { s with Remote := v }) (.token .String)
        (capTok .String fun s v => { s with Ref := v }))
      (.rule "Option".toList)
      (withOption GitField.parse fun s v => { s with Option := some v }))

def Network.parse : List Token → Res Network :=
  strct (fun pos => { Pos := pos })
    (alt [
      capLit "unset".toList fun s v => { s with Mode := v },
      capLit "host".toList fun s v => { s with Mode := v },
      capLit "none".toList fun s v => { s with Mode := v }])

def Security.parse : List Token → Res Security :=
  strct (fun pos => { Pos := pos })
    (alt [
      capLit "sandbox".toList fun s v => { s with Mode := v },
      capLit "insecure".toList fun s v => { s with Mode := v }])

def Host.parse : List Token → Res Host :=
  strct (fun pos => { Pos := pos })
    (andThen (capTok .String fun s v => { s with Name := v }) (.token .String)
      (capTok .String fun s v => { s with Address := v }))

def CacheID.parse : List Token → Res CacheID :=
  strct (fun pos => { Pos := pos })
    (andThen (lit "id".toList) (.token .String) (capTok .String fun s v => { s with ID := v }))

def SystemID.parse : List Token → Res SystemID :=
  strct (fun pos => { Pos := pos }) (capNum .Int toInt fun s v => { s with ID := v })

def Mountpoint.parse : List Token → Res Mountpoint :=
  strct (fun pos => { Pos := pos }) (capTok .String fun s v => { s with Path := v })

def SSHField.parse : List Token → Res SSHField :=
  strct (fun pos => { Pos := pos })
    (alt [
      andThen (lit "mountpoint".toList) (.rule "Mountpoint".toList)
        (capStruct Mountpoint.parse fun s v => { s with Mountpoint := some v }),
      capStruct CacheID.parse fun s v => { s with ID := some v },
      andThen (lit "uid".toList) (.rule "SystemID".toList)
        (capStruct SystemID.parse fun s v => { s with UID := some v }),
      andThen (lit "gid".toList) (.rule "SystemID".toList)
        (capStruct SystemID.parse fun s v => { s with GID := some v }),
      andThen (lit "mode".toList) (.rule "FileMode".toList)
        (capStruct FileMode.parse fun s v => { s with Mode := some v }),
      capLit "optional".toList fun s _ => { s with Optional := some true }])

def SSH.parse : List Token → Res SSH :=
  strct (fun pos => { Pos := pos })
    (withOption SSHField.parse fun s v => { s with Option := some v })

def SecretField.parse : List Token → Res SecretField :=
  strct (fun pos => { Pos := pos })
    (alt [
      capStruct CacheID.parse fun s v => { s with ID := some v },
      andThen (lit "uid".toList) (.rule "SystemID".toList)
        (capStruct SystemID.parse fun s v => { s with UID := some v }),
      andThen (lit "gid".toList) (.rule "SystemID".toList)
        (capStruct SystemID.parse fun s v => { s with GID := some v }),
      andThen (lit "mode".toList) (.rule "FileMode".toList)
        (capStruct FileMode.parse fun s v => { s with Mode := some v }),
      capLit "optional".toList fun s _ => { s with Optional := some true }])

def Secret.parse : List Token → Res Secret :=
  strct (fun pos => { Pos := pos })
    (andThen (capTok .String fun s v => { s with Mountpoint := v }) (.rule "Option".toList)
      (withOption SecretField.parse fun s v => { s with Option := some v }))

def Cache.parse : List Token → Res Cache :=
  strct (fun pos => { Pos := pos })
    (andThen (capTok .String fun s v => { s with ID := v }) (.rule "Sharing".toList)
      (alt [
        capLit "shared".toList fun s v => { s with Sharing := v },
        capLit "private".toList fun s v => { s with Sharing := v },
        capLit "locked".toList fun s v => { s with Sharing := v }]))

def MountField.parse : List Token → Res MountField :=
  strct (fun pos => { Pos := pos })
    (alt [
      capLit "readonly".toList fun s _ => { s with Readonly := some true },
      capLit "tmpfs".toList fun s _ => { s with Tmpfs := some true },
      andThen (lit "source".toList) (.rule "Mountpoint".toList)
        (capStruct Mountpoint.parse fun s v => { s with Source := some v }),
      andThen (lit "cache".toList) (.rule "Cache".toList)
        (capStruct Cache.parse fun s v => { s with Cache := some v })])

def Env.parse : List Token → Res Env :=
  strct (fun pos => { Pos := pos })
    (andThen (capTok .String fun s v => { s with Key := v }) (.token .String)
      (capTok .String fun s v => { s with Value := v }))

def Dir.parse : List Token → Res Dir :=
  strct (fun pos => { Pos := pos }) (capTok .String fun s v => { s with Path := v })

def User.parse : List Token → Res User :=
  strct (fun pos => { Pos := pos }) (capTok .String fun s v => { s with Name := v })

def Chown.parse : List Token → Res Chown :=
  strct (fun pos => { Pos := pos }) (capTok .String fun s v => { s with Owner := v })

def Time.parse : List Token → Res Time :=
  strct (fun pos => { Pos := pos }) (capTok .String fun s v => { s with Value := v })

/-- `MountState`: `Input *State` with tag `@@`, then the embedded `MountBase`
(`@String`, `( "with" @@ )?`). -/
def MountState.parse (pState : List Token → Res S) : List Token → Res (MountState S) :=
  strct (fun pos => { Pos := pos })
    (andThen
      (andThen (capStruct pState fun s v => { s with Input := some v }) (.token .String)
        (capTok .String fun s v => { s with MountBase := { s.MountBase with Mountpoint := v } }))
      (.rule "Option".toList)
      (withOption MountField.parse
        fun s v => { s with MountBase := { s.MountBase with Option := some v } }))

/-- `Mount`: `Input string` with tag `@Ident`, then the embedded `MountBase`. -/
def Mount.parse : List Token → Res Mount :=
  strct (fun pos => { Pos := pos })
    (andThen
      (andThen (capTok .Ident fun s v => { s with Input := v }) (.token .String)
        (capTok .String fun s v => { s with MountBase := { s.MountBase with Mountpoint := v } }))
      (.rule "Option".toList)
      (withOption MountField.parse
        fun s v => { s with MountBase := { s.MountBase with Option := some v } }))

def ExecField.parse (pState : List Token → Res S) : List Token → Res (ExecField S) :=
  strct (fun pos => { Pos := pos })
    (alt [
      capLit "readonlyRootfs".toList fun s _ => { s with ReadonlyRootfs := some true },
      andThen (lit "env".toList) (.rule "Env".toList)
        (capStruct Env.parse fun s v => { s with Env := some v }),
      andThen (lit "dir".toList) (.rule "Dir".toList)
        (capStruct Dir.parse fun s v => { s with Dir := some v }),
      andThen (lit "user".toList) (.rule "User".toList)
        (capStruct User.parse fun s v => { s with User := some v }),
      andThen (lit "network".toList) (.rule "Network".toList)
        (capStruct Network.parse fun s v => { s with Network := some v }),
      andThen (lit "security".toList) (.rule "Security".toList)
        (capStruct Security.parse fun s v => { s with Security := some v }),
      andThen (lit "host".toList) (.rule "Host".toList)
        (capStruct Host.parse fun s v => { s with Host := some v }),
      andThen (lit "ssh".toList) (.rule "SSH".toList)
        (capStruct SSH.parse fun s v => { s with SSH := some v }),
      andThen (lit "secret".toList) (.rule "Secret".toList)
        (capStruct Secret.parse fun s v => { s with Secret := some v }),
      andThen (lit "mount".toList) (.rule "MountState".toList)
        (capStruct (MountState.parse pState) fun s v => { s with MountState := some v }),
      andThen (lit "mount".toList) (.rule "Mount".toList)
        (capStruct Mount.parse fun s v => { s with Mount := some v })])

def Exec.parse (pState : List Token → Res S) : List Token → Res (Exec S) :=
  strct (fun pos => { Pos := pos })
    (andThen (capTok .String fun s v => { s with Shlex := v }) (.rule "Option".toList)
      (withOption (ExecField.parse pState) fun s v => { s with Option := some v }))

def MkdirField.parse : List Token → Res MkdirField :=
  strct (fun pos => { Pos := pos })
    (alt [
      capLit "createParents".toList fun s _ => { s with CreateParents := some true },
      andThen (lit "chown".toList) (.rule "Chown".toList)
        (capStruct Chown.parse fun s v => { s with Chown := some v }),
      andThen (lit "createdTime".toList) (.rule "Time".toList)
        (capStruct Time.parse fun s v => { s with CreatedTime := some v })])

def Mkdir.parse : List Token → Res Mkdir :=
  strct (fun pos => { Pos := pos })
    (andThen
      (andThen (capTok .String fun s v => { s with Path := v }) (.rule "FileMode".toList)
        (capStruct FileMode.parse fun s v => { s with Mode := some v }))
      (.rule "Option".toList)
      (withOption MkdirField.parse fun s v => { s with Option := some v }))

def MkfileField.parse : List Token → Res MkfileField :=
  strct (fun pos => { Pos := pos })
    (alt [
      andThen (lit "chown".toList) (.rule "Chown".toList)
        (capStruct Chown.parse fun s v => { s with Chown := some v }),
      andThen (lit "createdTime".toList) (.rule "Time".toList)
        (capStruct Time.parse fun s v => { s with CreatedTime := some v })])

def Mkfile.parse : List Token → Res Mkfile :=
  strct (fun pos => { Pos := pos })
    (andThen
      (andThen
        (andThen (capTok .String fun s v => { s with Path := v }) (.rule "FileMode".toList)
          (capStruct FileMode.parse fun s v => { s with Mode := some v }))
        (.token .String)
        (capTok .String fun s v => { s with Content := v }))
      (.rule "Option".toList)
      (withOption MkfileField.parse fun s v => { s with Option := some v }))

def RmField.parse : List Token → Res RmField :=
  strct (fun pos => { Pos := pos })
    (alt [
      capLit "allowNotFound".toList fun s _ => { s with AllowNotFound := some true },
      capLit "allowWildcard".toList fun s _ => { s with AllowWildcard := some true }])

def Rm.parse : List Token → Res Rm :=
  strct (fun pos => { Pos := pos })
    (andThen (capTok .String fun s v => { s with Path := v }) (.rule "Option".toList)
      (withOption RmField.parse fun s v => { s with Option := some v }))

def CopyField.parse : List Token → Res CopyField :=
  strct (fun pos => { Pos := pos })
    (alt [
      capLit "followSymlinks".toList fun s _ => { s with FollowSymlinks := some true },
      capLit "contentsOnly".toList fun s _ => { s with ContentsOnly := some true },
      capLit "unpack".toList fun s _ => { s with Unpack := some true },
      capLit "createDestPath".toList fun s _ => { s with CreateDestPath := some true },
      capLit "allowWildcard".toList fun s _ => { s with AllowWildcard := some true },
      capLit "allowEmptyWildcard".toList fun s _ => { s with AllowEmptyWildcard := some true },
      andThen (lit "chown".toList) (.rule "Chown".toList)
        (capStruct Chown.parse fun s v => { s with Chown := some v }),
      andThen (lit "createdTime".toList) (.rule "Time".toList)
        (capStruct Time.parse fun s v => { s with CreatedTime := some v })])

/-- `CopyState`: `Input *State` with tag `@@`, then the embedded `CopyBase`
(`@String`, `@String`, `( "with" @@ )?`). -/
def CopyState.parse (pState : List Token → Res S) : List Token → Res (CopyState S) :=
  strct (fun pos => { Pos := pos })
    (andThen
      (andThen
        (andThen (capStruct pState fun s v => { s with Input := some v }) (.token .String)
          (capTok .String fun s v => { s with CopyBase := { s.CopyBase with Src := v } }))
        (.token .String)
        (capTok .String fun s v => { s with CopyBase := { s.CopyBase with Dst := v } }))
      (.rule "Option".toList)
      (withOption CopyField.parse
        fun s v => { s with CopyBase := { s.CopyBase with Option := some v } }))

/-- `Copy`: `Input string` with tag `@Ident`, then the embedded `CopyBase`. -/
def Copy.parse : List Token → Res Copy :=
  strct (fun pos => { Pos := pos })
    (andThen
      (andThen
        (andThen (capTok .Ident fun s v => { s with Input := v }) (.token .String)
          (capTok .String fun s v => { s with CopyBase := { s.CopyBase with Src := v } }))
        (.token .String)
        (capTok .String fun s v => { s with CopyBase := { s.CopyBase with Dst := v } }))
      (.rule "Option".toList)
      (withOption CopyField.parse
        fun s v => { s with CopyBase := { s.CopyBase with Option := some v } }))

def Op.parse (pState : List Token → Res S) : List Token → Res (Op S) :=
  strct (fun pos => { Pos := pos })
    (alt [
      andThen (lit "exec".toList) (.rule "Exec".toList)
        (capStruct (Exec.parse pState) fun s v => { s with Exec := some v }),
      andThen (lit "env".toList) (.rule "Env".toList)
        (capStruct Env.parse fun s v => { s with Env := some v }),
      andThen (lit "dir".toList) (.rule "Dir".toList)
        (capStruct Dir.parse fun s v => { s with Dir := some v }),
      andThen (lit "user".toList) (.rule "User".toList)
        (capStruct User.parse fun s v => { s with User := some v }),
      andThen (lit "mkdir".toList) (.rule "Mkdir".toList)
        (capStruct Mkdir.parse fun s v => { s with Mkdir := some v }),
      andThen (lit "mkfile".toList) (.rule "Mkfile".toList)
        (capStruct Mkfile.parse fun s v => { s with Mkfile := some v }),
      andThen (lit "rm".toList) (.rule "Rm".toList)
        (capStruct Rm.parse fun s v => { s with Rm := some v }),
      andThen (lit "copy".toList) (.rule "CopyState".toList)
        (capStruct (CopyState.parse pState) fun s v => { s with CopyState := some v }),
      andThen (lit "copy".toList) (.rule "Copy".toList)
        (capStruct Copy.parse fun s v => { s with Copy := some v })])

def FromState.parse (pState : List Token → Res S) : List Token → Res (FromState S) :=
  strct (fun pos => { Pos := pos }) (capStruct pState fun s v => { s with Input := some v })

def From.parse : List Token → Res From :=
  strct (fun pos => { Pos := pos }) (capTok .Ident fun s v => { s with Input := v })

def Source.parse (pState : List Token → Res S) : List Token → Res (Source S) :=
  strct (fun pos => { Pos := pos })
    (alt [
      andThen (lit "from".toList) (.rule "FromState".toList)
        (capStruct (FromState.parse pState) fun s v => { s with FromState := some v }),
      andThen (lit "from".toList) (.rule "From".toList)
        (capStruct From.parse fun s v => { s with From := some v }),
      capLit "scratch".toList fun s v => { s with Scratch := some v },
      andThen (lit "image".toList) (.rule "Image".toList)
        (capStruct Image.parse fun s v => { s with Image := some v }),
      andThen (lit "http".toList) (.rule "HTTP".toList)
        (capStruct HTTP.parse fun s v => { s with HTTP := some v }),
      andThen (lit "git".toList) (.rule "Git".toList)
        (capStruct Git.parse fun s v => { s with Git := some v })])

/-- `StateBody`: `"{" @@ ( ";" )?`, `( @@ ( ";" )? )*`, `@@`. -/
def StateBody.parse (pState : List Token → Res S) : List Token → Res (StateBody S) :=
  strct (fun pos => { Pos := pos })
    (andThen
      (andThen
        (andThen
          (andThen (lit "\x7b".toList) (.rule "Source".toList)
            (capStruct (Source.parse pState) fun s v => { s with Source := some v }))
          (.literal ";".toList) (opt (lit ";".toList)))
        (.rule "Ops".toList)
        (many (andThen (capStruct (Op.parse pState) fun s v => { s with Ops := s.Ops ++ [v] })
          (.literal ";".toList) (opt (lit ";".toList)))))
      (.rule "BlockEnd".toList)
      (capStruct BlockEnd.parse fun s v => { s with BlockEnd := v }))

def State.Pos : State → Position
  | .mk p _ _ => p

def State.Explicit : State → Option Str
  | .mk _ e _ => e

def State.Body : State → Option (StateBody State)
  | .mk _ _ b => b

/-- `State`: `@( "state" )?`, `@@`.  The nesting depth of states is bounded by
the fuel; a nested state is only reached after a token was consumed. -/
def State.parse : Nat → List Token → Res State
  | 0 => fun _ => .noMatch
  | fuel + 1 =>
    strct (fun pos => .mk pos none none)
      (andThen
        (opt (capLit "state".toList fun s v => .mk s.Pos (some v) s.Body))
        (.rule "StateBody".toList)
        (capStruct (StateBody.parse (State.parse fuel)) fun s v => .mk s.Pos s.Explicit (some v)))

/-- `StateEntry`: `@Ident`, `( @@ )?`, `@@`. -/
def StateEntry.parse (pState : List Token → Res State) : List Token → Res StateEntry :=
  strct (fun pos => { Pos := pos })
    (andThen
      (andThen (capTok .Ident fun s v => { s with Name := v }) (.rule "Signature".toList)
        (opt (capStruct Signature.parse fun s v => { s with Signature := some v })))
      (.rule "StateBody".toList)
      (capStruct (StateBody.parse pState) fun s v => { s with Body := some v }))

/-- `Entry`: `"state" @@`. -/
def Entry.parse (pState : List Token → Res Hlb.State) : List Token → Res Entry :=
  strct (fun pos => { Pos := pos })
    (andThen (lit "state".toList) (.rule "StateEntry".toList)
      (capStruct (StateEntry.parse pState) fun s v => { s with State := some v }))

/-- `AST`: `( @@ ( ";" )?)*`. -/
def AST.parse (pState : List Token → Res State) : List Token → Res AST :=
  strct (fun pos => { Pos := pos })
    (many (andThen (capStruct (Entry.parse pState) fun s v => { s with Entries := s.Entries ++ [v] })
      (.literal ";".toList) (opt (lit ";".toList))))

/-! ## `Parse` -/

/-- The error value of `Parse`. -/
inductive Error where
  | lexical (e : LexError)
  | grammar (e : ParseError)
deriving DecidableEq, Repr

/-- `parser.ParseFromLexer`: run the root struct on the token stream; the AST
is handed back also on an error; tokens left before the end of input are an
error. -/
def parseTokens (ts : List Token) : Option AST × Option Error :=
  match AST.parse (State.parse ts.length) ts with
  | .err e ast _ => (some ast, some (.grammar e))
  | .noMatch => (some {}, some (.grammar (.unexpected (peek ts) (.rule "AST".toList))))
  | .ok ast n =>
    let t := peek (ts.drop n)
    if t.kind = .EOF then (some ast, none)
    else (some ast, some (.grammar (.unexpected t .endOfInput)))

/-- `Parse`: tokenize the whole input, then parse the tokens.  A lexical error
returns no AST. -/
def Parse (input : List Char) : Option AST × Option Error :=
  match lex input with
  | .error e => (none, some (.lexical e))
  | .ok ts => parseTokens ts

/-! ## Properties used in the statements and proofs -/

/-- Number of tokens the cursor advanced in a result. -/
def Res.consumed : Res σ → Nat
  | .ok _ n => n
  | .noMatch => 0
  | .err _ _ n => n

/-- The text of the closing brace. -/
def closeBrace : Str := "\x7d".toList

/-- A token that can close a block: its text is `}` and it is not an identifier. -/
def Closer (t : Token) : Prop := t.value = closeBrace ∧ t.kind ≠ .Ident

/-- A node is stable when a result that left a closing token unconsumed does not
depend on what follows that token. -/
def Stable (p : Node σ) : Prop :=
  ∀ (s : σ) (y : List Token) (t : Token) (rest rest' : List Token), Closer t →
    (p s (y ++ t :: rest)).consumed ≤ y.length →
    p s (y ++ t :: rest') = p s (y ++ t :: rest)

/-- Stability of a struct parser. -/
def StableP (p : List Token → Res τ) : Prop :=
  ∀ (y : List Token) (t : Token) (rest rest' : List Token), Closer t →
    (p (y ++ t :: rest)).consumed ≤ y.length →
    p (y ++ t :: rest') = p (y ++ t :: rest)

/-- A leading node starts with a mandatory token that is not a closing token:
it does not match at a closing token or at the end of the list, and consumes a
token when it matches. -/
def Lead (p : Node σ) : Prop :=
  (∀ (s : σ) (t : Token) (rest : List Token), Closer t → p s (t :: rest) = .noMatch) ∧
  (∀ (s : σ) (ts : List Token) (s1 : σ) (n : Nat), p s ts = .ok s1 n → 1 ≤ n) ∧
  (∀ (s : σ), p s [] = .noMatch)

/-- A leading struct parser. -/
def LeadP (p : List Token → Res τ) : Prop :=
  (∀ (t : Token) (rest : List Token), Closer t → p (t :: rest) = .noMatch) ∧
  (∀ (ts : List Token) (v : τ) (n : Nat), p ts = .ok v n → 1 ≤ n) ∧
  p [] = .noMatch

/-- A property of every node of a list of alternatives. -/
def AllNodes (P : Node σ → Prop) : List (Node σ) → Prop
  | [] => True
  | p :: ps => P p ∧ AllNodes P ps

/-- A branch of a disjunction, an optional group or a repetition. -/
def Branch (p : Node σ) : Prop := Stable p ∧ Lead p

/-- A tight node ends with a closing brace it consumed; when that token is not
an identifier, the result does not depend on what follows. -/
def Tight (p : Node σ) : Prop :=
  ∀ (s : σ) (ts : List Token) (s1 : σ) (n : Nat), p s ts = .ok s1 n →
    ∃ (y : List Token) (t : Token) (rest : List Token), ts = y ++ t :: rest ∧
      n = y.length + 1 ∧ t.value = closeBrace ∧
      (t.kind ≠ .Ident → ∀ rest', p s (y ++ t :: rest') = .ok s1 n)

/-- A tight struct parser. -/
def TightP (p : List Token → Res τ) : Prop :=
  ∀ (ts : List Token) (v : τ) (n : Nat), p ts = .ok v n →
    ∃ (y : List Token) (t : Token) (rest : List Token), ts = y ++ t :: rest ∧
      n = y.length + 1 ∧ t.value = closeBrace ∧
      (t.kind ≠ .Ident → ∀ rest', p (y ++ t :: rest') = .ok v n)

/-- Two nodes agree on the token lists shorter than `L`. -/
def Agree (L : Nat) (p p' : Node σ) : Prop :=
  ∀ (s : σ) (ts : List Token), ts.length < L → p s ts = p' s ts

/-- Two struct parsers agree on the token lists shorter than `L`. -/
def AgreeP (L : Nat) (p p' : List Token → Res τ) : Prop :=
  ∀ (ts : List Token), ts.length < L → p ts = p' ts

/-- Pairwise agreement of two lists of alternatives. -/
def AllAgree (L : Nat) : List (Node σ) → List (Node σ) → Prop
  | [], [] => True
  | p :: ps, p' :: ps' => Agree L p p' ∧ AllAgree L ps ps'
  | _, _ => False

/-- The text of the statement separator. -/
def semicolon : Str := ";".toList

/-- A document: declarations in source order, each optionally followed by a
separator token. -/
def joinDecls : List (List Token × Option Token) → List Token
  | [] => []
  | (d, none) :: ds => d ++ joinDecls ds
  | (d, some sep) :: ds => d ++ sep :: joinDecls ds

/-- Identifier tokens never carry the text of a closing brace (the `Ident` rule
only matches words). -/
def WordIdents (ts : List Token) : Prop :=
  ∀ t ∈ ts, t.kind = .Ident → t.value ≠ closeBrace

/-- A grammatically valid top-level declaration: the `Entry` rule, run on
exactly these tokens, consumes all of them and yields the entry `e`. -/
def ValidDecl (d : List Token) (e : Entry) : Prop :=
  WordIdents d ∧ Entry.parse (State.parse d.length) d = .ok e d.length

/-- A token on line 1 of a document (column = offset + 1). -/
def tokAt (k : TokenKind) (v : String) (offset : Nat) : Token :=
  ⟨k, v.toList, ⟨offset, 1, offset + 1⟩⟩

/-- Tokens of the declaration `state <n> { scratch }` (one-letter name `n`)
written at byte offset `o` of line 1. -/
def scratchDecl (n : String) (o : Nat) : List Token :=
  [tokAt .Keyword "state" o, tokAt .Ident n (o + 6), tokAt .Operator "\x7b" (o + 8),
   tokAt .Ident "scratch" (o + 10), tokAt .Operator "\x7d" (o + 18)]

/-- The entry that `scratchDecl n o` declares. -/
def scratchEntry (n : String) (o : Nat) : Entry :=
  { Pos := ⟨o, 1, o + 1⟩
    State := some
      { Pos := ⟨o + 6, 1, o + 7⟩
        Name := n.toList
        Body := some
          { Pos := ⟨o + 8, 1, o + 9⟩
            Source := some { Pos := ⟨o + 10, 1, o + 11⟩, Scratch := some "scratch".toList }
            BlockEnd := { Pos := ⟨o + 18, 1, o + 19⟩, Brace := "\x7d".toList } } } }

/-- The body of the repetition of `AST`: `@@ ( ";" )?`. -/
def entryItem (pState : List Token → Res State) : Node AST :=
  andThen (capStruct (Entry.parse pState) fun s v => { s with Entries := s.Entries ++ [v] })
    (.literal ";".toList) (opt (lit ";".toList))

/-- Length of a rule match. -/
def RuleMatch.len : RuleMatch → Nat
  | .emit _ n => n
  | .skip n => n

/-- One step of the tokenizer, for any fuel that covers the input. -/
def lexStep (f : Nat) (pos : Position) (s : List Char) : Except LexError (List Token) :=
  match matchRules s with
  | none => .error ⟨pos⟩
  | some (.skip n) => lexFrom f (pos.advance (s.take n)) (s.drop n)
  | some (.emit k n) =>
    match (if k = .String then unquote (s.take n) else some (s.take n)) with
    | none => .error ⟨pos⟩
    | some v =>
      match lexFrom f (pos.advance (s.take n)) (s.drop n) with
      | .ok ts => .ok (⟨k, v, pos⟩ :: ts)
      | .error e => .error e

/-- The tokenizer run on `s` until exactly `k` characters are consumed: the
tokens emitted so far and the position reached, when the `k`-th character is
where a token or a skipped match starts (fuel: the number of matches). -/
def lexUpTo : Nat → Position → List Char → Nat → Option (List Token × Position)
  | _, pos, _, 0 => some ([], pos)
  | 0, _, _, _ + 1 => none
  | f + 1, pos, s, k + 1 =>
    match matchRules s with
    | none => none
    | some (.skip n) =>
      if n ≤ k + 1 then lexUpTo f (pos.advance (s.take n)) (s.drop n) (k + 1 - n) else none
    | some (.emit kd n) =>
      if n ≤ k + 1 then
        match (if kd = .String then unquote (s.take n) else some (s.take n)) with
        | none => none
        | some v =>
          (lexUpTo f (pos.advance (s.take n)) (s.drop n) (k + 1 - n)).map
            fun r => (⟨kd, v, pos⟩ :: r.1, r.2)
      else none

/-- Put the tokens of a consumed part in front of the result for the rest. -/
def prependTokens (ts : List Token) : Except LexError (List Token) → Except LexError (List Token)
  | .ok r => .ok (ts ++ r)
  | .error e => .error e

/-- An octal digit, as `digitsValue 8` accepts it. -/
def isOctalDigit (c : Char) : Bool := c.isDigit && decide (c.toNat - '0'.toNat < 8)

/-- Octal value of a run of digits, most significant first. -/
def octalValue (ds : List Char) : Nat :=
  ds.foldl (fun acc c => acc * 8 + (c.toNat - '0'.toNat)) 0

/-- The document `state a { scratch; mkdir "p" m; }`. -/
def mkdirDoc (p m : List Char) : List Char :=
  "state a \x7b scratch; mkdir ".toList ++ '"' :: (p ++ '"' :: ' ' :: (m ++ "; \x7d".toList))

/-- The AST of the document `state a \x7b scratch; mkdir "path" m; \x7d`, for the
positions `ps` of its ten tokens. -/
def mkdirAST (path : Str) (v : Nat) (p0 p1 p2 p3 p5 p6 p7 p9 : Position) : AST :=
  { Pos := p0,
    Entries := [{ Pos := p0,
                  State := some
                    { Pos := p1, Name := "a".toList,
                      Body := some
                        { Pos := p2,
                          Source := some { Pos := p3, Scratch := some "scratch".toList },
                          Ops := [{ Pos := p5,
                                    Mkdir := some { Pos := p6, Path := path,
                                                    Mode := some { Pos := p7, Value := v } } }],
                          BlockEnd := { Pos := p9, Brace := "\x7d".toList } } } }] }

/-- Every value a struct parser returns on a match satisfies `Q`. -/
def Post (Q : τ → Prop) (p : List Token → Res τ) : Prop :=
  ∀ (ts : List Token) (v : τ) (n : Nat), p ts = .ok v n → Q v

/-- A node started on a parent satisfying `A` returns, on a match, a parent
satisfying `B`. -/
def Triple (A : σ → Prop) (p : Node σ) (B : σ → Prop) : Prop :=
  ∀ (s : σ) (ts : List Token) (s1 : σ) (n : Nat), A s → p s ts = .ok s1 n → B s1

/-- Number of variants of a `Source` that are populated. -/
def Source.variantCount {S : Type} (s : Source S) : Nat :=
  s.FromState.isSome.toNat + s.From.isSome.toNat + s.Scratch.isSome.toNat
    + s.Image.isSome.toNat + s.HTTP.isSome.toNat + s.Git.isSome.toNat

/-- `P` holds for the state a `FromState` holds. -/
def FromState.nested {S : Type} (P : S → Prop) (x : FromState S) : Prop :=
  ∀ st, x.Input = some st → P st

/-- `P` holds for the state a `MountState` holds. -/
def MountState.nested {S : Type} (P : S → Prop) (x : MountState S) : Prop :=
  ∀ st, x.Input = some st → P st

/-- `P` holds for the state a `CopyState` holds. -/
def CopyState.nested {S : Type} (P : S → Prop) (x : CopyState S) : Prop :=
  ∀ st, x.Input = some st → P st

/-- `P` holds for the state nested in an `ExecField` (through `mount`). -/
def ExecField.nested {S : Type} (P : S → Prop) (x : ExecField S) : Prop :=
  ∀ m, x.MountState = some m → m.nested P

/-- `P` holds for the states nested in the option block of an `Exec`. -/
def Exec.nested {S : Type} (P : S → Prop) (x : Exec S) : Prop :=
  ∀ ob, x.Option = some ob → ∀ f ∈ ob.Fields, f.nested P

/-- `P` holds for the states directly nested in an `Op`. -/
def Op.nested {S : Type} (P : S → Prop) (x : Op S) : Prop :=
  (∀ e, x.Exec = some e → e.nested P) ∧ (∀ c, x.CopyState = some c → c.nested P)

/-- `P` holds for the state directly nested in a `Source`. -/
def Source.nested {S : Type} (P : S → Prop) (x : Source S) : Prop :=
  ∀ fs, x.FromState = some fs → fs.nested P

/-- `P` holds for every state directly nested in a body: in its source and in
its ops. -/
def StateBody.nested {S : Type} (P : S → Prop) (b : StateBody S) : Prop :=
  (∀ src, b.Source = some src → src.nested P) ∧ (∀ op ∈ b.Ops, op.nested P)

/-- `Q` holds for every body found at most `d` levels of nesting below a state. -/
def State.allBodies (Q : StateBody State → Prop) : Nat → State → Prop
  | 0, _ => True
  | d + 1, st => ∀ b, st.Body = some b → Q b ∧ b.nested (State.allBodies Q d)

/-- `Q` holds for the body of an entry and for every body nested in it, down
to depth `d`. -/
def Entry.allBodies (Q : StateBody Hlb.State → Prop) (d : Nat) (e : Entry) : Prop :=
  ∀ se, e.State = some se → ∀ b, se.Body = some b →
    Q b ∧ b.nested (Hlb.State.allBodies Q d)

/-- `Q` holds for every body of an AST, top-level or nested, down to depth `d`. -/
def AST.allBodies (Q : StateBody State → Prop) (d : Nat) (ast : AST) : Prop :=
  ∀ e ∈ ast.Entries, e.allBodies Q d

/-- A `Source` no variant of which is populated yet. -/
def Source.blank {S : Type} (s : Source S) : Prop :=
  s.FromState = none ∧ s.From = none ∧ s.Scratch = none ∧ s.Image = none ∧ s.HTTP = none
    ∧ s.Git = none

/-- What holds of a body under construction: its source, once assigned, has
exactly one variant, and `P` holds for the states nested so far. -/
def StateBody.sound {S : Type} (P : S → Prop) (b : StateBody S) : Prop :=
  (∀ src, b.Source = some src → src.variantCount = 1 ∧ src.nested P)
    ∧ (∀ op ∈ b.Ops, op.nested P)

/-- A position on line 1 of a document (column = offset + 1). -/
def onLine1 (offset : Nat) : Position := ⟨offset, 1, offset + 1⟩

/-- The texts that start a `Source`: the first literal of each of its six
alternatives. -/
def sourceStarts : List Str :=
  ["from".toList, "scratch".toList, "image".toList, "http".toList, "git".toList]

/-- The AST of `state a \x7b from state \x7b from b \x7d \x7d`. -/
def fromStateAST : AST :=
  { Pos := onLine1 0,
    Entries := [{ Pos := onLine1 0,
                  State := some
                    { Pos := onLine1 6, Name := "a".toList,
                      Body := some
                        { Pos := onLine1 8,
                          Source := some
                            { Pos := onLine1 10,
                              FromState := some
                                { Pos := onLine1 15,
                                  Input := some (.mk (onLine1 15) (some "state".toList)
                                    (some
                                      { Pos := onLine1 21,
                                        Source := some
                                          { Pos := onLine1 23,
                                            From := some
                                              { Pos := onLine1 28, Input := "b".toList } },
                                        BlockEnd :=
                                          { Pos := onLine1 30, Brace := "\x7d".toList } })) } },
                          BlockEnd := { Pos := onLine1 32, Brace := "\x7d".toList } } } }] }

/-- The AST of `state a \x7b from \x7b scratch \x7d \x7d`. -/
def fromBodyAST : AST :=
  { Pos := onLine1 0,
    Entries := [{ Pos := onLine1 0,
                  State := some
                    { Pos := onLine1 6, Name := "a".toList,
                      Body := some
                        { Pos := onLine1 8,
                          Source := some
                            { Pos := onLine1 10,
                              FromState := some
                                { Pos := onLine1 15,
                                  Input := some (.mk (onLine1 15) none
                                    (some
                                      { Pos := onLine1 15,
                                        Source := some
                                          { Pos := onLine1 17,
                                            Scratch := some "scratch".toList },
                                        BlockEnd :=
                                          { Pos := onLine1 25, Brace := "\x7d".toList } })) } },
                          BlockEnd := { Pos := onLine1 27, Brace := "\x7d".toList } } } }] }

/-- Tokens of the inline state `state \x7b scratch; mkfile "/f" 0644 "hi" \x7d`
as written at offset 5 of line 1, after `copy`. -/
def mkfileStateTokens : List Token :=
  [tokAt .Keyword "state" 5, tokAt .Operator "\x7b" 11, tokAt .Ident "scratch" 13,
   tokAt .Operator ";" 20, tokAt .Ident "mkfile" 22, tokAt .String "/f" 29,
   tokAt .Int "0644" 34, tokAt .String "hi" 39, tokAt .Operator "\x7d" 44]

/-- The state that `mkfileStateTokens` denotes. -/
def mkfileState : State :=
  .mk (onLine1 5) (some "state".toList)
    (some
      { Pos := onLine1 11,
        Source := some { Pos := onLine1 13, Scratch := some "scratch".toList },
        Ops := [{ Pos := onLine1 22,
                  Mkfile := some { Pos := onLine1 29, Path := "/f".toList,
                                   Mode := some { Pos := onLine1 34, Value := 420 },
                                   Content := "hi".toList } }],
        BlockEnd := { Pos := onLine1 44, Brace := "\x7d".toList } })

/-- Kind and text of a token. -/
def Token.key (t : Token) : TokenKind × Str := (t.kind, t.value)

/-- The (kind, text) sequence of a tokenizer result. -/
def keysOf : Except LexError (List Token) → Option (List (TokenKind × Str))
  | .ok ts => some (ts.map Token.key)
  | .error _ => none

/-- The (kind, text) sequence of the tokens of an input; `none` when the input
is not lexically valid. -/
def lexKeys (s : List Char) : Option (List (TokenKind × Str)) := keysOf (lex s)

/-- A token with its position blanked. -/
def Token.blank (t : Token) : Token := { t with pos := ⟨0, 0, 0⟩ }

/-- The struct value a result carries: the finished value, or the partial one
of an error. -/
def Res.state? : Res σ → Option σ
  | .ok s _ => some s
  | .noMatch => none
  | .err _ s _ => some s

/-- A result with its cursor advance counted from `k` tokens earlier. -/
def Res.shift (k : Nat) : Res σ → Res σ
  | .ok s n => .ok s (k + n)
  | .noMatch => .noMatch
  | .err e s n => .err e s (k + n)

/-- No declaration without separator is directly followed by a `;` of `rest`. -/
def SepClosed (ds : List (List Token × Option Token)) (rest : List Token) : Prop :=
  ∀ d, ds.getLast? = some (d, none) → ∀ t r, rest = t :: r → t.value ≠ ";".toList

/-- `ParseInfo`: the two writers and the colour setting (`aurora.NewAurora(b)`
is kept as the boolean `b`). -/
structure ParseInfo (W : Type) where
  Stdout : W
  Stderr : W
  Color : Bool

/-- `ParseOption`: `func(*ParseInfo) error`; the updated info, or the error. -/
abbrev ParseOption (W E : Type) := ParseInfo W → Except E (ParseInfo W)

def WithStdout {W E : Type} (stdout : W) : ParseOption W E :=
  fun i => .ok { i with Stdout := stdout }

def WithStderr {W E : Type} (stderr : W) : ParseOption W E :=
  fun i => .ok { i with Stderr := stderr }

def WithColor {W E : Type} (color : Bool) : ParseOption W E :=
  fun i => .ok { i with Color := color }

/-- The loop `for _, opt := range opts` of `Parse`: the first error stops it. -/
def applyOptions {W E : Type} (info : ParseInfo W) : List (ParseOption W E) →
    Except E (ParseInfo W)
  | [] => .ok info
  | opt :: opts =>
    match opt info with
    | .error e => .error e
    | .ok info1 => applyOptions info1 opts

/-- Modelled from the spec: the two diagnostic entry points (`newLexerError` and
`newSyntaxError`, whose code is not in `parse.go`), as functions of the colour
setting, the captured input and the failure, into rendered diagnostics `D`;
per section 4.4 they are pure formatting functions. -/
structure Renderers (D : Type) where
  lexical : Bool → List Char → LexError → D
  grammar : Bool → List Char → ParseError → D

/-- The error value of `Parse` called with options: the error of an option, or
a rendered diagnostic. -/
inductive Failure (E D : Type) where
  | option (e : E)
  | diagnostic (d : D)

/-- `Parse(r, opts...)`: the options are applied to the default `ParseInfo`
(writers `stdout` and `stderr`, colour off), then the input is tokenized and
parsed; the colour setting reaches the renderers only. -/
def ParseWithOptions {W E D : Type} (R : Renderers D) (stdout stderr : W)
    (input : List Char) (opts : List (ParseOption W E)) : Option AST × Option (Failure E D) :=
  match applyOptions { Stdout := stdout, Stderr := stderr, Color := false } opts with
  | .error e => (none, some (.option e))
  | .ok info =>
    match lex input with
    | .error e => (none, some (.diagnostic (R.lexical info.Color input e)))
    | .ok ts =>
      match parseTokens ts with
      | (ast, none) => (ast, none)
      | (ast, some (.grammar e)) => (ast, some (.diagnostic (R.grammar info.Color input e)))
      | (ast, some (.lexical e)) => (ast, some (.diagnostic (R.lexical info.Color input e)))

/-- An option built from `WithStdout`, `WithStderr` or `WithColor`. -/
def Builtin {W E : Type} (o : ParseOption W E) : Prop :=
  (∃ w, o = WithStdout w) ∨ (∃ w, o = WithStderr w) ∨ (∃ c, o = WithColor c)

/-- Renderers that only report the colour setting, used as an example. -/
def colourOnly : Renderers Bool :=
  { lexical := fun c _ _ => c, grammar := fun c _ _ => c }

/-- Position of the character that follows the text `pre` of an input: byte
offset counted from 0, line and column counted from 1 (the column counts the
characters after the last newline of `pre`). -/
def sourcePosition (pre : List Char) : Position :=
  { offset := byteLen pre
    line := 1 + pre.count '\n'
    column := 1 + (afterLastNewline pre).length }

/-- The token `t` is the one the tokenizer rules produce at the text `suf`:
the end-of-input marker at the end of the text, or the match of the first
rule that matches there. -/
def TokenAt (t : Token) (suf : List Char) : Prop :=
  (t.kind = .EOF ∧ t.value = [] ∧ suf = []) ∨
    ∃ n, matchRules suf = some (.emit t.kind n) ∧
      (if t.kind = .String then unquote (suf.take n) else some (suf.take n)) = some t.value

/-- A node that leaves the recorded position of its parent alone. -/
def Keeps (pos : σ → Position) (p : Node σ) : Prop :=
  ∀ (s : σ) (ts : List Token) (s1 : σ) (n : Nat), p s ts = .ok s1 n → pos s1 = pos s

/-- A node that only matches by consuming a token. -/
def Starts (p : Node σ) : Prop :=
  ∀ (s : σ) (ts : List Token) (s1 : σ) (n : Nat), p s ts = .ok s1 n → ts ≠ [] ∧ 1 ≤ n

/-- A struct parser that only matches by consuming a token. -/
def StartsP (p : List Token → Res τ) : Prop :=
  ∀ (ts : List Token) (v : τ) (n : Nat), p ts = .ok v n → ts ≠ [] ∧ 1 ≤ n

/-- The value of a match records the position of the token under the cursor. -/
def StampsNext (pos : τ → Position) (p : List Token → Res τ) : Prop :=
  ∀ (ts : List Token) (v : τ) (n : Nat), p ts = .ok v n → pos v = (peek ts).pos

/-- The value of a match records the position of the first token the match
consumed. -/
def StampsFirst (pos : τ → Position) (p : List Token → Res τ) : Prop :=
  ∀ (ts : List Token) (v : τ) (n : Nat), p ts = .ok v n →
    ∃ t rest, ts = t :: rest ∧ 1 ≤ n ∧ pos v = t.pos

/-- Every value a struct parser returns on a match at a suffix of the token
stream `toks` satisfies `Q`. -/
def PostOn (toks : List Token) (Q : τ → Prop) (p : List Token → Res τ) : Prop :=
  ∀ (ts : List Token) (v : τ) (n : Nat), ts <:+ toks → p ts = .ok v n → Q v

/-- A node started at a suffix of the token stream `toks` on a parent
satisfying `A` returns, on a match, a parent satisfying `B`. -/
def TripleOn (toks : List Token) (A : σ → Prop) (p : Node σ) (B : σ → Prop) : Prop :=
  ∀ (s : σ) (ts : List Token) (s1 : σ) (n : Nat), ts <:+ toks → A s → p s ts = .ok s1 n → B s1

/-- The body `b` is delimited in the token stream `toks`: it records the
position of a token `\x7b` of the stream, and its block end the position of a
later token `\x7d`. -/
def StateBody.delimitedIn {S : Type} (toks : List Token) (b : StateBody S) : Prop :=
  ∃ (i j : Nat) (lb rb : Token), i < j ∧ toks[i]? = some lb ∧ toks[j]? = some rb
    ∧ lb.value = "\x7b".toList ∧ rb.value = "\x7d".toList
    ∧ b.Pos = lb.pos ∧ b.BlockEnd.Pos = rb.pos

/-- The entry `e` records the position of a token `state` of the stream `toks`. -/
def Entry.keywordIn (toks : List Token) (e : Entry) : Prop :=
  ∃ (i : Nat) (t : Token), toks[i]? = some t ∧ t.value = "state".toList ∧ e.Pos = t.pos

/-- A document spread over three lines. -/
def spreadDoc : List Char := "state a \x7b\n  scratch\n\x7d".toList

/-- The token stream of `spreadDoc`. -/
def spreadTokens : List Token :=
  [⟨.Keyword, "state".toList, ⟨0, 1, 1⟩⟩, ⟨.Ident, "a".toList, ⟨6, 1, 7⟩⟩,
    ⟨.Operator, "\x7b".toList, ⟨8, 1, 9⟩⟩, ⟨.Ident, "scratch".toList, ⟨12, 2, 3⟩⟩,
    ⟨.Operator, "\x7d".toList, ⟨20, 3, 1⟩⟩, ⟨.EOF, [], ⟨21, 3, 2⟩⟩]

/-- The AST of `spreadDoc`. -/
def spreadAST : AST :=
  { Pos := ⟨0, 1, 1⟩,
    Entries := [{
      Pos := ⟨0, 1, 1⟩,
      State := some
        { Pos := ⟨6, 1, 7⟩, Name := "a".toList,
          Body := some
            { Pos := ⟨8, 1, 9⟩,
              Source := some { Pos := ⟨12, 2, 3⟩, Scratch := some "scratch".toList },
              BlockEnd := { Pos := ⟨20, 3, 1⟩, Brace := "\x7d".toList } } } }] }

/-! ## Properties of the engine: what a node's result depends on -/

theorem allNodes_nil (P : Node σ → Prop) : AllNodes P [] := trivial

theorem allNodes_cons {P : Node σ → Prop} {p : Node σ} {ps : List (Node σ)}
    (h : P p) (hs : AllNodes P ps) : AllNodes P (p :: ps) := ⟨h, hs⟩

/-- A node whose result only depends on the token under the cursor is stable. -/
theorem stable_of_head {p : Node σ}
    (h : ∀ s t r r', p s (t :: r) = p s (t :: r')) : Stable p := by
  intro s y t rest rest' _ _
  cases y with
  | nil => exact h s t rest' rest
  | cons a y => exact h s a _ _

theorem stable_lit (v : Str) : Stable (lit v : Node σ) :=
  stable_of_head (fun _ _ _ _ => rfl)

theorem stable_capLit (v : Str) (set : σ → Str → σ) : Stable (capLit v set) :=
  stable_of_head (fun _ _ _ _ => rfl)

theorem stable_capTok (k : TokenKind) (set : σ → Str → σ) : Stable (capTok k set) :=
  stable_of_head (fun _ _ _ _ => rfl)

theorem stable_capNum (k : TokenKind) (conv : Str → Option β) (set : σ → β → σ) :
    Stable (capNum k conv set) :=
  stable_of_head (fun _ _ _ _ => rfl)

theorem stable_capStruct {child : List Token → Res τ} (set : σ → τ → σ)
    (h : StableP child) : Stable (capStruct child set) := by
  intro s y t rest rest' hc hle
  have hle' : (child (y ++ t :: rest)).consumed ≤ y.length := by
    unfold capStruct at hle
    cases hr : child (y ++ t :: rest) <;> simp [hr, Res.consumed] at hle ⊢ <;> exact hle
  unfold capStruct
  rw [h y t rest rest' hc hle']

theorem peek_append_cons (y : List Token) (t : Token) (r r' : List Token) :
    peek (y ++ t :: r) = peek (y ++ t :: r') := by
  cases y <;> rfl

theorem stableP_strct {expr : Node τ} (zero : Position → τ)
    (h : Stable expr) : StableP (strct zero expr) := by
  intro y t rest rest' hc hle
  unfold strct at hle ⊢
  rw [peek_append_cons y t rest' rest]
  rw [peek_append_cons y t rest rest] at hle
  exact h _ y t rest rest' hc hle

theorem drop_append_cons {n : Nat} {y : List Token} (h : n ≤ y.length) (t : Token)
    (r : List Token) : (y ++ t :: r).drop n = y.drop n ++ t :: r :=
  List.drop_append_of_le_length h

theorem stable_andThen {p q : Node σ} (e : Expect) (hp : Stable p) (hq : Stable q) :
    Stable (andThen p e q) := by
  intro s y t rest rest' hc hle
  unfold andThen at hle ⊢
  cases hr : p s (y ++ t :: rest) with
  | noMatch =>
    rw [hp s y t rest rest' hc (by simp [hr, Res.consumed])]
    simp [hr]
  | err e1 s1 n =>
    have hn : n ≤ y.length := by simpa [hr, Res.consumed] using hle
    rw [hp s y t rest rest' hc (by simpa [hr, Res.consumed] using hn)]
    simp [hr]
  | ok s1 n =>
    rw [hr] at hle
    simp only at hle
    have hn : n ≤ y.length := by
      cases hq1 : q s1 (List.drop n (y ++ t :: rest)) <;>
        rw [hq1] at hle <;> simp [Res.consumed] at hle <;> omega
    rw [hp s y t rest rest' hc (by simpa [hr, Res.consumed] using hn), hr]
    simp only
    rw [drop_append_cons hn, drop_append_cons hn] at *
    have hq2 : (q s1 (List.drop n y ++ t :: rest)).consumed ≤ (List.drop n y).length := by
      rw [List.length_drop]
      cases hq1 : q s1 (List.drop n y ++ t :: rest) <;>
        rw [hq1] at hle <;> simp [Res.consumed] at hle ⊢ <;> omega
    rw [hq s1 _ t rest rest' hc hq2, peek_append_cons _ t rest' rest]

theorem soft_branch_le {p : Node σ} (hl : Lead p) {s : σ} {y : List Token} {t : Token}
    {rest : List Token} (hc : Closer t) {e : ParseError} {s1 : σ} {n : Nat}
    (hr : p s (y ++ t :: rest) = .err e s1 n) (hn : ¬ n > lookahead) : n ≤ y.length := by
  cases y with
  | nil =>
    have := hl.1 s t rest hc
    simp at hr
    rw [this] at hr
    cases hr
  | cons a y =>
    simp [lookahead] at hn ⊢
    omega

theorem stable_opt {p : Node σ} (hp : Stable p) (hl : Lead p) : Stable (opt p) := by
  intro s y t rest rest' hc hle
  unfold opt at hle ⊢
  cases hr : p s (y ++ t :: rest) with
  | noMatch =>
    rw [hp s y t rest rest' hc (by simp [hr, Res.consumed])]
    simp [hr]
  | ok s1 n =>
    have hn : n ≤ y.length := by simpa [hr, Res.consumed] using hle
    rw [hp s y t rest rest' hc (by simpa [hr, Res.consumed] using hn)]
    simp [hr]
  | err e1 s1 n =>
    have hn : n ≤ y.length := by
      by_cases h1 : n > lookahead
      · simpa [hr, Res.consumed, h1] using hle
      · exact soft_branch_le hl hc hr h1
    rw [hp s y t rest rest' hc (by simpa [hr, Res.consumed] using hn)]
    simp [hr]

theorem manyLoop_stable {p : Node σ} (hp : Stable p) (hl : Lead p) (t : Token)
    (rest rest' : List Token) (hc : Closer t) :
    ∀ (f f' : Nat) (y : List Token) (s : σ), y.length < f → y.length < f' →
      (manyLoop p f s (y ++ t :: rest)).consumed ≤ y.length →
      manyLoop p f' s (y ++ t :: rest') = manyLoop p f s (y ++ t :: rest) := by
  intro f
  induction f with
  | zero => intro f' y s h; omega
  | succ f ih =>
    intro f' y s hf hf' hle
    cases f' with
    | zero => omega
    | succ f' =>
      unfold manyLoop at hle ⊢
      cases hr : p s (y ++ t :: rest) with
      | noMatch =>
        rw [hp s y t rest rest' hc (by simp [hr, Res.consumed])]
        simp [hr]
      | err e1 s1 n =>
        have hn : n ≤ y.length := by
          by_cases h1 : n > lookahead
          · simpa [hr, Res.consumed, h1] using hle
          · exact soft_branch_le hl hc hr h1
        rw [hp s y t rest rest' hc (by simpa [hr, Res.consumed] using hn)]
        simp [hr]
      | ok s1 n =>
        rw [hr] at hle
        simp only at hle
        have h1 : 1 ≤ n := hl.2.1 _ _ _ _ hr
        have hn : n ≤ y.length := by
          cases hq1 : manyLoop p f s1 (List.drop n (y ++ t :: rest)) <;>
            rw [hq1] at hle <;> simp [Res.consumed] at hle <;> omega
        rw [hp s y t rest rest' hc (by simpa [hr, Res.consumed] using hn), hr]
        simp only
        rw [drop_append_cons hn, drop_append_cons hn] at *
        have hlen : (List.drop n y).length = y.length - n := List.length_drop _ _
        have hq2 : (manyLoop p f s1 (List.drop n y ++ t :: rest)).consumed
            ≤ (List.drop n y).length := by
          rw [hlen]
          cases hq1 : manyLoop p f s1 (List.drop n y ++ t :: rest) <;>
            rw [hq1] at hle <;> simp [Res.consumed] at hle ⊢ <;> omega
        rw [ih f' (List.drop n y) s1 (by omega) (by omega) hq2]

theorem stable_many {p : Node σ} (hp : Stable p) (hl : Lead p) : Stable (many p) := by
  intro s y t rest rest' hc hle
  unfold many at hle ⊢
  exact manyLoop_stable hp hl t rest rest' hc _ _ y s (by simp) (by simp) hle

theorem branch_intro {p : Node σ} (hp : Stable p) (hl : Lead p) : Branch p := ⟨hp, hl⟩

theorem altLoop_stable (t : Token) (rest rest' : List Token) (hc : Closer t)
    (s : σ) (y : List Token) :
    ∀ (ps : List (Node σ)) (best : Option (ParseError × Nat)), AllNodes Branch ps →
      (altLoop s (y ++ t :: rest) ps best).consumed ≤ y.length →
      altLoop s (y ++ t :: rest') ps best = altLoop s (y ++ t :: rest) ps best := by
  intro ps
  induction ps with
  | nil => intro best _ _; cases best <;> rfl
  | cons p ps ih =>
    intro best hall hle
    obtain ⟨⟨hp, hl⟩, hps⟩ := hall
    unfold altLoop at hle ⊢
    cases hr : p s (y ++ t :: rest) with
    | noMatch =>
      rw [hp s y t rest rest' hc (by simp [hr, Res.consumed])]
      rw [hr] at hle ⊢
      exact ih best hps hle
    | ok s1 n =>
      have hn : n ≤ y.length := by simpa [hr, Res.consumed] using hle
      rw [hp s y t rest rest' hc (by simpa [hr, Res.consumed] using hn)]
      simp [hr]
    | err e1 s1 n =>
      have hn : n ≤ y.length := by
        by_cases h1 : n > lookahead
        · simpa [hr, Res.consumed, h1] using hle
        · exact soft_branch_le hl hc hr h1
      rw [hp s y t rest rest' hc (by simpa [hr, Res.consumed] using hn)]
      rw [hr] at hle ⊢
      simp only at hle ⊢
      by_cases h1 : n > lookahead
      · simp [h1]
      · simp only [h1, if_false] at hle ⊢
        exact ih _ hps hle

theorem stable_alt {ps : List (Node σ)} (h : AllNodes Branch ps) : Stable (alt ps) := by
  intro s y t rest rest' hc hle
  exact altLoop_stable t rest rest' hc s y ps none h hle

/-! ### Leading nodes -/

theorem lead_lit {v : Str} (h : v ≠ closeBrace) : Lead (lit v : Node σ) := by
  refine ⟨?_, ?_, fun _ => rfl⟩
  · intro s t rest hc
    simp [lit, hc.1, Ne.symm h]
  · intro s ts s1 n hr
    unfold lit at hr
    split at hr
    · cases hr
    · split at hr <;> cases hr
      exact le_refl 1

theorem lead_capLit {v : Str} (set : σ → Str → σ) (h : v ≠ closeBrace) :
    Lead (capLit v set) := by
  refine ⟨?_, ?_, fun _ => rfl⟩
  · intro s t rest hc
    simp [capLit, hc.1, Ne.symm h]
  · intro s ts s1 n hr
    unfold capLit at hr
    split at hr
    · cases hr
    · split at hr <;> cases hr
      exact le_refl 1

theorem lead_capIdent (set : σ → Str → σ) : Lead (capTok .Ident set) := by
  refine ⟨?_, ?_, fun _ => rfl⟩
  · intro s t rest hc
    simp [capTok, hc.2]
  · intro s ts s1 n hr
    unfold capTok at hr
    split at hr
    · cases hr
    · split at hr <;> cases hr
      exact le_refl 1

theorem lead_capStruct {child : List Token → Res τ} (set : σ → τ → σ) (h : LeadP child) :
    Lead (capStruct child set) := by
  refine ⟨?_, ?_, fun _ => by simp [capStruct, h.2.2]⟩
  · intro s t rest hc
    simp [capStruct, h.1 t rest hc]
  · intro s ts s1 n hr
    unfold capStruct at hr
    cases hc : child ts with
    | ok v m => rw [hc] at hr; cases hr; exact h.2.1 _ _ _ hc
    | noMatch => rw [hc] at hr; cases hr
    | err e v m => rw [hc] at hr; cases hr

theorem leadP_strct {expr : Node τ} (zero : Position → τ) (h : Lead expr) :
    LeadP (strct zero expr) :=
  ⟨fun t rest hc => h.1 _ t rest hc, fun ts v n hr => h.2.1 _ ts v n hr, h.2.2 _⟩

theorem lead_andThen {p : Node σ} (e : Expect) (q : Node σ) (h : Lead p) :
    Lead (andThen p e q) := by
  refine ⟨?_, ?_, fun s => by simp [andThen, h.2.2 s]⟩
  · intro s t rest hc
    simp [andThen, h.1 s t rest hc]
  · intro s ts s1 n hr
    unfold andThen at hr
    cases hp : p s ts with
    | noMatch => rw [hp] at hr; cases hr
    | err e1 s2 m => rw [hp] at hr; cases hr
    | ok s2 m =>
      rw [hp] at hr
      simp only at hr
      have := h.2.1 _ _ _ _ hp
      cases hq : q s2 (List.drop m ts) <;> rw [hq] at hr <;> cases hr
      omega

theorem altLoop_lead (s : σ) :
    ∀ (ps : List (Node σ)), AllNodes Lead ps →
      (∀ t rest, Closer t → altLoop s (t :: rest) ps none = .noMatch) ∧
      (∀ ts best s1 n, altLoop s ts ps best = .ok s1 n → 1 ≤ n) ∧
      altLoop s [] ps none = .noMatch := by
  intro ps
  induction ps with
  | nil =>
    intro _
    refine ⟨fun _ _ _ => rfl, ?_, rfl⟩
    intro ts best s1 n hr
    cases best <;> cases hr
  | cons p ps ih =>
    intro hall
    obtain ⟨hp, hps⟩ := hall
    obtain ⟨ih1, ih2, ih3⟩ := ih hps
    refine ⟨?_, ?_, ?_⟩
    · intro t rest hc
      unfold altLoop
      rw [hp.1 s t rest hc]
      exact ih1 t rest hc
    · intro ts best s1 n hr
      unfold altLoop at hr
      cases hq : p s ts with
      | noMatch => rw [hq] at hr; exact ih2 _ _ _ _ hr
      | ok s2 m => rw [hq] at hr; cases hr; exact hp.2.1 _ _ _ _ hq
      | err e s2 m =>
        rw [hq] at hr
        simp only at hr
        split at hr
        · cases hr
        · exact ih2 _ _ _ _ hr
    · unfold altLoop
      rw [hp.2.2 s]
      exact ih3

theorem lead_alt {ps : List (Node σ)} (h : AllNodes Lead ps) : Lead (alt ps) :=
  ⟨fun s t rest hc => (altLoop_lead s ps h).1 t rest hc,
   fun s ts s1 n hr => (altLoop_lead s ps h).2.1 ts none s1 n hr,
   fun s => (altLoop_lead s ps h).2.2⟩

/-! ### Nodes that end by consuming a closing brace -/

theorem tight_capLit_close (set : σ → Str → σ) : Tight (capLit closeBrace set) := by
  intro s ts s1 n hr
  unfold capLit at hr
  cases ts with
  | nil => cases hr
  | cons t rest =>
    simp only at hr
    by_cases hv : t.value = closeBrace
    · rw [if_pos hv] at hr
      cases hr
      exact ⟨[], t, rest, rfl, rfl, hv, fun _ rest' => by simp [capLit, hv]⟩
    · rw [if_neg hv] at hr
      cases hr

theorem tight_capStruct {child : List Token → Res τ} (set : σ → τ → σ) (h : TightP child) :
    Tight (capStruct child set) := by
  intro s ts s1 n hr
  unfold capStruct at hr
  cases hc : child ts with
  | noMatch => rw [hc] at hr; cases hr
  | err e v m => rw [hc] at hr; cases hr
  | ok v m =>
    rw [hc] at hr
    obtain ⟨y, t, rest, h1, h2, h3, h4⟩ := h ts v m hc
    cases hr
    exact ⟨y, t, rest, h1, h2, h3, fun hk rest' => by simp [capStruct, h4 hk rest']⟩

theorem tightP_strct {expr : Node τ} (zero : Position → τ) (h : Tight expr) :
    TightP (strct zero expr) := by
  intro ts v n hr
  unfold strct at hr
  obtain ⟨y, t, rest, h1, h2, h3, h4⟩ := h _ ts v n hr
  refine ⟨y, t, rest, h1, h2, h3, fun hk rest' => ?_⟩
  unfold strct
  rw [peek_append_cons y t rest' rest, ← h1]
  exact h4 hk rest'

theorem tight_andThen {p q : Node σ} (e : Expect) (hp : Stable p) (hq : Tight q) :
    Tight (andThen p e q) := by
  intro s ts s2 N hr
  unfold andThen at hr
  cases h1 : p s ts with
  | noMatch => rw [h1] at hr; cases hr
  | err e1 s1 n => rw [h1] at hr; cases hr
  | ok s1 n =>
    rw [h1] at hr
    simp only at hr
    cases h2 : q s1 (List.drop n ts) with
    | noMatch => rw [h2] at hr; cases hr
    | err e1 s3 m => rw [h2] at hr; cases hr
    | ok s3 m =>
      rw [h2] at hr
      cases hr
      obtain ⟨y2, t, rest, e1, e2, e3, e4⟩ := hq s1 _ s2 m h2
      have hlen : n ≤ ts.length := by
        by_contra hc
        rw [List.drop_eq_nil_of_le (by omega)] at e1
        cases y2 <;> cases e1
      have hts : ts = (List.take n ts ++ y2) ++ t :: rest := by
        rw [List.append_assoc, ← e1, List.take_append_drop]
      have hyl : (List.take n ts ++ y2).length = n + y2.length := by
        simp [List.length_take, hlen]
      refine ⟨List.take n ts ++ y2, t, rest, hts, by omega, e3, fun hk rest' => ?_⟩
      have hst := hp s (List.take n ts ++ y2) t rest rest' ⟨e3, hk⟩
        (by rw [← hts, h1]; simp [Res.consumed]; omega)
      unfold andThen
      rw [hst, ← hts, h1]
      simp only
      have hd : List.drop n (List.take n ts ++ y2 ++ t :: rest') = y2 ++ t :: rest' := by
        rw [List.append_assoc, List.drop_append_of_le_length (by simp [hlen])]
        simp [List.drop_take]
      rw [hd, e4 hk rest']

/-! ### Agreement of nodes on short inputs -/

theorem allAgree_nil (L : Nat) : AllAgree L ([] : List (Node σ)) [] := trivial

theorem allAgree_cons {L : Nat} {p p' : Node σ} {ps ps' : List (Node σ)}
    (h : Agree L p p') (hs : AllAgree L ps ps') : AllAgree L (p :: ps) (p' :: ps') := ⟨h, hs⟩

theorem agree_refl (L : Nat) (p : Node σ) : Agree L p p := fun _ _ _ => rfl

theorem agreeP_refl (L : Nat) (p : List Token → Res τ) : AgreeP L p p := fun _ _ => rfl

theorem agree_capStruct {L : Nat} {child child' : List Token → Res τ} (set : σ → τ → σ)
    (h : AgreeP L child child') : Agree L (capStruct child set) (capStruct child' set) := by
  intro s ts hl
  simp [capStruct, h ts hl]

theorem agreeP_strct {L : Nat} {expr expr' : Node τ} (zero : Position → τ)
    (h : Agree L expr expr') : AgreeP L (strct zero expr) (strct zero expr') :=
  fun ts hl => h _ ts hl

theorem agree_andThen {L : Nat} {p p' q q' : Node σ} (e : Expect)
    (hp : Agree L p p') (hq : Agree L q q') : Agree L (andThen p e q) (andThen p' e q') := by
  intro s ts hl
  unfold andThen
  rw [← hp s ts hl]
  cases p s ts with
  | noMatch => rfl
  | err e1 s1 n => rfl
  | ok s1 n =>
    simp only
    rw [← hq s1 _ (by rw [List.length_drop]; omega)]

/-- After a leading node, the rest of a sequence runs on a shorter list. -/
theorem agree_andThen_step {L : Nat} {p p' q q' : Node σ} (e : Expect) (hl : Lead p)
    (hp : Agree (L + 1) p p') (hq : Agree L q q') :
    Agree (L + 1) (andThen p e q) (andThen p' e q') := by
  intro s ts hlen
  unfold andThen
  rw [← hp s ts hlen]
  cases hr : p s ts with
  | noMatch => rfl
  | err e1 s1 n => rfl
  | ok s1 n =>
    simp only
    have h1 : 1 ≤ n := hl.2.1 _ _ _ _ hr
    have hne : ts ≠ [] := by
      intro h0
      rw [h0, hl.2.2 s] at hr
      cases hr
    have : 0 < ts.length := List.length_pos.mpr hne
    rw [← hq s1 _ (by rw [List.length_drop]; omega)]

theorem agree_opt {L : Nat} {p p' : Node σ} (hp : Agree L p p') : Agree L (opt p) (opt p') := by
  intro s ts hl
  unfold opt
  rw [← hp s ts hl]

theorem manyLoop_agree {L : Nat} {p p' : Node σ} (hp : Agree L p p') :
    ∀ (f : Nat) (s : σ) (ts : List Token), ts.length < L →
      manyLoop p f s ts = manyLoop p' f s ts := by
  intro f
  induction f with
  | zero => intro s ts _; rfl
  | succ f ih =>
    intro s ts hl
    unfold manyLoop
    rw [← hp s ts hl]
    cases p s ts with
    | noMatch => rfl
    | err e1 s1 n => rfl
    | ok s1 n =>
      simp only
      rw [ih s1 _ (by rw [List.length_drop]; omega)]

theorem agree_many {L : Nat} {p p' : Node σ} (hp : Agree L p p') :
    Agree L (many p) (many p') :=
  fun s ts hl => manyLoop_agree hp _ s ts hl

theorem altLoop_agree {L : Nat} (s : σ) (ts : List Token) (hl : ts.length < L) :
    ∀ (ps ps' : List (Node σ)) (best : Option (ParseError × Nat)), AllAgree L ps ps' →
      altLoop s ts ps best = altLoop s ts ps' best := by
  intro ps
  induction ps with
  | nil =>
    intro ps' best h
    cases ps' with
    | nil => rfl
    | cons _ _ => exact absurd h (by simp [AllAgree])
  | cons p ps ih =>
    intro ps' best h
    cases ps' with
    | nil => exact absurd h (by simp [AllAgree])
    | cons p' ps' =>
      obtain ⟨h1, h2⟩ := h
      unfold altLoop
      rw [← h1 s ts hl]
      cases p s ts with
      | noMatch => exact ih ps' best h2
      | ok s1 n => rfl
      | err e1 s1 n =>
        simp only
        split
        · rfl
        · exact ih ps' _ h2

theorem agree_alt {L : Nat} {ps ps' : List (Node σ)} (h : AllAgree L ps ps') :
    Agree L (alt ps) (alt ps') :=
  fun s ts hl => altLoop_agree s ts hl ps ps' none h

/-! ## Stability of the grammar rules -/

theorem BlockEnd_stable : StableP BlockEnd.parse := by
  unfold BlockEnd.parse
  apply_rules [stableP_strct, stable_andThen, stable_capLit, stable_lit, stable_capTok, stable_capNum,
    stable_capStruct, stable_opt, stable_many, stable_alt, allNodes_cons, allNodes_nil,
    branch_intro, lead_lit, lead_capLit, lead_capIdent, lead_capStruct, leadP_strct,
    lead_andThen, lead_alt]
  all_goals try apply_rules [stableP_strct, stable_andThen, stable_capLit, stable_lit, stable_capTok, stable_capNum,
    stable_capStruct, stable_opt, stable_many, stable_alt, allNodes_cons, allNodes_nil,
    branch_intro, lead_lit, lead_capLit, lead_capIdent, lead_capStruct, leadP_strct,
    lead_andThen, lead_alt]
  all_goals try decide

theorem Arg_stable : StableP Arg.parse := by
  unfold Arg.parse
  apply_rules [stableP_strct, stable_andThen, stable_capLit, stable_lit, stable_capTok, stable_capNum,
    stable_capStruct, stable_opt, stable_many, stable_alt, allNodes_cons, allNodes_nil,
    branch_intro, lead_lit, lead_capLit, lead_capIdent, lead_capStruct, leadP_strct,
    lead_andThen, lead_alt]
  all_goals try apply_rules [stableP_strct, stable_andThen, stable_capLit, stable_lit, stable_capTok, stable_capNum,
    stable_capStruct, stable_opt, stable_many, stable_alt, allNodes_cons, allNodes_nil,
    branch_intro, lead_lit, lead_capLit, lead_capIdent, lead_capStruct, leadP_strct,
    lead_andThen, lead_alt]
  all_goals try decide

theorem Arg_lead : LeadP Arg.parse := by
  unfold Arg.parse
  apply_rules [stableP_strct, stable_andThen, stable_capLit, stable_lit, stable_capTok, stable_capNum,
    stable_capStruct, stable_opt, stable_many, stable_alt, allNodes_cons, allNodes_nil,
    branch_intro, lead_lit, lead_capLit, lead_capIdent, lead_capStruct, leadP_strct,
    lead_andThen, lead_alt]
  all_goals try decide

theorem Signature_stable : StableP Signature.parse := by
  unfold Signature.parse
  apply_rules [Arg_stable, Arg_lead, stableP_strct, stable_andThen, stable_capLit, stable_lit,
    stable_capTok, stable_capNum, stable_capStruct, stable_opt, stable_many, stable_alt,
    allNodes_cons, allNodes_nil, branch_intro, lead_lit, lead_capLit, lead_capIdent,
    lead_capStruct, leadP_strct, lead_andThen, lead_alt]
  all_goals try apply_rules [Arg_stable, Arg_lead, stableP_strct, stable_andThen, stable_capLit, stable_lit,
    stable_capTok, stable_capNum, stable_capStruct, stable_opt, stable_many, stable_alt,
    allNodes_cons, allNodes_nil, branch_intro, lead_lit, lead_capLit, lead_capIdent,
    lead_capStruct, leadP_strct, lead_andThen, lead_alt]
  all_goals try decide

theorem Signature_lead : LeadP Signature.parse := by
  unfold Signature.parse
  apply_rules [stableP_strct, stable_andThen, stable_capLit, stable_lit, stable_capTok, stable_capNum,
    stable_capStruct, stable_opt, stable_many, stable_alt, allNodes_cons, allNodes_nil,
    branch_intro, lead_lit, lead_capLit, lead_capIdent, lead_capStruct, leadP_strct,
    lead_andThen, lead_alt]
  all_goals try decide

theorem FileMode_stable : StableP FileMode.parse := by
  unfold FileMode.parse
  apply_rules [stableP_strct, stable_andThen, stable_capLit, stable_lit, stable_capTok, stable_capNum,
    stable_capStruct, stable_opt, stable_many, stable_alt, allNodes_cons, allNodes_nil,
    branch_intro, lead_lit, lead_capLit, lead_capIdent, lead_capStruct, leadP_strct,
    lead_andThen, lead_alt]
  all_goals try apply_rules [stableP_strct, stable_andThen, stable_capLit, stable_lit, stable_capTok, stable_capNum,
    stable_capStruct, stable_opt, stable_many, stable_alt, allNodes_cons, allNodes_nil,
    branch_intro, lead_lit, lead_capLit, lead_capIdent, lead_capStruct, leadP_strct,
    lead_andThen, lead_alt]
  all_goals try decide

theorem ImageField_stable : StableP ImageField.parse := by
  unfold ImageField.parse
  apply_rules [stableP_strct, stable_andThen, stable_capLit, stable_lit, stable_capTok, stable_capNum,
    stable_capStruct, stable_opt, stable_many, stable_alt, allNodes_cons, allNodes_nil,
    branch_intro, lead_lit, lead_capLit, lead_capIdent, lead_capStruct, leadP_strct,
    lead_andThen, lead_alt]
  all_goals try apply_rules [stableP_strct, stable_andThen, stable_capLit, stable_lit, stable_capTok, stable_capNum,
    stable_capStruct, stable_opt, stable_many, stable_alt, allNodes_cons, allNodes_nil,
    branch_intro, lead_lit, lead_capLit, lead_capIdent, lead_capStruct, leadP_strct,
    lead_andThen, lead_alt]
  all_goals try decide

theorem ImageField_lead : LeadP ImageField.parse := by
  unfold ImageField.parse
  apply_rules [stableP_strct, stable_andThen, stable_capLit, stable_lit, stable_capTok, stable_capNum,
    stable_capStruct, stable_opt, stable_many, stable_alt, allNodes_cons, allNodes_nil,
    branch_intro, lead_lit, lead_capLit, lead_capIdent, lead_capStruct, leadP_strct,
    lead_andThen, lead_alt]
  all_goals try decide

theorem OptionBlock_stable {F : Type} {field : List Token → Res F}
    (hs : StableP field) (hl : LeadP field) : StableP (OptionBlock.parse field) := by
  unfold OptionBlock.parse
  apply_rules [BlockEnd_stable, stableP_strct, stable_andThen, stable_capLit, stable_lit, stable_capTok,
    stable_capNum, stable_capStruct, stable_opt, stable_many, stable_alt, allNodes_cons,
    allNodes_nil, branch_intro, lead_lit, lead_capLit, lead_capIdent, lead_capStruct,
    leadP_strct, lead_andThen, lead_alt]
  all_goals try decide

theorem Image_stable : StableP Image.parse := by
  unfold Image.parse withOption
  apply_rules [OptionBlock_stable, ImageField_stable, ImageField_lead, stableP_strct, stable_andThen,
    stable_capLit, stable_lit, stable_capTok, stable_capNum, stable_capStruct, stable_opt,
    stable_many, stable_alt, allNodes_cons, allNodes_nil, branch_intro, lead_lit, lead_capLit,
    lead_capIdent, lead_capStruct, leadP_strct, lead_andThen, lead_alt]
  all_goals try apply_rules [OptionBlock_stable, ImageField_stable, ImageField_lead, stableP_strct, stable_andThen,
    stable_capLit, stable_lit, stable_capTok, stable_capNum, stable_capStruct, stable_opt,
    stable_many, stable_alt, allNodes_cons, allNodes_nil, branch_intro, lead_lit, lead_capLit,
    lead_capIdent, lead_capStruct, leadP_strct, lead_andThen, lead_alt]
  all_goals try decide

theorem Checksum_stable : StableP Checksum.parse := by
  unfold Checksum.parse
  apply_rules [stableP_strct, stable_andThen, stable_capLit, stable_lit, stable_capTok, stable_capNum,
    stable_capStruct, stable_opt, stable_many, stable_alt, allNodes_cons, allNodes_nil,
    branch_intro, lead_lit, lead_capLit, lead_capIdent, lead_capStruct, leadP_strct,
    lead_andThen, lead_alt]
  all_goals try apply_rules [stableP_strct, stable_andThen, stable_capLit, stable_lit, stable_capTok, stable_capNum,
    stable_capStruct, stable_opt, stable_many, stable_alt, allNodes_cons, allNodes_nil,
    branch_intro, lead_lit, lead_capLit, lead_capIdent, lead_capStruct, leadP_strct,
    lead_andThen, lead_alt]
  all_goals try decide

theorem Chmod_stable : StableP Chmod.parse := by
  unfold Chmod.parse
  apply_rules [FileMode_stable, stableP_strct, stable_andThen, stable_capLit, stable_lit, stable_capTok,
    stable_capNum, stable_capStruct, stable_opt, stable_many, stable_alt, allNodes_cons,
    allNodes_nil, branch_intro, lead_lit, lead_capLit, lead_capIdent, lead_capStruct,
    leadP_strct, lead_andThen, lead_alt]
  all_goals try apply_rules [FileMode_stable, stableP_strct, stable_andThen, stable_capLit, stable_lit, stable_capTok,
    stable_capNum, stable_capStruct, stable_opt, stable_many, stable_alt, allNodes_cons,
    allNodes_nil, branch_intro, lead_lit, lead_capLit, lead_capIdent, lead_capStruct,
    leadP_strct, lead_andThen, lead_alt]
  all_goals try decide

theorem Filename_stable : StableP Filename.parse := by
  unfold Filename.parse
  apply_rules [stableP_strct, stable_andThen, stable_capLit, stable_lit, stable_capTok, stable_capNum,
    stable_capStruct, stable_opt, stable_many, stable_alt, allNodes_cons, allNodes_nil,
    branch_intro, lead_lit, lead_capLit, lead_capIdent, lead_capStruct, leadP_strct,
    lead_andThen, lead_alt]
  all_goals try apply_rules [stableP_strct, stable_andThen, stable_capLit, stable_lit, stable_capTok, stable_capNum,
    stable_capStruct, stable_opt, stable_many, stable_alt, allNodes_cons, allNodes_nil,
    branch_intro, lead_lit, lead_capLit, lead_capIdent, lead_capStruct, leadP_strct,
    lead_andThen, lead_alt]
  all_goals try decide

theorem HTTPField_stable : StableP HTTPField.parse := by
  unfold HTTPField.parse
  apply_rules [Checksum_stable, Chmod_stable, Filename_stable, stableP_strct, stable_andThen, stable_capLit,
    stable_lit, stable_capTok, stable_capNum, stable_capStruct, stable_opt, stable_many,
    stable_alt, allNodes_cons, allNodes_nil, branch_intro, lead_lit, lead_capLit, lead_capIdent,
    lead_capStruct, leadP_strct, lead_andThen, lead_alt]
  all_goals try apply_rules [Checksum_stable, Chmod_stable, Filename_stable, stableP_strct, stable_andThen, stable_capLit,
    stable_lit, stable_capTok, stable_capNum, stable_capStruct, stable_opt, stable_many,
    stable_alt, allNodes_cons, allNodes_nil, branch_intro, lead_lit, lead_capLit, lead_capIdent,
    lead_capStruct, leadP_strct, lead_andThen, lead_alt]
  all_goals try decide

theorem HTTPField_lead : LeadP HTTPField.parse := by
  unfold HTTPField.parse
  apply_rules [stableP_strct, stable_andThen, stable_capLit, stable_lit, stable_capTok, stable_capNum,
    stable_capStruct, stable_opt, stable_many, stable_alt, allNodes_cons, allNodes_nil,
    branch_intro, lead_lit, lead_capLit, lead_capIdent, lead_capStruct, leadP_strct,
    lead_andThen, lead_alt]
  all_goals try decide

theorem HTTP_stable : StableP HTTP.parse := by
  unfold HTTP.parse withOption
  apply_rules [OptionBlock_stable, HTTPField_stable, HTTPField_lead, stableP_strct, stable_andThen,
    stable_capLit, stable_lit, stable_capTok, stable_capNum, stable_capStruct, stable_opt,
    stable_many, stable_alt, allNodes_cons, allNodes_nil, branch_intro, lead_lit, lead_capLit,
    lead_capIdent, lead_capStruct, leadP_strct, lead_andThen, lead_alt]
  all_goals try apply_rules [OptionBlock_stable, HTTPField_stable, HTTPField_lead, stableP_strct, stable_andThen,
    stable_capLit, stable_lit, stable_capTok, stable_capNum, stable_capStruct, stable_opt,
    stable_many, stable_alt, allNodes_cons, allNodes_nil, branch_intro, lead_lit, lead_capLit,
    lead_capIdent, lead_capStruct, leadP_strct, lead_andThen, lead_alt]
  all_goals try decide

theorem GitField_stable : StableP GitField.parse := by
  unfold GitField.parse
  apply_rules [stableP_strct, stable_andThen, stable_capLit, stable_lit, stable_capTok, stable_capNum,
    stable_capStruct, stable_opt, stable_many, stable_alt, allNodes_cons, allNodes_nil,
    branch_intro, lead_lit, lead_capLit, lead_capIdent, lead_capStruct, leadP_strct,
    lead_andThen, lead_alt]
  all_goals try apply_rules [stableP_strct, stable_andThen, stable_capLit, stable_lit, stable_capTok, stable_capNum,
    stable_capStruct, stable_opt, stable_many, stable_alt, allNodes_cons, allNodes_nil,
    branch_intro, lead_lit, lead_capLit, lead_capIdent, lead_capStruct, leadP_strct,
    lead_andThen, lead_alt]
  all_goals try decide

theorem GitField_lead : LeadP GitField.parse := by
  unfold GitField.parse
  apply_rules [stableP_strct, stable_andThen, stable_capLit, stable_lit, stable_capTok, stable_capNum,
    stable_capStruct, stable_opt, stable_many, stable_alt, allNodes_cons, allNodes_nil,
    branch_intro, lead_lit, lead_capLit, lead_capIdent, lead_capStruct, leadP_strct,
    lead_andThen, lead_alt]
  all_goals try decide

theorem Git_stable : StableP Git.parse := by
  unfold Git.parse withOption
  apply_rules [OptionBlock_stable, GitField_stable, GitField_lead, stableP_strct, stable_andThen,
    stable_capLit, stable_lit, stable_capTok, stable_capNum, stable_capStruct, stable_opt,
    stable_many, stable_alt, allNodes_cons, allNodes_nil, branch_intro, lead_lit, lead_capLit,
    lead_capIdent, lead_capStruct, leadP_strct, lead_andThen, lead_alt]
  all_goals try apply_rules [OptionBlock_stable, GitField_stable, GitField_lead, stableP_strct, stable_andThen,
    stable_capLit, stable_lit, stable_capTok, stable_capNum, stable_capStruct, stable_opt,
    stable_many, stable_alt, allNodes_cons, allNodes_nil, branch_intro, lead_lit, lead_capLit,
    lead_capIdent, lead_capStruct, leadP_strct, lead_andThen, lead_alt]
  all_goals try decide

theorem Network_stable : StableP Network.parse := by
  unfold Network.parse
  apply_rules [stableP_strct, stable_andThen, stable_capLit, stable_lit, stable_capTok, stable_capNum,
    stable_capStruct, stable_opt, stable_many, stable_alt, allNodes_cons, allNodes_nil,
    branch_intro, lead_lit, lead_capLit, lead_capIdent, lead_capStruct, leadP_strct,
    lead_andThen, lead_alt]
  all_goals try apply_rules [stableP_strct, stable_andThen, stable_capLit, stable_lit, stable_capTok, stable_capNum,
    stable_capStruct, stable_opt, stable_many, stable_alt, allNodes_cons, allNodes_nil,
    branch_intro, lead_lit, lead_capLit, lead_capIdent, lead_capStruct, leadP_strct,
    lead_andThen, lead_alt]
  all_goals try decide

theorem Security_stable : StableP Security.parse := by
  unfold Security.parse
  apply_rules [stableP_strct, stable_andThen, stable_capLit, stable_lit, stable_capTok, stable_capNum,
    stable_capStruct, stable_opt, stable_many, stable_alt, allNodes_cons, allNodes_nil,
    branch_intro, lead_lit, lead_capLit, lead_capIdent, lead_capStruct, leadP_strct,
    lead_andThen, lead_alt]
  all_goals try apply_rules [stableP_strct, stable_andThen, stable_capLit, stable_lit, stable_capTok, stable_capNum,
    stable_capStruct, stable_opt, stable_many, stable_alt, allNodes_cons, allNodes_nil,
    branch_intro, lead_lit, lead_capLit, lead_capIdent, lead_capStruct, leadP_strct,
    lead_andThen, lead_alt]
  all_goals try decide

theorem Host_stable : StableP Host.parse := by
  unfold Host.parse
  apply_rules [stableP_strct, stable_andThen, stable_capLit, stable_lit, stable_capTok, stable_capNum,
    stable_capStruct, stable_opt, stable_many, stable_alt, allNodes_cons, allNodes_nil,
    branch_intro, lead_lit, lead_capLit, lead_capIdent, lead_capStruct, leadP_strct,
    lead_andThen, lead_alt]
  all_goals try apply_rules [stableP_strct, stable_andThen, stable_capLit, stable_lit, stable_capTok, stable_capNum,
    stable_capStruct, stable_opt, stable_many, stable_alt, allNodes_cons, allNodes_nil,
    branch_intro, lead_lit, lead_capLit, lead_capIdent, lead_capStruct, leadP_strct,
    lead_andThen, lead_alt]
  all_goals try decide

theorem CacheID_stable : StableP CacheID.parse := by
  unfold CacheID.parse
  apply_rules [stableP_strct, stable_andThen, stable_capLit, stable_lit, stable_capTok, stable_capNum,
    stable_capStruct, stable_opt, stable_many, stable_alt, allNodes_cons, allNodes_nil,
    branch_intro, lead_lit, lead_capLit, lead_capIdent, lead_capStruct, leadP_strct,
    lead_andThen, lead_alt]
  all_goals try apply_rules [stableP_strct, stable_andThen, stable_capLit, stable_lit, stable_capTok, stable_capNum,
    stable_capStruct, stable_opt, stable_many, stable_alt, allNodes_cons, allNodes_nil,
    branch_intro, lead_lit, lead_capLit, lead_capIdent, lead_capStruct, leadP_strct,
    lead_andThen, lead_alt]
  all_goals try decide

theorem CacheID_lead : LeadP CacheID.parse := by
  unfold CacheID.parse
  apply_rules [stableP_strct, stable_andThen, stable_capLit, stable_lit, stable_capTok, stable_capNum,
    stable_capStruct, stable_opt, stable_many, stable_alt, allNodes_cons, allNodes_nil,
    branch_intro, lead_lit, lead_capLit, lead_capIdent, lead_capStruct, leadP_strct,
    lead_andThen, lead_alt]
  all_goals try decide

theorem SystemID_stable : StableP SystemID.parse := by
  unfold SystemID.parse
  apply_rules [stableP_strct, stable_andThen, stable_capLit, stable_lit, stable_capTok, stable_capNum,
    stable_capStruct, stable_opt, stable_many, stable_alt, allNodes_cons, allNodes_nil,
    branch_intro, lead_lit, lead_capLit, lead_capIdent, lead_capStruct, leadP_strct,
    lead_andThen, lead_alt]
  all_goals try apply_rules [stableP_strct, stable_andThen, stable_capLit, stable_lit, stable_capTok, stable_capNum,
    stable_capStruct, stable_opt, stable_many, stable_alt, allNodes_cons, allNodes_nil,
    branch_intro, lead_lit, lead_capLit, lead_capIdent, lead_capStruct, leadP_strct,
    lead_andThen, lead_alt]
  all_goals try decide

theorem Mountpoint_stable : StableP Mountpoint.parse := by
  unfold Mountpoint.parse
  apply_rules [stableP_strct, stable_andThen, stable_capLit, stable_lit, stable_capTok, stable_capNum,
    stable_capStruct, stable_opt, stable_many, stable_alt, allNodes_cons, allNodes_nil,
    branch_intro, lead_lit, lead_capLit, lead_capIdent, lead_capStruct, leadP_strct,
    lead_andThen, lead_alt]
  all_goals try apply_rules [stableP_strct, stable_andThen, stable_capLit, stable_lit, stable_capTok, stable_capNum,
    stable_capStruct, stable_opt, stable_many, stable_alt, allNodes_cons, allNodes_nil,
    branch_intro, lead_lit, lead_capLit, lead_capIdent, lead_capStruct, leadP_strct,
    lead_andThen, lead_alt]
  all_goals try decide

theorem SSHField_stable : StableP SSHField.parse := by
  unfold SSHField.parse
  apply_rules [Mountpoint_stable, CacheID_stable, CacheID_lead, SystemID_stable, FileMode_stable,
    stableP_strct, stable_andThen, stable_capLit, stable_lit, stable_capTok, stable_capNum,
    stable_capStruct, stable_opt, stable_many, stable_alt, allNodes_cons, allNodes_nil,
    branch_intro, lead_lit, lead_capLit, lead_capIdent, lead_capStruct, leadP_strct,
    lead_andThen, lead_alt]
  all_goals try apply_rules [Mountpoint_stable, CacheID_stable, CacheID_lead, SystemID_stable, FileMode_stable,
    stableP_strct, stable_andThen, stable_capLit, stable_lit, stable_capTok, stable_capNum,
    stable_capStruct, stable_opt, stable_many, stable_alt, allNodes_cons, allNodes_nil,
    branch_intro, lead_lit, lead_capLit, lead_capIdent, lead_capStruct, leadP_strct,
    lead_andThen, lead_alt]
  all_goals try decide

theorem SSHField_lead : LeadP SSHField.parse := by
  unfold SSHField.parse
  apply_rules [stableP_strct, stable_andThen, stable_capLit, stable_lit, stable_capTok, stable_capNum,
    stable_capStruct, stable_opt, stable_many, stable_alt, allNodes_cons, allNodes_nil,
    branch_intro, lead_lit, lead_capLit, lead_capIdent, lead_capStruct, leadP_strct,
    lead_andThen, lead_alt]
  all_goals try decide

theorem SSH_stable : StableP SSH.parse := by
  unfold SSH.parse withOption
  apply_rules [OptionBlock_stable, SSHField_stable, SSHField_lead, stableP_strct, stable_andThen,
    stable_capLit, stable_lit, stable_capTok, stable_capNum, stable_capStruct, stable_opt,
    stable_many, stable_alt, allNodes_cons, allNodes_nil, branch_intro, lead_lit, lead_capLit,
    lead_capIdent, lead_capStruct, leadP_strct, lead_andThen, lead_alt]
  all_goals try apply_rules [OptionBlock_stable, SSHField_stable, SSHField_lead, stableP_strct, stable_andThen,
    stable_capLit, stable_lit, stable_capTok, stable_capNum, stable_capStruct, stable_opt,
    stable_many, stable_alt, allNodes_cons, allNodes_nil, branch_intro, lead_lit, lead_capLit,
    lead_capIdent, lead_capStruct, leadP_strct, lead_andThen, lead_alt]
  all_goals try decide

theorem SecretField_stable : StableP SecretField.parse := by
  unfold SecretField.parse
  apply_rules [CacheID_stable, CacheID_lead, SystemID_stable, FileMode_stable, stableP_strct,
    stable_andThen, stable_capLit, stable_lit, stable_capTok, stable_capNum, stable_capStruct,
    stable_opt, stable_many, stable_alt, allNodes_cons, allNodes_nil, branch_intro, lead_lit,
    lead_capLit, lead_capIdent, lead_capStruct, leadP_strct, lead_andThen, lead_alt]
  all_goals try apply_rules [CacheID_stable, CacheID_lead, SystemID_stable, FileMode_stable, stableP_strct,
    stable_andThen, stable_capLit, stable_lit, stable_capTok, stable_capNum, stable_capStruct,
    stable_opt, stable_many, stable_alt, allNodes_cons, allNodes_nil, branch_intro, lead_lit,
    lead_capLit, lead_capIdent, lead_capStruct, leadP_strct, lead_andThen, lead_alt]
  all_goals try decide

theorem SecretField_lead : LeadP SecretField.parse := by
  unfold SecretField.parse
  apply_rules [stableP_strct, stable_andThen, stable_capLit, stable_lit, stable_capTok, stable_capNum,
    stable_capStruct, stable_opt, stable_many, stable_alt, allNodes_cons, allNodes_nil,
    branch_intro, lead_lit, lead_capLit, lead_capIdent, lead_capStruct, leadP_strct,
    lead_andThen, lead_alt]
  all_goals try decide

theorem Secret_stable : StableP Secret.parse := by
  unfold Secret.parse withOption
  apply_rules [OptionBlock_stable, SecretField_stable, SecretField_lead, stableP_strct, stable_andThen,
    stable_capLit, stable_lit, stable_capTok, stable_capNum, stable_capStruct, stable_opt,
    stable_many, stable_alt, allNodes_cons, allNodes_nil, branch_intro, lead_lit, lead_capLit,
    lead_capIdent, lead_capStruct, leadP_strct, lead_andThen, lead_alt]
  all_goals try apply_rules [OptionBlock_stable, SecretField_stable, SecretField_lead, stableP_strct, stable_andThen,
    stable_capLit, stable_lit, stable_capTok, stable_capNum, stable_capStruct, stable_opt,
    stable_many, stable_alt, allNodes_cons, allNodes_nil, branch_intro, lead_lit, lead_capLit,
    lead_capIdent, lead_capStruct, leadP_strct, lead_andThen, lead_alt]
  all_goals try decide

theorem Cache_stable : StableP Cache.parse := by
  unfold Cache.parse
  apply_rules [stableP_strct, stable_andThen, stable_capLit, stable_lit, stable_capTok, stable_capNum,
    stable_capStruct, stable_opt, stable_many, stable_alt, allNodes_cons, allNodes_nil,
    branch_intro, lead_lit, lead_capLit, lead_capIdent, lead_capStruct, leadP_strct,
    lead_andThen, lead_alt]
  all_goals try apply_rules [stableP_strct, stable_andThen, stable_capLit, stable_lit, stable_capTok, stable_capNum,
    stable_capStruct, stable_opt, stable_many, stable_alt, allNodes_cons, allNodes_nil,
    branch_intro, lead_lit, lead_capLit, lead_capIdent, lead_capStruct, leadP_strct,
    lead_andThen, lead_alt]
  all_goals try decide

theorem MountField_stable : StableP MountField.parse := by
  unfold MountField.parse
  apply_rules [Mountpoint_stable, Cache_stable, stableP_strct, stable_andThen, stable_capLit, stable_lit,
    stable_capTok, stable_capNum, stable_capStruct, stable_opt, stable_many, stable_alt,
    allNodes_cons, allNodes_nil, branch_intro, lead_lit, lead_capLit, lead_capIdent,
    lead_capStruct, leadP_strct, lead_andThen, lead_alt]
  all_goals try apply_rules [Mountpoint_stable, Cache_stable, stableP_strct, stable_andThen, stable_capLit, stable_lit,
    stable_capTok, stable_capNum, stable_capStruct, stable_opt, stable_many, stable_alt,
    allNodes_cons, allNodes_nil, branch_intro, lead_lit, lead_capLit, lead_capIdent,
    lead_capStruct, leadP_strct, lead_andThen, lead_alt]
  all_goals try decide

theorem MountField_lead : LeadP MountField.parse := by
  unfold MountField.parse
  apply_rules [stableP_strct, stable_andThen, stable_capLit, stable_lit, stable_capTok, stable_capNum,
    stable_capStruct, stable_opt, stable_many, stable_alt, allNodes_cons, allNodes_nil,
    branch_intro, lead_lit, lead_capLit, lead_capIdent, lead_capStruct, leadP_strct,
    lead_andThen, lead_alt]
  all_goals try decide

theorem Env_stable : StableP Env.parse := by
  unfold Env.parse
  apply_rules [stableP_strct, stable_andThen, stable_capLit, stable_lit, stable_capTok, stable_capNum,
    stable_capStruct, stable_opt, stable_many, stable_alt, allNodes_cons, allNodes_nil,
    branch_intro, lead_lit, lead_capLit, lead_capIdent, lead_capStruct, leadP_strct,
    lead_andThen, lead_alt]
  all_goals try apply_rules [stableP_strct, stable_andThen, stable_capLit, stable_lit, stable_capTok, stable_capNum,
    stable_capStruct, stable_opt, stable_many, stable_alt, allNodes_cons, allNodes_nil,
    branch_intro, lead_lit, lead_capLit, lead_capIdent, lead_capStruct, leadP_strct,
    lead_andThen, lead_alt]
  all_goals try decide

theorem Dir_stable : StableP Dir.parse := by
  unfold Dir.parse
  apply_rules [stableP_strct, stable_andThen, stable_capLit, stable_lit, stable_capTok, stable_capNum,
    stable_capStruct, stable_opt, stable_many, stable_alt, allNodes_cons, allNodes_nil,
    branch_intro, lead_lit, lead_capLit, lead_capIdent, lead_capStruct, leadP_strct,
    lead_andThen, lead_alt]
  all_goals try apply_rules [stableP_strct, stable_andThen, stable_capLit, stable_lit, stable_capTok, stable_capNum,
    stable_capStruct, stable_opt, stable_many, stable_alt, allNodes_cons, allNodes_nil,
    branch_intro, lead_lit, lead_capLit, lead_capIdent, lead_capStruct, leadP_strct,
    lead_andThen, lead_alt]
  all_goals try decide

theorem User_stable : StableP User.parse := by
  unfold User.parse
  apply_rules [stableP_strct, stable_andThen, stable_capLit, stable_lit, stable_capTok, stable_capNum,
    stable_capStruct, stable_opt, stable_many, stable_alt, allNodes_cons, allNodes_nil,
    branch_intro, lead_lit, lead_capLit, lead_capIdent, lead_capStruct, leadP_strct,
    lead_andThen, lead_alt]
  all_goals try apply_rules [stableP_strct, stable_andThen, stable_capLit, stable_lit, stable_capTok, stable_capNum,
    stable_capStruct, stable_opt, stable_many, stable_alt, allNodes_cons, allNodes_nil,
    branch_intro, lead_lit, lead_capLit, lead_capIdent, lead_capStruct, leadP_strct,
    lead_andThen, lead_alt]
  all_goals try decide

theorem Chown_stable : StableP Chown.parse := by
  unfold Chown.parse
  apply_rules [stableP_strct, stable_andThen, stable_capLit, stable_lit, stable_capTok, stable_capNum,
    stable_capStruct, stable_opt, stable_many, stable_alt, allNodes_cons, allNodes_nil,
    branch_intro, lead_lit, lead_capLit, lead_capIdent, lead_capStruct, leadP_strct,
    lead_andThen, lead_alt]
  all_goals try apply_rules [stableP_strct, stable_andThen, stable_capLit, stable_lit, stable_capTok, stable_capNum,
    stable_capStruct, stable_opt, stable_many, stable_alt, allNodes_cons, allNodes_nil,
    branch_intro, lead_lit, lead_capLit, lead_capIdent, lead_capStruct, leadP_strct,
    lead_andThen, lead_alt]
  all_goals try decide

theorem Time_stable : StableP Time.parse := by
  unfold Time.parse
  apply_rules [stableP_strct, stable_andThen, stable_capLit, stable_lit, stable_capTok, stable_capNum,
    stable_capStruct, stable_opt, stable_many, stable_alt, allNodes_cons, allNodes_nil,
    branch_intro, lead_lit, lead_capLit, lead_capIdent, lead_capStruct, leadP_strct,
    lead_andThen, lead_alt]
  all_goals try apply_rules [stableP_strct, stable_andThen, stable_capLit, stable_lit, stable_capTok, stable_capNum,
    stable_capStruct, stable_opt, stable_many, stable_alt, allNodes_cons, allNodes_nil,
    branch_intro, lead_lit, lead_capLit, lead_capIdent, lead_capStruct, leadP_strct,
    lead_andThen, lead_alt]
  all_goals try decide

theorem MountState_stable {S : Type} {pState : List Token → Res S}
    (hs : StableP pState) : StableP (MountState.parse pState) := by
  unfold MountState.parse withOption
  apply_rules [OptionBlock_stable, MountField_stable, MountField_lead, stableP_strct, stable_andThen,
    stable_capLit, stable_lit, stable_capTok, stable_capNum, stable_capStruct, stable_opt,
    stable_many, stable_alt, allNodes_cons, allNodes_nil, branch_intro, lead_lit, lead_capLit,
    lead_capIdent, lead_capStruct, leadP_strct, lead_andThen, lead_alt]
  all_goals try apply_rules [OptionBlock_stable, MountField_stable, MountField_lead, stableP_strct, stable_andThen,
    stable_capLit, stable_lit, stable_capTok, stable_capNum, stable_capStruct, stable_opt,
    stable_many, stable_alt, allNodes_cons, allNodes_nil, branch_intro, lead_lit, lead_capLit,
    lead_capIdent, lead_capStruct, leadP_strct, lead_andThen, lead_alt]
  all_goals try decide

theorem Mount_stable : StableP Mount.parse := by
  unfold Mount.parse withOption
  apply_rules [OptionBlock_stable, MountField_stable, MountField_lead, stableP_strct, stable_andThen,
    stable_capLit, stable_lit, stable_capTok, stable_capNum, stable_capStruct, stable_opt,
    stable_many, stable_alt, allNodes_cons, allNodes_nil, branch_intro, lead_lit, lead_capLit,
    lead_capIdent, lead_capStruct, leadP_strct, lead_andThen, lead_alt]
  all_goals try apply_rules [OptionBlock_stable, MountField_stable, MountField_lead, stableP_strct, stable_andThen,
    stable_capLit, stable_lit, stable_capTok, stable_capNum, stable_capStruct, stable_opt,
    stable_many, stable_alt, allNodes_cons, allNodes_nil, branch_intro, lead_lit, lead_capLit,
    lead_capIdent, lead_capStruct, leadP_strct, lead_andThen, lead_alt]
  all_goals try decide

theorem ExecField_stable {S : Type} {pState : List Token → Res S}
    (hs : StableP pState) : StableP (ExecField.parse pState) := by
  unfold ExecField.parse
  apply_rules [Env_stable, Dir_stable, User_stable, Network_stable, Security_stable, Host_stable,
    SSH_stable, Secret_stable, MountState_stable, Mount_stable, stableP_strct, stable_andThen,
    stable_capLit, stable_lit, stable_capTok, stable_capNum, stable_capStruct, stable_opt,
    stable_many, stable_alt, allNodes_cons, allNodes_nil, branch_intro, lead_lit, lead_capLit,
    lead_capIdent, lead_capStruct, leadP_strct, lead_andThen, lead_alt]
  all_goals try apply_rules [Env_stable, Dir_stable, User_stable, Network_stable, Security_stable, Host_stable,
    SSH_stable, Secret_stable, MountState_stable, Mount_stable, stableP_strct, stable_andThen,
    stable_capLit, stable_lit, stable_capTok, stable_capNum, stable_capStruct, stable_opt,
    stable_many, stable_alt, allNodes_cons, allNodes_nil, branch_intro, lead_lit, lead_capLit,
    lead_capIdent, lead_capStruct, leadP_strct, lead_andThen, lead_alt]
  all_goals try decide

theorem ExecField_lead {S : Type} (pState : List Token → Res S) : LeadP (ExecField.parse pState) := by
  unfold ExecField.parse
  apply_rules [stableP_strct, stable_andThen, stable_capLit, stable_lit, stable_capTok, stable_capNum,
    stable_capStruct, stable_opt, stable_many, stable_alt, allNodes_cons, allNodes_nil,
    branch_intro, lead_lit, lead_capLit, lead_capIdent, lead_capStruct, leadP_strct,
    lead_andThen, lead_alt]
  all_goals try decide

theorem Exec_stable {S : Type} {pState : List Token → Res S}
    (hs : StableP pState) : StableP (Exec.parse pState) := by
  unfold Exec.parse withOption
  apply_rules [OptionBlock_stable, ExecField_stable, ExecField_lead, stableP_strct, stable_andThen,
    stable_capLit, stable_lit, stable_capTok, stable_capNum, stable_capStruct, stable_opt,
    stable_many, stable_alt, allNodes_cons, allNodes_nil, branch_intro, lead_lit, lead_capLit,
    lead_capIdent, lead_capStruct, leadP_strct, lead_andThen, lead_alt]
  all_goals try apply_rules [OptionBlock_stable, ExecField_stable, ExecField_lead, stableP_strct, stable_andThen,
    stable_capLit, stable_lit, stable_capTok, stable_capNum, stable_capStruct, stable_opt,
    stable_many, stable_alt, allNodes_cons, allNodes_nil, branch_intro, lead_lit, lead_capLit,
    lead_capIdent, lead_capStruct, leadP_strct, lead_andThen, lead_alt]
  all_goals try decide

theorem MkdirField_stable : StableP MkdirField.parse := by
  unfold MkdirField.parse
  apply_rules [Chown_stable, Time_stable, stableP_strct, stable_andThen, stable_capLit, stable_lit,
    stable_capTok, stable_capNum, stable_capStruct, stable_opt, stable_many, stable_alt,
    allNodes_cons, allNodes_nil, branch_intro, lead_lit, lead_capLit, lead_capIdent,
    lead_capStruct, leadP_strct, lead_andThen, lead_alt]
  all_goals try apply_rules [Chown_stable, Time_stable, stableP_strct, stable_andThen, stable_capLit, stable_lit,
    stable_capTok, stable_capNum, stable_capStruct, stable_opt, stable_many, stable_alt,
    allNodes_cons, allNodes_nil, branch_intro, lead_lit, lead_capLit, lead_capIdent,
    lead_capStruct, leadP_strct, lead_andThen, lead_alt]
  all_goals try decide

theorem MkdirField_lead : LeadP MkdirField.parse := by
  unfold MkdirField.parse
  apply_rules [stableP_strct, stable_andThen, stable_capLit, stable_lit, stable_capTok, stable_capNum,
    stable_capStruct, stable_opt, stable_many, stable_alt, allNodes_cons, allNodes_nil,
    branch_intro, lead_lit, lead_capLit, lead_capIdent, lead_capStruct, leadP_strct,
    lead_andThen, lead_alt]
  all_goals try decide

theorem Mkdir_stable : StableP Mkdir.parse := by
  unfold Mkdir.parse withOption
  apply_rules [OptionBlock_stable, MkdirField_stable, MkdirField_lead, FileMode_stable, stableP_strct,
    stable_andThen, stable_capLit, stable_lit, stable_capTok, stable_capNum, stable_capStruct,
    stable_opt, stable_many, stable_alt, allNodes_cons, allNodes_nil, branch_intro, lead_lit,
    lead_capLit, lead_capIdent, lead_capStruct, leadP_strct, lead_andThen, lead_alt]
  all_goals try apply_rules [OptionBlock_stable, MkdirField_stable, MkdirField_lead, FileMode_stable, stableP_strct,
    stable_andThen, stable_capLit, stable_lit, stable_capTok, stable_capNum, stable_capStruct,
    stable_opt, stable_many, stable_alt, allNodes_cons, allNodes_nil, branch_intro, lead_lit,
    lead_capLit, lead_capIdent, lead_capStruct, leadP_strct, lead_andThen, lead_alt]
  all_goals try decide

theorem MkfileField_stable : StableP MkfileField.parse := by
  unfold MkfileField.parse
  apply_rules [Chown_stable, Time_stable, stableP_strct, stable_andThen, stable_capLit, stable_lit,
    stable_capTok, stable_capNum, stable_capStruct, stable_opt, stable_many, stable_alt,
    allNodes_cons, allNodes_nil, branch_intro, lead_lit, lead_capLit, lead_capIdent,
    lead_capStruct, leadP_strct, lead_andThen, lead_alt]
  all_goals try apply_rules [Chown_stable, Time_stable, stableP_strct, stable_andThen, stable_capLit, stable_lit,
    stable_capTok, stable_capNum, stable_capStruct, stable_opt, stable_many, stable_alt,
    allNodes_cons, allNodes_nil, branch_intro, lead_lit, lead_capLit, lead_capIdent,
    lead_capStruct, leadP_strct, lead_andThen, lead_alt]
  all_goals try decide

theorem MkfileField_lead : LeadP MkfileField.parse := by
  unfold MkfileField.parse
  apply_rules [stableP_strct, stable_andThen, stable_capLit, stable_lit, stable_capTok, stable_capNum,
    stable_capStruct, stable_opt, stable_many, stable_alt, allNodes_cons, allNodes_nil,
    branch_intro, lead_lit, lead_capLit, lead_capIdent, lead_capStruct, leadP_strct,
    lead_andThen, lead_alt]
  all_goals try decide

theorem Mkfile_stable : StableP Mkfile.parse := by
  unfold Mkfile.parse withOption
  apply_rules [OptionBlock_stable, MkfileField_stable, MkfileField_lead, FileMode_stable, stableP_strct,
    stable_andThen, stable_capLit, stable_lit, stable_capTok, stable_capNum, stable_capStruct,
    stable_opt, stable_many, stable_alt, allNodes_cons, allNodes_nil, branch_intro, lead_lit,
    lead_capLit, lead_capIdent, lead_capStruct, leadP_strct, lead_andThen, lead_alt]
  all_goals try apply_rules [OptionBlock_stable, MkfileField_stable, MkfileField_lead, FileMode_stable, stableP_strct,
    stable_andThen, stable_capLit, stable_lit, stable_capTok, stable_capNum, stable_capStruct,
    stable_opt, stable_many, stable_alt, allNodes_cons, allNodes_nil, branch_intro, lead_lit,
    lead_capLit, lead_capIdent, lead_capStruct, leadP_strct, lead_andThen, lead_alt]
  all_goals try decide

theorem RmField_stable : StableP RmField.parse := by
  unfold RmField.parse
  apply_rules [stableP_strct, stable_andThen, stable_capLit, stable_lit, stable_capTok, stable_capNum,
    stable_capStruct, stable_opt, stable_many, stable_alt, allNodes_cons, allNodes_nil,
    branch_intro, lead_lit, lead_capLit, lead_capIdent, lead_capStruct, leadP_strct,
    lead_andThen, lead_alt]
  all_goals try apply_rules [stableP_strct, stable_andThen, stable_capLit, stable_lit, stable_capTok, stable_capNum,
    stable_capStruct, stable_opt, stable_many, stable_alt, allNodes_cons, allNodes_nil,
    branch_intro, lead_lit, lead_capLit, lead_capIdent, lead_capStruct, leadP_strct,
    lead_andThen, lead_alt]
  all_goals try decide

theorem RmField_lead : LeadP RmField.parse := by
  unfold RmField.parse
  apply_rules [stableP_strct, stable_andThen, stable_capLit, stable_lit, stable_capTok, stable_capNum,
    stable_capStruct, stable_opt, stable_many, stable_alt, allNodes_cons, allNodes_nil,
    branch_intro, lead_lit, lead_capLit, lead_capIdent, lead_capStruct, leadP_strct,
    lead_andThen, lead_alt]
  all_goals try decide

theorem Rm_stable : StableP Rm.parse := by
  unfold Rm.parse withOption
  apply_rules [OptionBlock_stable, RmField_stable, RmField_lead, stableP_strct, stable_andThen,
    stable_capLit, stable_lit, stable_capTok, stable_capNum, stable_capStruct, stable_opt,
    stable_many, stable_alt, allNodes_cons, allNodes_nil, branch_intro, lead_lit, lead_capLit,
    lead_capIdent, lead_capStruct, leadP_strct, lead_andThen, lead_alt]
  all_goals try apply_rules [OptionBlock_stable, RmField_stable, RmField_lead, stableP_strct, stable_andThen,
    stable_capLit, stable_lit, stable_capTok, stable_capNum, stable_capStruct, stable_opt,
    stable_many, stable_alt, allNodes_cons, allNodes_nil, branch_intro, lead_lit, lead_capLit,
    lead_capIdent, lead_capStruct, leadP_strct, lead_andThen, lead_alt]
  all_goals try decide

theorem CopyField_stable : StableP CopyField.parse := by
  unfold CopyField.parse
  apply_rules [Chown_stable, Time_stable, stableP_strct, stable_andThen, stable_capLit, stable_lit,
    stable_capTok, stable_capNum, stable_capStruct, stable_opt, stable_many, stable_alt,
    allNodes_cons, allNodes_nil, branch_intro, lead_lit, lead_capLit, lead_capIdent,
    lead_capStruct, leadP_strct, lead_andThen, lead_alt]
  all_goals try apply_rules [Chown_stable, Time_stable, stableP_strct, stable_andThen, stable_capLit, stable_lit,
    stable_capTok, stable_capNum, stable_capStruct, stable_opt, stable_many, stable_alt,
    allNodes_cons, allNodes_nil, branch_intro, lead_lit, lead_capLit, lead_capIdent,
    lead_capStruct, leadP_strct, lead_andThen, lead_alt]
  all_goals try decide

theorem CopyField_lead : LeadP CopyField.parse := by
  unfold CopyField.parse
  apply_rules [stableP_strct, stable_andThen, stable_capLit, stable_lit, stable_capTok, stable_capNum,
    stable_capStruct, stable_opt, stable_many, stable_alt, allNodes_cons, allNodes_nil,
    branch_intro, lead_lit, lead_capLit, lead_capIdent, lead_capStruct, leadP_strct,
    lead_andThen, lead_alt]
  all_goals try decide

theorem CopyState_stable {S : Type} {pState : List Token → Res S}
    (hs : StableP pState) : StableP (CopyState.parse pState) := by
  unfold CopyState.parse withOption
  apply_rules [OptionBlock_stable, CopyField_stable, CopyField_lead, stableP_strct, stable_andThen,
    stable_capLit, stable_lit, stable_capTok, stable_capNum, stable_capStruct, stable_opt,
    stable_many, stable_alt, allNodes_cons, allNodes_nil, branch_intro, lead_lit, lead_capLit,
    lead_capIdent, lead_capStruct, leadP_strct, lead_andThen, lead_alt]
  all_goals try apply_rules [OptionBlock_stable, CopyField_stable, CopyField_lead, stableP_strct, stable_andThen,
    stable_capLit, stable_lit, stable_capTok, stable_capNum, stable_capStruct, stable_opt,
    stable_many, stable_alt, allNodes_cons, allNodes_nil, branch_intro, lead_lit, lead_capLit,
    lead_capIdent, lead_capStruct, leadP_strct, lead_andThen, lead_alt]
  all_goals try decide

theorem Copy_stable : StableP Copy.parse := by
  unfold Copy.parse withOption
  apply_rules [OptionBlock_stable, CopyField_stable, CopyField_lead, stableP_strct, stable_andThen,
    stable_capLit, stable_lit, stable_capTok, stable_capNum, stable_capStruct, stable_opt,
    stable_many, stable_alt, allNodes_cons, allNodes_nil, branch_intro, lead_lit, lead_capLit,
    lead_capIdent, lead_capStruct, leadP_strct, lead_andThen, lead_alt]
  all_goals try apply_rules [OptionBlock_stable, CopyField_stable, CopyField_lead, stableP_strct, stable_andThen,
    stable_capLit, stable_lit, stable_capTok, stable_capNum, stable_capStruct, stable_opt,
    stable_many, stable_alt, allNodes_cons, allNodes_nil, branch_intro, lead_lit, lead_capLit,
    lead_capIdent, lead_capStruct, leadP_strct, lead_andThen, lead_alt]
  all_goals try decide

theorem Op_stable {S : Type} {pState : List Token → Res S}
    (hs : StableP pState) : StableP (Op.parse pState) := by
  unfold Op.parse
  apply_rules [Exec_stable, Env_stable, Dir_stable, User_stable, Mkdir_stable, Mkfile_stable, Rm_stable,
    CopyState_stable, Copy_stable, stableP_strct, stable_andThen, stable_capLit, stable_lit,
    stable_capTok, stable_capNum, stable_capStruct, stable_opt, stable_many, stable_alt,
    allNodes_cons, allNodes_nil, branch_intro, lead_lit, lead_capLit, lead_capIdent,
    lead_capStruct, leadP_strct, lead_andThen, lead_alt]
  all_goals try apply_rules [Exec_stable, Env_stable, Dir_stable, User_stable, Mkdir_stable, Mkfile_stable, Rm_stable,
    CopyState_stable, Copy_stable, stableP_strct, stable_andThen, stable_capLit, stable_lit,
    stable_capTok, stable_capNum, stable_capStruct, stable_opt, stable_many, stable_alt,
    allNodes_cons, allNodes_nil, branch_intro, lead_lit, lead_capLit, lead_capIdent,
    lead_capStruct, leadP_strct, lead_andThen, lead_alt]
  all_goals try decide

theorem Op_lead {S : Type} (pState : List Token → Res S) : LeadP (Op.parse pState) := by
  unfold Op.parse
  apply_rules [stableP_strct, stable_andThen, stable_capLit, stable_lit, stable_capTok, stable_capNum,
    stable_capStruct, stable_opt, stable_many, stable_alt, allNodes_cons, allNodes_nil,
    branch_intro, lead_lit, lead_capLit, lead_capIdent, lead_capStruct, leadP_strct,
    lead_andThen, lead_alt]
  all_goals try decide

theorem FromState_stable {S : Type} {pState : List Token → Res S}
    (hs : StableP pState) : StableP (FromState.parse pState) := by
  unfold FromState.parse
  apply_rules [stableP_strct, stable_andThen, stable_capLit, stable_lit, stable_capTok, stable_capNum,
    stable_capStruct, stable_opt, stable_many, stable_alt, allNodes_cons, allNodes_nil,
    branch_intro, lead_lit, lead_capLit, lead_capIdent, lead_capStruct, leadP_strct,
    lead_andThen, lead_alt]
  all_goals try apply_rules [stableP_strct, stable_andThen, stable_capLit, stable_lit, stable_capTok, stable_capNum,
    stable_capStruct, stable_opt, stable_many, stable_alt, allNodes_cons, allNodes_nil,
    branch_intro, lead_lit, lead_capLit, lead_capIdent, lead_capStruct, leadP_strct,
    lead_andThen, lead_alt]
  all_goals try decide

theorem From_stable : StableP From.parse := by
  unfold From.parse
  apply_rules [stableP_strct, stable_andThen, stable_capLit, stable_lit, stable_capTok, stable_capNum,
    stable_capStruct, stable_opt, stable_many, stable_alt, allNodes_cons, allNodes_nil,
    branch_intro, lead_lit, lead_capLit, lead_capIdent, lead_capStruct, leadP_strct,
    lead_andThen, lead_alt]
  all_goals try apply_rules [stableP_strct, stable_andThen, stable_capLit, stable_lit, stable_capTok, stable_capNum,
    stable_capStruct, stable_opt, stable_many, stable_alt, allNodes_cons, allNodes_nil,
    branch_intro, lead_lit, lead_capLit, lead_capIdent, lead_capStruct, leadP_strct,
    lead_andThen, lead_alt]
  all_goals try decide

theorem Source_stable {S : Type} {pState : List Token → Res S}
    (hs : StableP pState) : StableP (Source.parse pState) := by
  unfold Source.parse
  apply_rules [FromState_stable, From_stable, Image_stable, HTTP_stable, Git_stable, stableP_strct,
    stable_andThen, stable_capLit, stable_lit, stable_capTok, stable_capNum, stable_capStruct,
    stable_opt, stable_many, stable_alt, allNodes_cons, allNodes_nil, branch_intro, lead_lit,
    lead_capLit, lead_capIdent, lead_capStruct, leadP_strct, lead_andThen, lead_alt]
  all_goals try apply_rules [FromState_stable, From_stable, Image_stable, HTTP_stable, Git_stable, stableP_strct,
    stable_andThen, stable_capLit, stable_lit, stable_capTok, stable_capNum, stable_capStruct,
    stable_opt, stable_many, stable_alt, allNodes_cons, allNodes_nil, branch_intro, lead_lit,
    lead_capLit, lead_capIdent, lead_capStruct, leadP_strct, lead_andThen, lead_alt]
  all_goals try decide

theorem StateBody_stable {S : Type} {pState : List Token → Res S}
    (hs : StableP pState) : StableP (StateBody.parse pState) := by
  unfold StateBody.parse
  apply_rules [Source_stable, Op_stable, Op_lead, BlockEnd_stable, stableP_strct, stable_andThen,
    stable_capLit, stable_lit, stable_capTok, stable_capNum, stable_capStruct, stable_opt,
    stable_many, stable_alt, allNodes_cons, allNodes_nil, branch_intro, lead_lit, lead_capLit,
    lead_capIdent, lead_capStruct, leadP_strct, lead_andThen, lead_alt]
  all_goals try apply_rules [Source_stable, Op_stable, Op_lead, BlockEnd_stable, stableP_strct, stable_andThen,
    stable_capLit, stable_lit, stable_capTok, stable_capNum, stable_capStruct, stable_opt,
    stable_many, stable_alt, allNodes_cons, allNodes_nil, branch_intro, lead_lit, lead_capLit,
    lead_capIdent, lead_capStruct, leadP_strct, lead_andThen, lead_alt]
  all_goals try decide

theorem StateBody_lead {S : Type} (pState : List Token → Res S) : LeadP (StateBody.parse pState) := by
  unfold StateBody.parse
  apply_rules [stableP_strct, stable_andThen, stable_capLit, stable_lit, stable_capTok, stable_capNum,
    stable_capStruct, stable_opt, stable_many, stable_alt, allNodes_cons, allNodes_nil,
    branch_intro, lead_lit, lead_capLit, lead_capIdent, lead_capStruct, leadP_strct,
    lead_andThen, lead_alt]
  all_goals try decide

theorem State_stable : ∀ (fuel : Nat), StableP (State.parse fuel) := by
  intro fuel
  induction fuel with
  | zero => intro y t rest rest' _ _; rfl
  | succ fuel ih =>
    unfold State.parse
    apply_rules [StateBody_stable, stableP_strct, stable_andThen, stable_capLit, stable_lit, stable_capTok,
    stable_capNum, stable_capStruct, stable_opt, stable_many, stable_alt, allNodes_cons,
    allNodes_nil, branch_intro, lead_lit, lead_capLit, lead_capIdent, lead_capStruct,
    leadP_strct, lead_andThen, lead_alt]
    all_goals try decide

theorem StateEntry_stable {pState : List Token → Res State} (hs : StableP pState) :
    StableP (StateEntry.parse pState) := by
  unfold StateEntry.parse
  apply_rules [StateBody_stable, Signature_stable, Signature_lead, stableP_strct, stable_andThen,
    stable_capLit, stable_lit, stable_capTok, stable_capNum, stable_capStruct, stable_opt,
    stable_many, stable_alt, allNodes_cons, allNodes_nil, branch_intro, lead_lit, lead_capLit,
    lead_capIdent, lead_capStruct, leadP_strct, lead_andThen, lead_alt]
  all_goals try decide

theorem Entry_stable {pState : List Token → Res Hlb.State} (hs : StableP pState) :
    StableP (Entry.parse pState) := by
  unfold Entry.parse
  apply_rules [StateEntry_stable, stableP_strct, stable_andThen, stable_capLit, stable_lit, stable_capTok,
    stable_capNum, stable_capStruct, stable_opt, stable_many, stable_alt, allNodes_cons,
    allNodes_nil, branch_intro, lead_lit, lead_capLit, lead_capIdent, lead_capStruct,
    leadP_strct, lead_andThen, lead_alt]

theorem Entry_lead (pState : List Token → Res Hlb.State) : LeadP (Entry.parse pState) := by
  unfold Entry.parse
  apply_rules [stableP_strct, stable_andThen, stable_capLit, stable_lit, stable_capTok, stable_capNum,
    stable_capStruct, stable_opt, stable_many, stable_alt, allNodes_cons, allNodes_nil,
    branch_intro, lead_lit, lead_capLit, lead_capIdent, lead_capStruct, leadP_strct,
    lead_andThen, lead_alt]
  all_goals try decide

/-! ## Rules that end with the closing brace of a block -/

theorem BlockEnd_tight : TightP BlockEnd.parse := by
  unfold BlockEnd.parse
  exact tightP_strct _ (tight_capLit_close _)

theorem StateBody_tight {S : Type} {pState : List Token → Res S} (hs : StableP pState) :
    TightP (StateBody.parse pState) := by
  unfold StateBody.parse
  refine tightP_strct _ (tight_andThen _ ?_ (tight_capStruct _ BlockEnd_tight))
  apply_rules [Source_stable, Op_stable, Op_lead, BlockEnd_stable, stableP_strct, stable_andThen,
    stable_capLit, stable_lit, stable_capTok, stable_capNum, stable_capStruct, stable_opt,
    stable_many, stable_alt, allNodes_cons, allNodes_nil, branch_intro, lead_lit, lead_capLit,
    lead_capIdent, lead_capStruct, leadP_strct, lead_andThen, lead_alt]
  all_goals try decide

theorem State_tight (fuel : Nat) : TightP (State.parse fuel) := by
  cases fuel with
  | zero => intro ts v n hr; cases hr
  | succ fuel =>
    unfold State.parse
    refine tightP_strct _ (tight_andThen _ ?_
      (tight_capStruct _ (StateBody_tight (State_stable fuel))))
    apply_rules [stableP_strct, stable_andThen, stable_capLit, stable_lit, stable_capTok, stable_capNum,
    stable_capStruct, stable_opt, stable_many, stable_alt, allNodes_cons, allNodes_nil,
    branch_intro, lead_lit, lead_capLit, lead_capIdent, lead_capStruct, leadP_strct,
    lead_andThen, lead_alt]
    all_goals try decide

theorem StateEntry_tight {pState : List Token → Res State} (hs : StableP pState) :
    TightP (StateEntry.parse pState) := by
  unfold StateEntry.parse
  refine tightP_strct _ (tight_andThen _ ?_ (tight_capStruct _ (StateBody_tight hs)))
  apply_rules [Signature_stable, Signature_lead, stableP_strct, stable_andThen, stable_capLit, stable_lit,
    stable_capTok, stable_capNum, stable_capStruct, stable_opt, stable_many, stable_alt,
    allNodes_cons, allNodes_nil, branch_intro, lead_lit, lead_capLit, lead_capIdent,
    lead_capStruct, leadP_strct, lead_andThen, lead_alt]
  all_goals try decide

theorem Entry_tight {pState : List Token → Res Hlb.State} (hs : StableP pState) :
    TightP (Entry.parse pState) := by
  unfold Entry.parse
  exact tightP_strct _ (tight_andThen _ (stable_lit _) (tight_capStruct _ (StateEntry_tight hs)))

/-! ## The fuel of `State.parse` -/

theorem OptionBlock_agree {F : Type} {L : Nat} {field field' : List Token → Res F}
    (h : AgreeP L field field') :
    AgreeP L (OptionBlock.parse field) (OptionBlock.parse field') := by
  unfold OptionBlock.parse
  apply_rules [agree_refl, agreeP_refl, agreeP_strct, agree_andThen, agree_capStruct, agree_opt, agree_many,
    agree_alt, allAgree_cons, allAgree_nil]

theorem MountState_agree {S : Type} {L : Nat} {pState pState' : List Token → Res S}
    (h : AgreeP L pState pState') :
    AgreeP L (MountState.parse pState) (MountState.parse pState') := by
  unfold MountState.parse
  apply_rules [agree_refl, agreeP_refl, agreeP_strct, agree_andThen, agree_capStruct, agree_opt, agree_many,
    agree_alt, allAgree_cons, allAgree_nil]

theorem ExecField_agree {S : Type} {L : Nat} {pState pState' : List Token → Res S}
    (h : AgreeP L pState pState') :
    AgreeP L (ExecField.parse pState) (ExecField.parse pState') := by
  unfold ExecField.parse
  apply_rules [MountState_agree, agree_refl, agreeP_refl, agreeP_strct, agree_andThen, agree_capStruct,
    agree_opt, agree_many, agree_alt, allAgree_cons, allAgree_nil]

theorem Exec_agree {S : Type} {L : Nat} {pState pState' : List Token → Res S}
    (h : AgreeP L pState pState') :
    AgreeP L (Exec.parse pState) (Exec.parse pState') := by
  unfold Exec.parse withOption
  apply_rules [OptionBlock_agree, ExecField_agree, agree_refl, agreeP_refl, agreeP_strct, agree_andThen,
    agree_capStruct, agree_opt, agree_many, agree_alt, allAgree_cons, allAgree_nil]

theorem CopyState_agree {S : Type} {L : Nat} {pState pState' : List Token → Res S}
    (h : AgreeP L pState pState') :
    AgreeP L (CopyState.parse pState) (CopyState.parse pState') := by
  unfold CopyState.parse
  apply_rules [agree_refl, agreeP_refl, agreeP_strct, agree_andThen, agree_capStruct, agree_opt, agree_many,
    agree_alt, allAgree_cons, allAgree_nil]

theorem Op_agree {S : Type} {L : Nat} {pState pState' : List Token → Res S}
    (h : AgreeP L pState pState') :
    AgreeP L (Op.parse pState) (Op.parse pState') := by
  unfold Op.parse
  apply_rules [Exec_agree, CopyState_agree, agree_refl, agreeP_refl, agreeP_strct, agree_andThen,
    agree_capStruct, agree_opt, agree_many, agree_alt, allAgree_cons, allAgree_nil]

theorem FromState_agree {S : Type} {L : Nat} {pState pState' : List Token → Res S}
    (h : AgreeP L pState pState') :
    AgreeP L (FromState.parse pState) (FromState.parse pState') := by
  unfold FromState.parse
  apply_rules [agree_refl, agreeP_refl, agreeP_strct, agree_andThen, agree_capStruct, agree_opt, agree_many,
    agree_alt, allAgree_cons, allAgree_nil]

theorem Source_agree {S : Type} {L : Nat} {pState pState' : List Token → Res S}
    (h : AgreeP L pState pState') :
    AgreeP L (Source.parse pState) (Source.parse pState') := by
  unfold Source.parse
  apply_rules [FromState_agree, agree_refl, agreeP_refl, agreeP_strct, agree_andThen, agree_capStruct,
    agree_opt, agree_many, agree_alt, allAgree_cons, allAgree_nil]

theorem StateBody_agree {S : Type} {L : Nat} {pState pState' : List Token → Res S}
    (h : AgreeP L pState pState') :
    AgreeP (L + 1) (StateBody.parse pState) (StateBody.parse pState') := by
  unfold StateBody.parse
  refine agreeP_strct _ (agree_andThen_step _ ?_ (agree_andThen_step _ ?_
    (agree_andThen_step _ ?_ (agree_andThen_step _ ?_ (agree_refl _ _) ?_)
      (agree_refl _ _)) ?_) (agree_refl _ _))
  · apply_rules [stableP_strct, stable_andThen, stable_capLit, stable_lit, stable_capTok, stable_capNum,
    stable_capStruct, stable_opt, stable_many, stable_alt, allNodes_cons, allNodes_nil,
    branch_intro, lead_lit, lead_capLit, lead_capIdent, lead_capStruct, leadP_strct,
    lead_andThen, lead_alt] <;> decide
  · apply_rules [stableP_strct, stable_andThen, stable_capLit, stable_lit, stable_capTok, stable_capNum,
    stable_capStruct, stable_opt, stable_many, stable_alt, allNodes_cons, allNodes_nil,
    branch_intro, lead_lit, lead_capLit, lead_capIdent, lead_capStruct, leadP_strct,
    lead_andThen, lead_alt] <;> decide
  · apply_rules [stableP_strct, stable_andThen, stable_capLit, stable_lit, stable_capTok, stable_capNum,
    stable_capStruct, stable_opt, stable_many, stable_alt, allNodes_cons, allNodes_nil,
    branch_intro, lead_lit, lead_capLit, lead_capIdent, lead_capStruct, leadP_strct,
    lead_andThen, lead_alt] <;> decide
  · apply_rules [stableP_strct, stable_andThen, stable_capLit, stable_lit, stable_capTok, stable_capNum,
    stable_capStruct, stable_opt, stable_many, stable_alt, allNodes_cons, allNodes_nil,
    branch_intro, lead_lit, lead_capLit, lead_capIdent, lead_capStruct, leadP_strct,
    lead_andThen, lead_alt] <;> decide
  · exact agree_capStruct _ (Source_agree h)
  · exact agree_many (agree_andThen _ (agree_capStruct _ (Op_agree h)) (agree_refl _ _))

/-- The result of `State.parse` does not depend on the fuel once the fuel
exceeds the number of tokens. -/
theorem State_agree : ∀ (L f f' : Nat), L ≤ f → L ≤ f' →
    AgreeP L (State.parse f) (State.parse f') := by
  intro L
  induction L with
  | zero => intro f f' _ _ ts hl; omega
  | succ L ih =>
    intro f f' hf hf'
    obtain ⟨g, rfl⟩ : ∃ g, f = g + 1 := ⟨f - 1, by omega⟩
    obtain ⟨g', rfl⟩ : ∃ g', f' = g' + 1 := ⟨f' - 1, by omega⟩
    unfold State.parse
    exact agreeP_strct _ (agree_andThen _ (agree_refl _ _)
      (agree_capStruct _ (StateBody_agree (ih g g' (by omega) (by omega)))))

theorem Entry_agree {L : Nat} {pState pState' : List Token → Res Hlb.State}
    (h : AgreeP L pState pState') :
    AgreeP (L + 1) (Entry.parse pState) (Entry.parse pState') := by
  unfold Entry.parse StateEntry.parse
  exact agreeP_strct _ (agree_andThen _ (agree_refl _ _) (agree_capStruct _
    (agreeP_strct _ (agree_andThen _ (agree_refl _ _) (agree_capStruct _ (StateBody_agree h))))))

theorem Entry.parse_head {pState : List Token → Res Hlb.State} {ts : List Token} {e : Entry}
    {n : Nat} (h : Entry.parse pState ts = .ok e n) :
    ∃ t rest, ts = t :: rest ∧ t.value = "state".toList := by
  cases ts with
  | nil => simp [Entry.parse, strct, andThen, lit] at h
  | cons t rest =>
    refine ⟨t, rest, rfl, ?_⟩
    by_contra hv
    simp only [Entry.parse, strct, andThen, lit, if_neg hv] at h
    cases h

/-- A valid declaration is accepted, with the same entry, in any context and
with any sufficient fuel. -/
theorem ValidDecl.extend {d : List Token} {e : Entry} (h : ValidDecl d e) (F : Nat)
    (hF : d.length ≤ F) (rest : List Token) :
    Entry.parse (State.parse F) (d ++ rest) = .ok e d.length := by
  obtain ⟨hw, hp⟩ := h
  have hag := Entry_agree (State_agree d.length d.length F (le_refl _) hF) d (by omega)
  rw [hag] at hp
  obtain ⟨y, t, r0, h1, h2, h3, h4⟩ := Entry_tight (State_stable F) _ _ _ hp
  have hr0 : r0 = [] := by
    have : d.length = (y ++ t :: r0).length := by rw [← h1]
    simp at this
    cases r0 with
    | nil => rfl
    | cons a r => simp at this; omega
  subst hr0
  have hk : t.kind ≠ .Ident := by
    intro hk
    exact hw t (by rw [h1]; simp) hk h3
  have hd : d ++ rest = y ++ t :: rest := by rw [h1]; simp
  rw [hd]
  exact h4 hk rest

theorem ValidDecl.length_pos {d : List Token} {e : Entry} (h : ValidDecl d e) :
    1 ≤ d.length :=
  (Entry_lead _).2.1 _ _ _ h.2

theorem entryItem_decl {F : Nat} {d : List Token} {e : Entry} (h : ValidDecl d e)
    (hF : d.length ≤ F) (ast : AST) (rest : List Token)
    (hrest : ∀ t r, rest = t :: r → t.value ≠ ";".toList) :
    entryItem (State.parse F) ast (d ++ rest)
      = .ok { ast with Entries := ast.Entries ++ [e] } d.length := by
  unfold entryItem andThen capStruct
  rw [h.extend F hF rest]
  simp only [List.drop_left']
  cases rest with
  | nil => simp [opt, lit]
  | cons t r =>
    have := hrest t r rfl
    simp only [opt, lit, if_neg this, Nat.add_zero]

theorem entryItem_decl_sep {F : Nat} {d : List Token} {e : Entry} (h : ValidDecl d e)
    (hF : d.length ≤ F) (ast : AST) (sep : Token) (rest : List Token)
    (hsep : sep.value = ";".toList) :
    entryItem (State.parse F) ast (d ++ sep :: rest)
      = .ok { ast with Entries := ast.Entries ++ [e] } (d.length + 1) := by
  unfold entryItem andThen capStruct
  rw [h.extend F hF (sep :: rest)]
  simp only [List.drop_left', opt, lit, if_pos hsep]

theorem joinDecls_length_ge :
    ∀ (ds : List (List Token × Option Token)) (es : List Entry),
      List.Forall₂ (fun p e => ValidDecl p.1 e) ds es → ds.length ≤ (joinDecls ds).length := by
  intro ds
  induction ds with
  | nil => intro _ _; simp [joinDecls]
  | cons p ds ih =>
    intro es hv
    obtain ⟨d, sep⟩ := p
    match es, hv with
    | e :: es', hv =>
      rw [List.forall₂_cons] at hv
      have hd : ValidDecl d e := hv.1
      have := hd.length_pos
      have := ih es' hv.2
      cases sep <;> simp [joinDecls] <;> omega

theorem scratchDecl_valid_a : ValidDecl (scratchDecl "a" 0) (scratchEntry "a" 0) :=
  ⟨by unfold WordIdents; decide, rfl⟩

/-- C5, as stated, fails: on `state foo { exec }` the reported token is `exec`
(offset 12), not the closing brace (offset 17), and what was expected there is
a `Source`. -/
theorem exec_without_source_error_position :
    lex "state foo { exec }".toList
        = .ok [tokAt .Keyword "state" 0, tokAt .Ident "foo" 6, tokAt .Operator "\x7b" 10,
            tokAt .Ident "exec" 12, tokAt .Operator "\x7d" 17, tokAt .EOF "" 18]
      ∧ (Parse "state foo { exec }".toList).2
        = some (.grammar (.unexpected (tokAt .Ident "exec" 12) (.rule "Source".toList)))
      ∧ (tokAt .Ident "exec" 12).pos ≠ (tokAt .Operator "\x7d" 17).pos := by
  refine ⟨rfl, rfl, by decide⟩

/-- C5, amended. `state foo { exec }` fails with a grammar error reported at the
`exec` token, where the body's `Source` was expected: a body must begin with a
source, so the missing argument of `exec` is never looked at.  (The `Exec` rule
itself starts with a `String`: it matches at a string and not at the brace.) -/
theorem exec_missing_argument_errors :
    (Parse "state foo { exec }".toList).2
        = some (.grammar (.unexpected (tokAt .Ident "exec" 12) (.rule "Source".toList)))
      ∧ Exec.parse (State.parse 0) [tokAt .String "ls" 0] =
          .ok { Pos := ⟨0, 1, 1⟩, Shlex := "ls".toList } 1
      ∧ Exec.parse (State.parse 0) [tokAt .Operator "\x7d" 0] = .noMatch := by
  refine ⟨rfl, rfl, rfl⟩

/-! ## The tokenizer -/

theorem spanLen_append_all (p : Char → Bool) :
    ∀ (a b : List Char), (∀ c ∈ a, p c = true) → spanLen p (a ++ b) = a.length + spanLen p b := by
  intro a
  induction a with
  | nil => intro b _; simp
  | cons x a ih =>
    intro b h
    have hx : p x = true := h x (List.mem_cons_self _ _)
    have := ih b (fun c hc => h c (List.mem_cons_of_mem _ hc))
    simp [spanLen, hx, this]
    omega

theorem spanLen_stop (p : Char → Bool) (b : List Char)
    (h : ∀ x r, b = x :: r → p x = false) : spanLen p b = 0 := by
  cases b with
  | nil => rfl
  | cons x r => simp [spanLen, h x r rfl]

theorem spanLen_word (p : Char → Bool) (a b : List Char) (ha : ∀ c ∈ a, p c = true)
    (hb : ∀ x r, b = x :: r → p x = false) : spanLen p (a ++ b) = a.length := by
  rw [spanLen_append_all p a b ha, spanLen_stop p b hb]
  rfl

theorem matchKeyword_some {s : List Char} {n : Nat} (h : matchKeyword s = some n) :
    n = 5 ∧ ∃ t, s = 's' :: 't' :: 'a' :: 't' :: 'e' :: t := by
  unfold matchKeyword at h
  split at h
  · cases h
    exact ⟨rfl, _, rfl⟩
  · cases h

theorem matchKeyword_none_of_word (w rest : List Char)
    (hchars : ∀ x ∈ w, isIdentChar x = true)
    (hrest : ∀ x r, rest = x :: r → isIdentChar x = false)
    (hpre : ¬ "state".toList <+: w) : matchKeyword (w ++ rest) = none := by
  cases hk : matchKeyword (w ++ rest) with
  | none => rfl
  | some n =>
    exfalso
    obtain ⟨_, t, ht⟩ := matchKeyword_some hk
    rcases w with _ | ⟨c1, _ | ⟨c2, _ | ⟨c3, _ | ⟨c4, _ | ⟨c5, w⟩⟩⟩⟩⟩
    · exact absurd (hrest _ _ ht) (by decide)
    · simp only [List.cons_append, List.nil_append, List.cons.injEq] at ht
      exact absurd (hrest _ _ ht.2) (by decide)
    · simp only [List.cons_append, List.nil_append, List.cons.injEq] at ht
      exact absurd (hrest _ _ ht.2.2) (by decide)
    · simp only [List.cons_append, List.nil_append, List.cons.injEq] at ht
      exact absurd (hrest _ _ ht.2.2.2) (by decide)
    · simp only [List.cons_append, List.nil_append, List.cons.injEq] at ht
      exact absurd (hrest _ _ ht.2.2.2.2) (by decide)
    · simp only [List.cons_append, List.cons.injEq] at ht
      obtain ⟨h1, h2, h3, h4, h5, _⟩ := ht
      subst h1 h2 h3 h4 h5
      exact hpre ⟨w, rfl⟩

/-- C7, as stated, fails: `stateful` is not emitted as one identifier; the
tokenizer emits the keyword `state` and then the identifier `ful`. -/
theorem stateful_is_split :
    lex "stateful".toList
      = .ok [tokAt .Keyword "state" 0, tokAt .Ident "ful" 5, tokAt .EOF "" 8] := by
  rfl

/-- C7, amended. The tokenizer is first-match by class priority, not
longest-match: where the `Keyword` rule matches it wins, also when `Ident` would
match a longer text.  So a word `[a-zA-Z_][a-zA-Z0-9_]*` that begins with `state`
is split after the keyword, the exact word `state` is a keyword, and every other
word is emitted as one identifier of the full length of the word. -/
theorem tokenizer_first_match (c : Char) (cs rest : List Char)
    (hstart : isIdentStart c = true) (hchars : ∀ x ∈ cs, isIdentChar x = true)
    (hrest : ∀ x r, rest = x :: r → isIdentChar x = false) :
    (∀ s n, matchKeyword s = some n → matchRules s = some (.emit .Keyword n))
      ∧ ("state".toList <+: c :: cs → matchRules (c :: cs ++ rest) = some (.emit .Keyword 5))
      ∧ (¬ "state".toList <+: c :: cs →
          matchRules (c :: cs ++ rest) = some (.emit .Ident (c :: cs).length)) := by
  refine ⟨?_, ?_, ?_⟩
  · intro s n h
    simp [matchRules, h]
  · rintro ⟨t, ht⟩
    have : c :: cs ++ rest = 's' :: 't' :: 'a' :: 't' :: 'e' :: (t ++ rest) := by
      rw [← ht]; rfl
    rw [this]
    rfl
  · intro hpre
    have hc : isIdentChar c = true := by
      unfold isIdentStart at hstart
      unfold isIdentChar Char.isAlphanum
      simp only [Bool.or_eq_true] at hstart ⊢
      rcases hstart with h | h
      · exact Or.inl (Or.inl h)
      · exact Or.inr h
    have hall : ∀ x ∈ c :: cs, isIdentChar x = true := by
      intro x hx
      rcases List.mem_cons.mp hx with h | h
      · rw [h]; exact hc
      · exact hchars x h
    have hk := matchKeyword_none_of_word (c :: cs) rest hall hrest hpre
    have hi : matchIdent (c :: cs ++ rest) = some (c :: cs).length := by
      simp only [List.cons_append, matchIdent, hstart, if_true, List.length_cons]
      rw [spanLen_word isIdentChar cs rest hchars hrest]
    simp only [matchRules, hk, hi]

/-- Witness of C7 (amended) on the word `stat_e` followed by a blank. -/
theorem tokenizer_first_match_witness :
    (∀ s n, matchKeyword s = some n → matchRules s = some (.emit .Keyword n))
      ∧ ("state".toList <+: "stat_e".toList →
          matchRules ("stat_e".toList ++ " x".toList) = some (.emit .Keyword 5))
      ∧ (¬ "state".toList <+: "stat_e".toList →
          matchRules ("stat_e".toList ++ " x".toList)
            = some (.emit .Ident "stat_e".toList.length)) :=
  tokenizer_first_match 's' "tat_e".toList " x".toList (by decide) (by decide)
    (by intro x r h; cases h; decide)

theorem matchRules_pos {s : List Char} {m : RuleMatch} (h : matchRules s = some m) :
    1 ≤ m.len := by
  unfold matchRules at h
  cases h1 : matchKeyword s with
  | some n =>
    rw [h1] at h
    cases h
    rw [(matchKeyword_some h1).1]
    decide
  | none =>
  rw [h1] at h
  simp only at h
  cases h2 : matchIdent s with
  | some n =>
    rw [h2] at h
    cases h
    cases s with
    | nil => cases h2
    | cons c cs =>
      simp only [matchIdent] at h2
      split at h2
      · cases h2; simp [RuleMatch.len]
      · cases h2
  | none =>
  rw [h2] at h
  simp only at h
  cases h3 : matchInt s with
  | some n =>
    rw [h3] at h
    cases h
    cases s with
    | nil => cases h3
    | cons c cs =>
      simp only [matchInt] at h3
      split at h3
      · cases h3; simp [RuleMatch.len]
      · cases h3
  | none =>
  rw [h3] at h
  simp only at h
  cases h4 : matchString s with
  | some n =>
    rw [h4] at h
    cases h
    cases s with
    | nil => cases h4
    | cons c cs =>
      simp only [matchString] at h4
      split at h4
      · cases hb : matchStringBody c cs with
        | none => rw [hb] at h4; cases h4
        | some k => rw [hb] at h4; cases h4; simp [RuleMatch.len]
      · cases h4
  | none =>
  rw [h4] at h
  simp only at h
  cases h5 : matchOperator s with
  | some n =>
    rw [h5] at h
    cases h
    cases s with
    | nil => cases h5
    | cons c cs =>
      simp only [matchOperator] at h5
      split at h5
      · cases h5; simp [RuleMatch.len]
      · cases h5
  | none =>
  rw [h5] at h
  simp only at h
  cases h6 : matchWhitespace s with
  | some n =>
    rw [h6] at h
    cases h
    cases s with
    | nil => cases h6
    | cons c cs =>
      simp only [matchWhitespace] at h6
      split at h6
      · cases h6; simp [RuleMatch.len]
      · cases h6
  | none =>
  rw [h6] at h
  simp only at h
  cases h7 : matchComment s with
  | some n =>
    rw [h7] at h
    cases h
    unfold matchComment at h7
    split at h7
    · cases h7; simp [RuleMatch.len]
    · cases h7
  | none =>
    rw [h7] at h
    cases h

theorem lexFrom_succ (f : Nat) (pos : Position) (c : Char) (s : List Char) :
    lexFrom (f + 1) pos (c :: s) = lexStep f pos (c :: s) := by
  simp only [lexFrom, lexStep]
  all_goals
    cases matchRules (c :: s) with
    | none => rfl
    | some m =>
      cases m with
      | skip n => rfl
      | emit k n => rfl

/-- The tokenizer does not depend on the fuel once it covers the input. -/
theorem lexFrom_fuel : ∀ (f f' : Nat) (pos : Position) (s : List Char),
    s.length ≤ f → s.length ≤ f' → lexFrom f pos s = lexFrom f' pos s := by
  intro f
  induction f with
  | zero =>
    intro f' pos s h _
    have : s = [] := List.length_eq_zero.mp (by omega)
    subst this
    cases f' <;> rfl
  | succ f ih =>
    intro f' pos s h h'
    cases s with
    | nil => cases f' <;> rfl
    | cons c s =>
      obtain ⟨g, rfl⟩ : ∃ g, f' = g + 1 := ⟨f' - 1, by simp at h'; omega⟩
      rw [lexFrom_succ, lexFrom_succ]
      unfold lexStep
      cases hm : matchRules (c :: s) with
      | none => rfl
      | some m =>
        have hp := matchRules_pos hm
        have hl : ∀ n, 1 ≤ n → (List.drop n (c :: s)).length ≤ f ∧
            (List.drop n (c :: s)).length ≤ g := by
          intro n hn
          simp only [List.length_drop, List.length_cons] at h h' ⊢
          omega
        cases m with
        | skip n =>
          simp only
          exact ih g _ _ (hl n hp).1 (hl n hp).2
        | emit k n =>
          simp only
          rw [ih g _ _ (hl n hp).1 (hl n hp).2]

theorem lexFrom_step (f : Nat) (pos : Position) (s : List Char) (hs : s ≠ [])
    (hf : s.length ≤ f) : lexFrom f pos s = lexStep f pos s := by
  cases s with
  | nil => exact absurd rfl hs
  | cons c s =>
    obtain ⟨g, rfl⟩ : ∃ g, f = g + 1 := ⟨f - 1, by simp at hf; omega⟩
    rw [lexFrom_succ]
    unfold lexStep
    cases hm : matchRules (c :: s) with
    | none => rfl
    | some m =>
      have hp := matchRules_pos hm
      have hl : ∀ n, 1 ≤ n → (List.drop n (c :: s)).length ≤ g := by
        intro n hn
        simp only [List.length_drop, List.length_cons] at hf ⊢
        omega
      cases m with
      | skip n =>
        simp only
        exact lexFrom_fuel g (g + 1) _ _ (hl n hp) (by have := hl n hp; omega)
      | emit k n =>
        simp only
        rw [lexFrom_fuel g (g + 1) _ _ (hl n hp) (by have := hl n hp; omega)]

theorem prependTokens_nil (r : Except LexError (List Token)) : prependTokens [] r = r := by
  cases r <;> rfl

theorem lexFrom_of_lexUpTo : ∀ (f : Nat) (pos : Position) (s : List Char) (k : Nat)
    (ts : List Token) (p' : Position) (F : Nat),
    lexUpTo f pos s k = some (ts, p') → s.length ≤ F →
    lexFrom F pos s = prependTokens ts (lexFrom F p' (s.drop k)) := by
  intro f
  induction f with
  | zero =>
    intro pos s k ts p' F h _
    cases k with
    | zero =>
      simp only [lexUpTo, Option.some.injEq, Prod.mk.injEq] at h
      obtain ⟨rfl, rfl⟩ := h
      simp [prependTokens_nil]
    | succ k => simp [lexUpTo] at h
  | succ f ih =>
    intro pos s k ts p' F h hF
    cases k with
    | zero =>
      simp only [lexUpTo, Option.some.injEq, Prod.mk.injEq] at h
      obtain ⟨rfl, rfl⟩ := h
      simp [prependTokens_nil]
    | succ k =>
      have hs : s ≠ [] := by
        intro h0
        subst h0
        simp [lexUpTo, matchRules, matchKeyword, matchIdent, matchInt, matchString,
          matchOperator, matchWhitespace, matchComment] at h
      rw [lexFrom_step F pos s hs hF]
      unfold lexStep
      simp only [lexUpTo] at h
      cases hm : matchRules s with
      | none => rw [hm] at h; cases h
      | some m =>
        rw [hm] at h
        have hp := matchRules_pos hm
        cases m with
        | skip n =>
          simp only [RuleMatch.len] at h hp ⊢
          by_cases hn : n ≤ k + 1
          · rw [if_pos hn] at h
            rw [ih _ _ _ _ _ F h (by rw [List.length_drop]; omega), List.drop_drop]
            congr 3
            omega
          · rw [if_neg hn] at h; cases h
        | emit kd n =>
          simp only [RuleMatch.len] at h hp ⊢
          by_cases hn : n ≤ k + 1
          · rw [if_pos hn] at h
            cases hv : (if kd = .String then unquote (s.take n) else some (s.take n)) with
            | none => rw [hv] at h; cases h
            | some v =>
              rw [hv] at h
              simp only at h ⊢
              cases hr : lexUpTo f (pos.advance (s.take n)) (s.drop n) (k + 1 - n) with
              | none => rw [hr] at h; cases h
              | some r =>
                obtain ⟨ts1, p1⟩ := r
                rw [hr] at h
                simp only [Option.map_some', Option.some.injEq, Prod.mk.injEq] at h
                obtain ⟨rfl, rfl⟩ := h
                rw [ih _ _ _ _ _ F hr (by rw [List.length_drop]; omega), List.drop_drop]
                have : n + (k + 1 - n) = k + 1 := by omega
                rw [this]
                cases lexFrom F p1 (List.drop (k + 1) s) <;> rfl
          · rw [if_neg hn] at h; cases h

theorem digitsValue_octal : ∀ (ds : List Char) (acc : Nat),
    (∀ c ∈ ds, isOctalDigit c = true) →
    digitsValue 8 acc ds = some (ds.foldl (fun a c => a * 8 + (c.toNat - '0'.toNat)) acc) := by
  intro ds
  induction ds with
  | nil => intro acc _; rfl
  | cons c ds ih =>
    intro acc h
    have hc := h c (List.mem_cons_self _ _)
    simp only [isOctalDigit, Bool.and_eq_true, decide_eq_true_eq] at hc
    simp only [digitsValue, hc.1, hc.2, and_self, if_true, List.foldl_cons]
    exact ih _ (fun x hx => h x (List.mem_cons_of_mem _ hx))

theorem toUint32_octal (ds : List Char) (hds : ∀ c ∈ ds, isOctalDigit c = true)
    (hfit : octalValue ds < 2 ^ 32) : toUint32 ('0' :: ds) = some (octalValue ds) := by
  have h := digitsValue_octal ds 0 hds
  simp only [toUint32, intLiteral, beq_self_eq_true, if_true, h, Option.filter]
  simp only [octalValue] at hfit ⊢
  rw [if_pos (by simpa using hfit)]

theorem matchStringBody_quote (q : Char) (rest : List Char) :
    matchStringBody q (q :: rest) = some 1 := by
  cases rest <;> simp [matchStringBody]

theorem matchStringBody_plain (q : Char) : ∀ (p rest : List Char),
    (∀ c ∈ p, c ≠ q ∧ c ≠ '\\') →
    matchStringBody q (p ++ q :: rest) = some (p.length + 1) := by
  intro p
  induction p with
  | nil => intro rest _; exact matchStringBody_quote q rest
  | cons c p ih =>
    intro rest h
    have hc := h c (List.mem_cons_self _ _)
    have ih' := ih rest (fun x hx => h x (List.mem_cons_of_mem _ hx))
    obtain ⟨d, ds, hd⟩ : ∃ d ds, p ++ q :: rest = d :: ds := by
      cases p with
      | nil => exact ⟨q, rest, rfl⟩
      | cons x p => exact ⟨x, p ++ q :: rest, rfl⟩
    rw [List.cons_append, hd]
    rw [hd] at ih'
    have h1 : (c == q) = false := by simpa using hc.1
    have h2 : (c == '\\') = false := by simpa using hc.2
    simp [matchStringBody, h1, h2, ih']

theorem unquoteLoop_plain (q : Char) : ∀ (p : List Char) (f : Nat), p.length ≤ f →
    (∀ c ∈ p, c ≠ q ∧ c ≠ '\\') → unquoteLoop q f p = some p := by
  intro p
  induction p with
  | nil => intro f _ _; cases f <;> rfl
  | cons c p ih =>
    intro f hf h
    obtain ⟨g, rfl⟩ : ∃ g, f = g + 1 := ⟨f - 1, by simp at hf; omega⟩
    have hc := h c (List.mem_cons_self _ _)
    have h1 : (c == q) = false := by simpa using hc.1
    have h2 : (c != '\\') = true := by simpa using hc.2
    simp only [unquoteLoop, h1, h2, if_true, Bool.false_eq_true, if_false]
    rw [ih g (by simp at hf; omega) (fun x hx => h x (List.mem_cons_of_mem _ hx))]
    rfl

theorem unquote_plain (q : Char) (p : List Char) (h : ∀ c ∈ p, c ≠ q ∧ c ≠ '\\') :
    unquote (q :: (p ++ [q])) = some p := by
  simp only [unquote, List.length_append, List.length_singleton, Nat.add_sub_cancel,
    List.take_left']
  exact unquoteLoop_plain q p _ (by omega) h

theorem matchRules_string (p rest : List Char) (h : ∀ c ∈ p, c ≠ '"' ∧ c ≠ '\\') :
    matchRules ('"' :: (p ++ '"' :: rest)) = some (.emit .String (p.length + 2)) := by
  have hb := matchStringBody_plain '"' p rest h
  simp [matchRules, matchKeyword, matchIdent, matchInt, matchString, isIdentStart, hb]

theorem matchRules_octal (ds rest : List Char) (hds : ∀ c ∈ ds, isOctalDigit c = true)
    (hrest : ∀ x r, rest = x :: r → x.isDigit = false) :
    matchRules ('0' :: (ds ++ rest)) = some (.emit .Int (ds.length + 1)) := by
  have hd : ∀ c ∈ ds, c.isDigit = true := by
    intro c hc
    have := hds c hc
    simp only [isOctalDigit, Bool.and_eq_true] at this
    exact this.1
  have hs := spanLen_word Char.isDigit ds rest hd hrest
  have h0 : ('0' : Char).isDigit = true := by decide
  simp [matchRules, matchKeyword, matchIdent, matchInt, isIdentStart, hs, h0]

theorem lex_emit_step (F : Nat) (pos : Position) (s : List Char) (k : TokenKind) (n : Nat)
    (v : Str) (hF : s.length ≤ F) (hm : matchRules s = some (.emit k n))
    (hv : (if k = .String then unquote (s.take n) else some (s.take n)) = some v) :
    lexFrom F pos s
      = prependTokens [⟨k, v, pos⟩] (lexFrom F (pos.advance (s.take n)) (s.drop n)) := by
  have hs : s ≠ [] := by
    intro h0
    subst h0
    simp [matchRules, matchKeyword, matchIdent, matchInt, matchString,
      matchOperator, matchWhitespace, matchComment] at hm
  rw [lexFrom_step F pos s hs hF]
  unfold lexStep
  rw [hm]
  simp only [hv]
  cases lexFrom F (pos.advance (s.take n)) (s.drop n) <;> rfl

theorem lex_skip_step (F : Nat) (pos : Position) (s : List Char) (n : Nat)
    (hF : s.length ≤ F) (hm : matchRules s = some (.skip n)) :
    lexFrom F pos s = lexFrom F (pos.advance (s.take n)) (s.drop n) := by
  have hs : s ≠ [] := by
    intro h0
    subst h0
    simp [matchRules, matchKeyword, matchIdent, matchInt, matchString,
      matchOperator, matchWhitespace, matchComment] at hm
  rw [lexFrom_step F pos s hs hF]
  unfold lexStep
  rw [hm]

theorem take_quoted (p rest : List Char) :
    List.take (p.length + 2) ('"' :: (p ++ '"' :: rest)) = '"' :: (p ++ ['"']) := by
  have : p ++ '"' :: rest = (p ++ ['"']) ++ rest := by simp
  rw [List.take_succ_cons, this, List.take_left' (by simp)]

theorem drop_quoted (p rest : List Char) :
    List.drop (p.length + 2) ('"' :: (p ++ '"' :: rest)) = rest := by
  have : p ++ '"' :: rest = (p ++ ['"']) ++ rest := by simp
  rw [List.drop_succ_cons, this, List.drop_left' (by simp)]

/-- The tokens of `mkdirDoc p ('0' :: ds)`. -/
theorem lex_mkdirDoc (p ds : List Char) (hp : ∀ c ∈ p, c ≠ '"' ∧ c ≠ '\\')
    (hds : ∀ c ∈ ds, isOctalDigit c = true) :
    ∃ p7 p8 p9 p10, lex (mkdirDoc p ('0' :: ds)) = .ok
      [tokAt .Keyword "state" 0, tokAt .Ident "a" 6, tokAt .Operator "\x7b" 8,
       tokAt .Ident "scratch" 10, tokAt .Operator ";" 17, tokAt .Ident "mkdir" 19,
       ⟨.String, p, ⟨25, 1, 26⟩⟩, ⟨.Int, '0' :: ds, p7⟩, ⟨.Operator, ";".toList, p8⟩,
       ⟨.Operator, "\x7d".toList, p9⟩, ⟨.EOF, [], p10⟩] := by
  have hA : lexUpTo 11 Position.start (mkdirDoc p ('0' :: ds)) 25
      = some ([tokAt .Keyword "state" 0, tokAt .Ident "a" 6, tokAt .Operator "\x7b" 8,
          tokAt .Ident "scratch" 10, tokAt .Operator ";" 17, tokAt .Ident "mkdir" 19],
          ⟨25, 1, 26⟩) := rfl
  have hdrop : List.drop 25 (mkdirDoc p ('0' :: ds))
      = '"' :: (p ++ '"' :: ' ' :: ('0' :: (ds ++ "; \x7d".toList))) := rfl
  have hF1 : ('"' :: (p ++ '"' :: ' ' :: ('0' :: (ds ++ "; \x7d".toList)))).length
      ≤ (mkdirDoc p ('0' :: ds)).length := by
    rw [← hdrop, List.length_drop]; omega
  have hF2 : (' ' :: ('0' :: (ds ++ "; \x7d".toList))).length
      ≤ (mkdirDoc p ('0' :: ds)).length := by
    refine le_trans ?_ hF1
    simp only [List.length_cons, List.length_append]; omega
  have hF3 : ('0' :: (ds ++ "; \x7d".toList)).length ≤ (mkdirDoc p ('0' :: ds)).length := by
    refine le_trans ?_ hF2
    simp only [List.length_cons, List.length_append]; omega
  have hF4 : ("; \x7d".toList).length ≤ (mkdirDoc p ('0' :: ds)).length := by
    refine le_trans ?_ hF3
    simp only [List.length_cons, List.length_append]; omega
  have hws : matchRules (' ' :: ('0' :: (ds ++ "; \x7d".toList))) = some (.skip 1) := rfl
  have hint := matchRules_octal ds "; \x7d".toList hds (by intro x r h; cases h; decide)
  have htake : List.take (ds.length + 1) ('0' :: (ds ++ "; \x7d".toList)) = '0' :: ds := by
    rw [List.take_succ_cons, List.take_left' rfl]
  have hdrp : List.drop (ds.length + 1) ('0' :: (ds ++ "; \x7d".toList)) = "; \x7d".toList := by
    rw [List.drop_succ_cons, List.drop_left' rfl]
  refine ⟨?p7, ?p8, ?p9, ?p10, ?main⟩
  case main =>
  unfold lex
  rw [lexFrom_of_lexUpTo _ _ _ _ _ _ _ hA (le_refl _), hdrop]
  rw [lex_emit_step _ _ _ .String (p.length + 2) p hF1 (matchRules_string p _ hp)
    (by rw [take_quoted]; exact unquote_plain '"' p hp)]
  rw [take_quoted, drop_quoted]
  rw [lex_skip_step _ _ _ 1 hF2 hws]
  rw [show List.drop 1 (' ' :: ('0' :: (ds ++ "; \x7d".toList)))
    = '0' :: (ds ++ "; \x7d".toList) from rfl]
  rw [lex_emit_step _ _ _ .Int (ds.length + 1) ('0' :: ds) hF3 hint (by rw [htake]; rfl)]
  rw [htake, hdrp]
  rw [lexFrom_fuel _ 3 _ _ hF4 (by decide)]
  exact rfl

theorem FileMode_parse_int (m : Str) (v : Nat) (pos : Position) (rest : List Token)
    (hm : toUint32 m = some v) :
    FileMode.parse (⟨.Int, m, pos⟩ :: rest) = .ok { Pos := pos, Value := v } 1 := by
  simp [FileMode.parse, strct, capNum, peek, hm]

theorem Mkdir_parse_plain (path m : Str) (v : Nat) (p6 p7 : Position) (t : Token)
    (rest : List Token) (hm : toUint32 m = some v) (ht : t.value ≠ "with".toList) :
    Mkdir.parse (⟨.String, path, p6⟩ :: ⟨.Int, m, p7⟩ :: t :: rest)
      = .ok { Pos := p6, Path := path, Mode := some { Pos := p7, Value := v } } 2 := by
  simp only [Mkdir.parse, strct, andThen, capTok, capStruct, peek, List.headD_cons,
    if_true, List.drop_one, List.tail_cons, FileMode_parse_int m v p7 (t :: rest) hm,
    withOption, opt, lit, List.drop_succ_cons, List.drop_zero, if_neg ht]

theorem Op_parse_mkdir {S : Type} (pState : List Token → Res S) (k : TokenKind)
    (path m : Str) (v : Nat) (p5 p6 p7 : Position) (t : Token)
    (rest : List Token) (hm : toUint32 m = some v) (ht : t.value ≠ "with".toList) :
    Op.parse pState (⟨k, "mkdir".toList, p5⟩ :: ⟨.String, path, p6⟩ :: ⟨.Int, m, p7⟩ :: t :: rest)
      = .ok { Pos := p5,
              Mkdir := some { Pos := p6, Path := path, Mode := some { Pos := p7, Value := v } } }
          3 := by
  simp [Op.parse, strct, alt, altLoop, andThen, lit, capStruct, peek,
    Mkdir_parse_plain path m v p6 p7 t rest hm ht]

theorem Op_parse_close {S : Type} (pState : List Token → Res S) (t : Token) (rest : List Token)
    (ht : t.value = "\x7d".toList) (hk : t.kind ≠ .Ident) :
    Op.parse pState (t :: rest) = .noMatch :=
  (Op_lead pState).1 t rest ⟨ht, hk⟩

theorem StateBody_parse_scratch_mkdir {S : Type} (pState : List Token → Res S)
    (path m : Str) (v : Nat) (p2 p3 p4 p5 p6 p7 p8 p9 : Position) (rest : List Token)
    (hm : toUint32 m = some v) :
    StateBody.parse pState
        (⟨.Operator, "\x7b".toList, p2⟩ :: ⟨.Ident, "scratch".toList, p3⟩ ::
          ⟨.Operator, ";".toList, p4⟩ :: ⟨.Ident, "mkdir".toList, p5⟩ :: ⟨.String, path, p6⟩ ::
          ⟨.Int, m, p7⟩ :: ⟨.Operator, ";".toList, p8⟩ :: ⟨.Operator, "\x7d".toList, p9⟩ :: rest)
      = .ok { Pos := p2,
              Source := some { Pos := p3, Scratch := some "scratch".toList },
              Ops := [{ Pos := p5,
                        Mkdir := some { Pos := p6, Path := path,
                                        Mode := some { Pos := p7, Value := v } } }],
              BlockEnd := { Pos := p9, Brace := "\x7d".toList } } 8 := by
  have hop := Op_parse_mkdir pState .Ident path m v p5 p6 p7 ⟨.Operator, ";".toList, p8⟩
    (⟨.Operator, "\x7d".toList, p9⟩ :: rest) hm (by simp)
  have hcl := Op_parse_close pState ⟨.Operator, "\x7d".toList, p9⟩ rest rfl (by simp)
  simp only [String.toList] at hop hcl
  simp [StateBody.parse, Source.parse, BlockEnd.parse, strct, alt, altLoop, andThen, lit,
    capLit, capStruct, peek, opt, many, manyLoop, hop, hcl]

theorem parseTokens_scratch_mkdir (path m : Str) (v : Nat)
    (p0 p1 p2 p3 p4 p5 p6 p7 p8 p9 p10 : Position) (hm : toUint32 m = some v) :
    parseTokens
        [⟨.Keyword, "state".toList, p0⟩, ⟨.Ident, "a".toList, p1⟩,
          ⟨.Operator, "\x7b".toList, p2⟩, ⟨.Ident, "scratch".toList, p3⟩,
          ⟨.Operator, ";".toList, p4⟩, ⟨.Ident, "mkdir".toList, p5⟩, ⟨.String, path, p6⟩,
          ⟨.Int, m, p7⟩, ⟨.Operator, ";".toList, p8⟩, ⟨.Operator, "\x7d".toList, p9⟩,
          ⟨.EOF, [], p10⟩]
      = (some (mkdirAST path v p0 p1 p2 p3 p5 p6 p7 p9), none) := by
  have hb := StateBody_parse_scratch_mkdir (State.parse 11) path m v p2 p3 p4 p5 p6 p7 p8 p9
    [⟨.EOF, [], p10⟩] hm
  simp only [String.toList] at hb
  simp [parseTokens, AST.parse, Entry.parse, StateEntry.parse, Signature.parse, strct, andThen,
    lit, capTok, capStruct, peek, opt, many, manyLoop, hb, mkdirAST]

/-- C3, as stated, fails: a mode literal whose octal value does not fit in 32
bits (here `040000000000`, which is 2^32) is rejected; the document does not
parse. -/
theorem mkdir_mode_overflow :
    mkdirDoc "/x".toList "040000000000".toList
        = "state a \x7b scratch; mkdir \"/x\" 040000000000; \x7d".toList
      ∧ octalValue "40000000000".toList = 2 ^ 32
      ∧ (Parse (mkdirDoc "/x".toList "040000000000".toList)).2
        = some (.grammar (.invalidInt (tokAt .Int "040000000000" 30))) := by
  refine ⟨rfl, by decide, rfl⟩

/-- C3, amended. For every path `p` written without escapes (no backslash, no
double quote) and every mode literal `0` followed by octal digits whose value
fits in 32 bits, the document `state a \x7b scratch; mkdir "p" <mode>; \x7d` parses
to one entry whose body has the source `scratch` (and no other source variant)
and exactly one op, a `Mkdir` (and no other op variant) with `Path = p` and
`Mode.Value` the octal value of the literal. -/
theorem mkdir_octal_mode (p ds : List Char) (hp : ∀ c ∈ p, c ≠ '"' ∧ c ≠ '\\')
    (hds : ∀ c ∈ ds, isOctalDigit c = true) (hfit : octalValue ds < 2 ^ 32) :
    ∃ p7 p9,
      Parse (mkdirDoc p ('0' :: ds))
        = (some (mkdirAST p (octalValue ds) ⟨0, 1, 1⟩ ⟨6, 1, 7⟩ ⟨8, 1, 9⟩ ⟨10, 1, 11⟩
            ⟨19, 1, 20⟩ ⟨25, 1, 26⟩ p7 p9), none) := by
  obtain ⟨p7, p8, p9, p10, hl⟩ := lex_mkdirDoc p ds hp hds
  refine ⟨p7, p9, ?_⟩
  unfold Parse
  rw [hl]
  exact parseTokens_scratch_mkdir p ('0' :: ds) (octalValue ds) _ _ _ _ _ _ _ p7 p8 p9 p10
    (toUint32_octal ds hds hfit)

/-- Witness of C3 (amended): `mkdir "/x" 0755` yields the mode 493. -/
theorem mkdir_octal_mode_witness :
    mkdirDoc "/x".toList "0755".toList = "state a \x7b scratch; mkdir \"/x\" 0755; \x7d".toList
      ∧ octalValue "755".toList = 493
      ∧ ∃ p7 p9,
          Parse (mkdirDoc "/x".toList ('0' :: "755".toList))
            = (some (mkdirAST "/x".toList (octalValue "755".toList) ⟨0, 1, 1⟩ ⟨6, 1, 7⟩
                ⟨8, 1, 9⟩ ⟨10, 1, 11⟩ ⟨19, 1, 20⟩ ⟨25, 1, 26⟩ p7 p9), none) :=
  ⟨rfl, by decide, mkdir_octal_mode "/x".toList "755".toList (by decide) (by decide) (by decide)⟩

/-! ## What a successful parse returns -/

theorem triple_lit (A : σ → Prop) (v : Str) : Triple A (lit v) A := by
  intro s ts s1 n ha h
  unfold lit at h
  split at h
  · cases h
  · split at h <;> cases h
    exact ha

theorem triple_capLit {A B : σ → Prop} (v : Str) (set : σ → Str → σ)
    (h : ∀ s x, A s → B (set s x)) : Triple A (capLit v set) B := by
  intro s ts s1 n ha hr
  unfold capLit at hr
  split at hr
  · cases hr
  · split at hr <;> cases hr
    exact h _ _ ha

theorem triple_capTok {A B : σ → Prop} (k : TokenKind) (set : σ → Str → σ)
    (h : ∀ s x, A s → B (set s x)) : Triple A (capTok k set) B := by
  intro s ts s1 n ha hr
  unfold capTok at hr
  split at hr
  · cases hr
  · split at hr <;> cases hr
    exact h _ _ ha

theorem triple_capStruct {A B : σ → Prop} {Q : τ → Prop} {child : List Token → Res τ}
    (set : σ → τ → σ) (hc : Post Q child) (h : ∀ s v, A s → Q v → B (set s v)) :
    Triple A (capStruct child set) B := by
  intro s ts s1 n ha hr
  unfold capStruct at hr
  cases hch : child ts with
  | noMatch => rw [hch] at hr; cases hr
  | err e v m => rw [hch] at hr; cases hr
  | ok v m =>
    rw [hch] at hr
    cases hr
    exact h _ _ ha (hc _ _ _ hch)

theorem post_true (p : List Token → Res τ) : Post (fun _ => True) p :=
  fun _ _ _ _ => trivial

theorem post_strct {A B : τ → Prop} {expr : Node τ} (zero : Position → τ)
    (hz : ∀ pos, A (zero pos)) (h : Triple A expr B) : Post B (strct zero expr) :=
  fun ts v n hr => h _ ts v n (hz _) hr

theorem triple_andThen {A B C : σ → Prop} {p q : Node σ} (e : Expect)
    (hp : Triple A p B) (hq : Triple B q C) : Triple A (andThen p e q) C := by
  intro s ts s2 n ha hr
  unfold andThen at hr
  cases h1 : p s ts with
  | noMatch => rw [h1] at hr; cases hr
  | err e1 s1 m => rw [h1] at hr; cases hr
  | ok s1 m =>
    rw [h1] at hr
    simp only at hr
    cases h2 : q s1 (List.drop m ts) with
    | noMatch => rw [h2] at hr; cases hr
    | err e1 s3 k => rw [h2] at hr; cases hr
    | ok s3 k =>
      rw [h2] at hr
      cases hr
      exact hq _ _ _ _ (hp _ _ _ _ ha h1) h2

theorem triple_opt {A : σ → Prop} {p : Node σ} (hp : Triple A p A) : Triple A (opt p) A := by
  intro s ts s1 n ha hr
  unfold opt at hr
  cases h1 : p s ts with
  | noMatch => rw [h1] at hr; cases hr; exact ha
  | ok s2 m => rw [h1] at hr; cases hr; exact hp _ _ _ _ ha h1
  | err e s2 m =>
    rw [h1] at hr
    simp only at hr
    split at hr <;> cases hr
    exact ha

theorem triple_opt_weak {A B : σ → Prop} {p : Node σ} (hp : Triple A p B)
    (hab : ∀ s, A s → B s) : Triple A (opt p) B := by
  intro s ts s1 n ha hr
  unfold opt at hr
  cases h1 : p s ts with
  | noMatch => rw [h1] at hr; cases hr; exact hab _ ha
  | ok s2 m => rw [h1] at hr; cases hr; exact hp _ _ _ _ ha h1
  | err e s2 m =>
    rw [h1] at hr
    simp only at hr
    split at hr <;> cases hr
    exact hab _ ha

theorem manyLoop_triple {A : σ → Prop} {p : Node σ} (hp : Triple A p A) :
    ∀ (f : Nat) (s : σ) (ts : List Token) (s1 : σ) (n : Nat), A s →
      manyLoop p f s ts = .ok s1 n → A s1 := by
  intro f
  induction f with
  | zero => intro s ts s1 n ha hr; cases hr; exact ha
  | succ f ih =>
    intro s ts s1 n ha hr
    unfold manyLoop at hr
    cases h1 : p s ts with
    | noMatch => rw [h1] at hr; cases hr; exact ha
    | err e s2 m =>
      rw [h1] at hr
      simp only at hr
      split at hr <;> cases hr
      exact ha
    | ok s2 m =>
      rw [h1] at hr
      simp only at hr
      have ha2 := hp _ _ _ _ ha h1
      cases h2 : manyLoop p f s2 (List.drop m ts) with
      | noMatch => rw [h2] at hr; cases hr; exact ha2
      | err e s3 k => rw [h2] at hr; cases hr
      | ok s3 k => rw [h2] at hr; cases hr; exact ih _ _ _ _ ha2 h2

theorem triple_many {A : σ → Prop} {p : Node σ} (hp : Triple A p A) : Triple A (many p) A :=
  fun s ts s1 n ha hr => manyLoop_triple hp _ s ts s1 n ha hr

theorem altLoop_triple {A B : σ → Prop} (s : σ) (ts : List Token) (ha : A s) :
    ∀ (ps : List (Node σ)) (best : Option (ParseError × Nat)),
      AllNodes (fun p => Triple A p B) ps →
      ∀ s1 n, altLoop s ts ps best = .ok s1 n → B s1 := by
  intro ps
  induction ps with
  | nil => intro best _ s1 n hr; cases best <;> cases hr
  | cons p ps ih =>
    intro best hall s1 n hr
    obtain ⟨hp, hps⟩ := hall
    unfold altLoop at hr
    cases h1 : p s ts with
    | noMatch => rw [h1] at hr; exact ih best hps s1 n hr
    | ok s2 m => rw [h1] at hr; cases hr; exact hp _ _ _ _ ha h1
    | err e s2 m =>
      rw [h1] at hr
      simp only at hr
      split at hr
      · cases hr
      · exact ih _ hps s1 n hr

theorem triple_alt {A B : σ → Prop} {ps : List (Node σ)}
    (h : AllNodes (fun p => Triple A p B) ps) : Triple A (alt ps) B :=
  fun s ts s1 n ha hr => altLoop_triple s ts ha ps none h s1 n hr

/-! ## Nested states and the bodies of an AST -/

theorem FromState_post {S : Type} {P : S → Prop} {pState : List Token → Res S}
    (h : Post P pState) : Post (FromState.nested P) (FromState.parse pState) := by
  unfold FromState.parse
  refine post_strct (A := fun _ => True) _ (fun _ => trivial)
    (triple_capStruct _ h (fun s v _ hv => ?_))
  intro st hst
  have hst' : some v = some st := hst
  cases hst'
  exact hv

theorem MountState_post {S : Type} {P : S → Prop} {pState : List Token → Res S}
    (h : Post P pState) : Post (MountState.nested P) (MountState.parse pState) := by
  unfold MountState.parse withOption
  refine post_strct (A := fun _ => True) _ (fun _ => trivial)
    (triple_andThen _ (triple_andThen _ (triple_capStruct _ h (fun s v _ hv => ?_))
      (triple_capTok _ _ (fun s x hs => hs)))
      (triple_opt (triple_andThen _ (triple_lit _ _)
        (triple_capStruct _ (post_true _) (fun s v hs _ => hs)))))
  intro st hst
  have hst' : some v = some st := hst
  cases hst'
  exact hv

theorem CopyState_post {S : Type} {P : S → Prop} {pState : List Token → Res S}
    (h : Post P pState) : Post (CopyState.nested P) (CopyState.parse pState) := by
  unfold CopyState.parse withOption
  refine post_strct (A := fun _ => True) _ (fun _ => trivial)
    (triple_andThen _ (triple_andThen _ (triple_andThen _
      (triple_capStruct _ h (fun s v _ hv => ?_))
      (triple_capTok _ _ (fun s x hs => hs))) (triple_capTok _ _ (fun s x hs => hs)))
      (triple_opt (triple_andThen _ (triple_lit _ _)
        (triple_capStruct _ (post_true _) (fun s v hs _ => hs)))))
  intro st hst
  have hst' : some v = some st := hst
  cases hst'
  exact hv

theorem OptionBlock_post {F : Type} {Q : F → Prop} {field : List Token → Res F}
    (h : Post Q field) :
    Post (fun ob => ∀ f ∈ ob.Fields, Q f) (OptionBlock.parse field) := by
  unfold OptionBlock.parse
  refine post_strct (A := fun ob => ∀ f ∈ ob.Fields, Q f) _
    (fun _ f hf => absurd hf (List.not_mem_nil f))
    (triple_alt (allNodes_cons
      (triple_andThen _ (triple_andThen _ (triple_andThen _ (triple_lit _ _) (triple_lit _ _))
        (triple_many (triple_andThen _ (triple_capStruct _ h (fun s v hs hv => ?_))
          (triple_opt (triple_lit _ _)))))
        (triple_capStruct _ (post_true _) (fun s v hs _ => hs)))
      (allNodes_cons (triple_capTok _ _ (fun s x hs => hs)) (allNodes_nil _))))
  intro f hf
  have hf' : f ∈ s.Fields ++ [v] := hf
  rcases List.mem_append.mp hf' with h1 | h1
  · exact hs f h1
  · rw [List.mem_singleton.mp h1]; exact hv

theorem ExecField_post {S : Type} {P : S → Prop} {pState : List Token → Res S}
    (h : Post P pState) : Post (ExecField.nested P) (ExecField.parse pState) := by
  have hk : ∀ (s : ExecField S) (m : MountState S), s.MountState = none →
      s.MountState = some m → m.nested P := by
    intro s m h0 h1; rw [h0] at h1; cases h1
  unfold ExecField.parse
  refine post_strct (A := fun s => s.MountState = none) _ (fun _ => rfl) (triple_alt ?_)
  refine allNodes_cons (triple_capLit _ _ (fun s x hs m hm => hk s m hs hm)) ?_
  refine allNodes_cons (triple_andThen _ (triple_lit _ _)
    (triple_capStruct _ (post_true _) (fun s v hs _ m hm => hk s m hs hm))) ?_
  refine allNodes_cons (triple_andThen _ (triple_lit _ _)
    (triple_capStruct _ (post_true _) (fun s v hs _ m hm => hk s m hs hm))) ?_
  refine allNodes_cons (triple_andThen _ (triple_lit _ _)
    (triple_capStruct _ (post_true _) (fun s v hs _ m hm => hk s m hs hm))) ?_
  refine allNodes_cons (triple_andThen _ (triple_lit _ _)
    (triple_capStruct _ (post_true _) (fun s v hs _ m hm => hk s m hs hm))) ?_
  refine allNodes_cons (triple_andThen _ (triple_lit _ _)
    (triple_capStruct _ (post_true _) (fun s v hs _ m hm => hk s m hs hm))) ?_
  refine allNodes_cons (triple_andThen _ (triple_lit _ _)
    (triple_capStruct _ (post_true _) (fun s v hs _ m hm => hk s m hs hm))) ?_
  refine allNodes_cons (triple_andThen _ (triple_lit _ _)
    (triple_capStruct _ (post_true _) (fun s v hs _ m hm => hk s m hs hm))) ?_
  refine allNodes_cons (triple_andThen _ (triple_lit _ _)
    (triple_capStruct _ (post_true _) (fun s v hs _ m hm => hk s m hs hm))) ?_
  refine allNodes_cons (triple_andThen _ (triple_lit _ _)
    (triple_capStruct _ (MountState_post h) (fun s v hs hv m hm => ?_))) ?_
  · have hm' : some v = some m := hm
    cases hm'
    exact hv
  refine allNodes_cons (triple_andThen _ (triple_lit _ _)
    (triple_capStruct _ (post_true _) (fun s v hs _ m hm => hk s m hs hm))) ?_
  exact allNodes_nil _

theorem Exec_post {S : Type} {P : S → Prop} {pState : List Token → Res S}
    (h : Post P pState) : Post (Exec.nested P) (Exec.parse pState) := by
  unfold Exec.parse withOption
  refine post_strct (A := fun s => s.Option = none) _ (fun _ => rfl)
    (triple_andThen (B := fun s => s.Option = none) _ (triple_capTok _ _ (fun s x hs => hs))
      (triple_opt_weak ?_ ?_))
  · exact triple_andThen _ (triple_lit _ _)
      (triple_capStruct _ (OptionBlock_post (ExecField_post h)) (fun s v hs hv ob hob => by
        have hob' : some v = some ob := hob
        cases hob'
        exact hv))
  · intro s hs ob hob
    rw [hs] at hob
    cases hob

theorem Op_post {S : Type} {P : S → Prop} {pState : List Token → Res S}
    (h : Post P pState) : Post (Op.nested P) (Op.parse pState) := by
  have hk : ∀ (s : Op S), (s.Exec = none ∧ s.CopyState = none) →
      (∀ e, s.Exec = some e → e.nested P) ∧ (∀ c, s.CopyState = some c → c.nested P) := by
    intro s h0
    refine ⟨fun e he => ?_, fun c hc => ?_⟩
    · rw [h0.1] at he; cases he
    · rw [h0.2] at hc; cases hc
  unfold Op.parse
  refine post_strct (A := fun s => s.Exec = none ∧ s.CopyState = none) _
    (fun _ => ⟨rfl, rfl⟩) (triple_alt ?_)
  refine allNodes_cons (triple_andThen _ (triple_lit _ _)
    (triple_capStruct _ (Exec_post h) (fun s v hs hv => ⟨fun e he => ?_, fun c hc => ?_⟩))) ?_
  · have he' : some v = some e := he
    cases he'
    exact hv
  · have hc' : s.CopyState = some c := hc
    rw [hs.2] at hc'
    cases hc'
  refine allNodes_cons (triple_andThen _ (triple_lit _ _)
    (triple_capStruct _ (post_true _) (fun s v hs _ => hk s hs))) ?_
  refine allNodes_cons (triple_andThen _ (triple_lit _ _)
    (triple_capStruct _ (post_true _) (fun s v hs _ => hk s hs))) ?_
  refine allNodes_cons (triple_andThen _ (triple_lit _ _)
    (triple_capStruct _ (post_true _) (fun s v hs _ => hk s hs))) ?_
  refine allNodes_cons (triple_andThen _ (triple_lit _ _)
    (triple_capStruct _ (post_true _) (fun s v hs _ => hk s hs))) ?_
  refine allNodes_cons (triple_andThen _ (triple_lit _ _)
    (triple_capStruct _ (post_true _) (fun s v hs _ => hk s hs))) ?_
  refine allNodes_cons (triple_andThen _ (triple_lit _ _)
    (triple_capStruct _ (post_true _) (fun s v hs _ => hk s hs))) ?_
  refine allNodes_cons (triple_andThen _ (triple_lit _ _)
    (triple_capStruct _ (CopyState_post h)
      (fun s v hs hv => ⟨fun e he => ?_, fun c hc => ?_⟩))) ?_
  · have he' : s.Exec = some e := he
    rw [hs.1] at he'
    cases he'
  · have hc' : some v = some c := hc
    cases hc'
    exact hv
  refine allNodes_cons (triple_andThen _ (triple_lit _ _)
    (triple_capStruct _ (post_true _) (fun s v hs _ => hk s hs))) ?_
  exact allNodes_nil _

theorem Source_post {S : Type} {P : S → Prop} {pState : List Token → Res S}
    (h : Post P pState) :
    Post (fun src => src.variantCount = 1 ∧ src.nested P) (Source.parse pState) := by
  have hn : ∀ (s t : Source S), s.FromState = none → t.FromState = s.FromState →
      t.nested P := by
    intro s t h0 h1 fs hfs
    rw [h1, h0] at hfs
    cases hfs
  unfold Source.parse
  refine post_strct (A := Source.blank) _ (fun _ => ⟨rfl, rfl, rfl, rfl, rfl, rfl⟩)
    (triple_alt ?_)
  refine allNodes_cons (triple_andThen _ (triple_lit _ _)
    (triple_capStruct _ (FromState_post h) (fun s v hs hv => ⟨?_, fun fs hfs => ?_⟩))) ?_
  · obtain ⟨h1, h2, h3, h4, h5, h6⟩ := hs
    simp [Source.variantCount, h2, h3, h4, h5, h6]
  · have hfs' : some v = some fs := hfs
    cases hfs'
    exact hv
  refine allNodes_cons (triple_andThen _ (triple_lit _ _)
    (triple_capStruct _ (post_true _) (fun s v hs _ => ⟨?_, hn s _ hs.1 rfl⟩))) ?_
  · obtain ⟨h1, h2, h3, h4, h5, h6⟩ := hs
    simp [Source.variantCount, h1, h3, h4, h5, h6]
  refine allNodes_cons (triple_capLit _ _ (fun s v hs => ⟨?_, hn s _ hs.1 rfl⟩)) ?_
  · obtain ⟨h1, h2, h3, h4, h5, h6⟩ := hs
    simp [Source.variantCount, h1, h2, h4, h5, h6]
  refine allNodes_cons (triple_andThen _ (triple_lit _ _)
    (triple_capStruct _ (post_true _) (fun s v hs _ => ⟨?_, hn s _ hs.1 rfl⟩))) ?_
  · obtain ⟨h1, h2, h3, h4, h5, h6⟩ := hs
    simp [Source.variantCount, h1, h2, h3, h5, h6]
  refine allNodes_cons (triple_andThen _ (triple_lit _ _)
    (triple_capStruct _ (post_true _) (fun s v hs _ => ⟨?_, hn s _ hs.1 rfl⟩))) ?_
  · obtain ⟨h1, h2, h3, h4, h5, h6⟩ := hs
    simp [Source.variantCount, h1, h2, h3, h4, h6]
  refine allNodes_cons (triple_andThen _ (triple_lit _ _)
    (triple_capStruct _ (post_true _) (fun s v hs _ => ⟨?_, hn s _ hs.1 rfl⟩))) ?_
  · obtain ⟨h1, h2, h3, h4, h5, h6⟩ := hs
    simp [Source.variantCount, h1, h2, h3, h4, h5]
  exact allNodes_nil _

theorem StateBody_post {S : Type} {P : S → Prop} {pState : List Token → Res S}
    (h : Post P pState) :
    Post (fun b => b.sound P ∧ b.Source ≠ none) (StateBody.parse pState) := by
  unfold StateBody.parse
  refine post_strct (A := StateBody.sound P) _ ?_
    (triple_andThen _ (triple_andThen _ (triple_andThen _ (triple_andThen _
      (triple_lit _ _)
      (triple_capStruct (B := fun b => b.sound P ∧ b.Source ≠ none) _ (Source_post h)
        (fun s v hs hv => ?_)))
      (triple_opt (triple_lit _ _)))
      (triple_many (triple_andThen _ (triple_capStruct _ (Op_post h) (fun s v hs hv => ?_))
        (triple_opt (triple_lit _ _)))))
      (triple_capStruct _ (post_true _) (fun s v hs _ => hs)))
  · intro pos
    refine ⟨fun src hsrc => ?_, fun op hop => absurd hop (List.not_mem_nil op)⟩
    cases hsrc
  · refine ⟨⟨fun src hsrc => ?_, hs.2⟩, fun hnone => ?_⟩
    · have hsrc' : some v = some src := hsrc
      cases hsrc'
      exact hv
    · cases hnone
  · refine ⟨⟨hs.1.1, fun op hop => ?_⟩, hs.2⟩
    have hop' : op ∈ s.Ops ++ [v] := hop
    rcases List.mem_append.mp hop' with h1 | h1
    · exact hs.1.2 op h1
    · rw [List.mem_singleton.mp h1]; exact hv

theorem post_mono {Q Q' : τ → Prop} {p : List Token → Res τ} (h : Post Q p)
    (hq : ∀ v, Q v → Q' v) : Post Q' p :=
  fun ts v n hr => hq v (h ts v n hr)

/-- The bodies of a parsed state satisfy every property that the results of
the `StateBody` rule have. -/
theorem State_allBodies (Q : StateBody State → Prop)
    (hQ : ∀ pState : List Token → Res State, Post Q (StateBody.parse pState)) :
    ∀ (d fuel : Nat), Post (State.allBodies Q d) (State.parse fuel) := by
  intro d
  induction d with
  | zero => intro fuel ts v n _; trivial
  | succ d ih =>
    intro fuel
    cases fuel with
    | zero => intro ts v n hr; cases hr
    | succ fuel =>
      unfold State.parse
      refine post_strct (A := fun st => st.Body = none) _ (fun _ => rfl)
        (triple_andThen (B := fun st => st.Body = none) _
          (triple_opt (triple_capLit _ _ (by intro s x hs; exact hs)))
          (triple_capStruct (Q := fun b => Q b ∧ b.nested (State.allBodies Q d)) _ ?_
            (fun s v _ hv b hb => ?_)))
      · intro ts v n hr
        exact ⟨hQ _ ts v n hr,
          fun src hsrc => ((StateBody_post (ih fuel) ts v n hr).1.1 src hsrc).2,
          (StateBody_post (ih fuel) ts v n hr).1.2⟩
      · have hb' : some v = some b := hb
        cases hb'
        exact hv

theorem Entry_allBodies (Q : StateBody Hlb.State → Prop)
    (hQ : ∀ pState : List Token → Res Hlb.State, Post Q (StateBody.parse pState))
    (d fuel : Nat) : Post (Entry.allBodies Q d) (Entry.parse (Hlb.State.parse fuel)) := by
  have hb : Post (fun b => Q b ∧ b.nested (Hlb.State.allBodies Q d))
      (StateBody.parse (Hlb.State.parse fuel)) := by
    intro ts v n hr
    have h1 := StateBody_post (State_allBodies Q hQ d fuel) ts v n hr
    exact ⟨hQ _ ts v n hr, fun src hsrc => (h1.1.1 src hsrc).2, h1.1.2⟩
  have hse : Post (fun se : StateEntry => ∀ b, se.Body = some b →
      Q b ∧ b.nested (Hlb.State.allBodies Q d)) (StateEntry.parse (Hlb.State.parse fuel)) := by
    unfold StateEntry.parse
    refine post_strct (A := fun se => se.Body = none) _ (fun _ => rfl)
      (triple_andThen (B := fun se => se.Body = none) _
        (triple_andThen (B := fun se => se.Body = none) _
          (triple_capTok _ _ (by intro s x hs; exact hs))
          (triple_opt (triple_capStruct _ (post_true _) (by intro s v hs _; exact hs))))
        (triple_capStruct _ hb (fun s v _ hv b hbb => ?_)))
    have hb' : some v = some b := hbb
    cases hb'
    exact hv
  unfold Entry.parse
  refine post_strct (A := fun _ => True) _ (fun _ => trivial)
    (triple_andThen _ (triple_lit _ _) (triple_capStruct _ hse (fun s v _ hv se hs => ?_)))
  have hs' : some v = some se := hs
  cases hs'
  exact hv

theorem AST_allBodies (Q : StateBody State → Prop)
    (hQ : ∀ pState : List Token → Res State, Post Q (StateBody.parse pState))
    (d fuel : Nat) : Post (AST.allBodies Q d) (AST.parse (State.parse fuel)) := by
  unfold AST.parse
  refine post_strct (A := AST.allBodies Q d) _ (fun _ e he => absurd he (List.not_mem_nil e))
    (triple_many (triple_andThen _
      (triple_capStruct _ (Entry_allBodies Q hQ d fuel) (fun s v hs hv e he => ?_))
      (triple_opt (triple_lit _ _))))
  have he' : e ∈ s.Entries ++ [v] := he
  rcases List.mem_append.mp he' with h1 | h1
  · exact hs e h1
  · rw [List.mem_singleton.mp h1]; exact hv

/-- Every body of a successfully parsed document satisfies every property that
the results of the `StateBody` rule have. -/
theorem Parse_allBodies (Q : StateBody State → Prop)
    (hQ : ∀ pState : List Token → Res State, Post Q (StateBody.parse pState))
    (input : List Char) (ast : AST) (h : Parse input = (some ast, none)) (d : Nat) :
    ast.allBodies Q d := by
  unfold Parse at h
  cases hl : lex input with
  | error e => rw [hl] at h; cases h
  | ok ts =>
    rw [hl] at h
    simp only [parseTokens] at h
    cases hp : AST.parse (State.parse ts.length) ts with
    | noMatch => rw [hp] at h; cases h
    | err e a n => rw [hp] at h; cases h
    | ok a n =>
      rw [hp] at h
      simp only at h
      split at h
      · cases h
        exact AST_allBodies Q hQ d _ ts _ n hp
      · cases h

/-! ## Sources of bodies -/

theorem Source_parse_from_ident (fuel : Nat) (t1 t2 : Token) (rest : List Token)
    (h1 : t1.value = "from".toList) (h2 : t2.kind = .Ident)
    (h3 : t2.value ≠ "state".toList) (h4 : t2.value ≠ "\x7b".toList) :
    Source.parse (State.parse fuel) (t1 :: t2 :: rest)
      = .ok { Pos := t1.pos, From := some { Pos := t2.pos, Input := t2.value } } 2 := by
  have h1' : t1.value = ['f', 'r', 'o', 'm'] := h1
  have h3' : t2.value ≠ ['s', 't', 'a', 't', 'e'] := h3
  have h4' : t2.value ≠ ['\x7b'] := h4
  cases fuel <;>
    simp [Source.parse, strct, alt, altLoop, andThen, lit, capStruct, FromState.parse,
      State.parse, opt, capLit, StateBody.parse, From.parse, capTok, h1', h2, h3', h4',
      lookahead, peek]

theorem Source_parse_no_start {S : Type} (pState : List Token → Res S) (t : Token)
    (rest : List Token) (ht : t.value ∉ sourceStarts) :
    Source.parse pState (t :: rest) = .noMatch := by
  simp only [sourceStarts, List.mem_cons, List.mem_singleton, List.not_mem_nil, or_false,
    not_or] at ht
  obtain ⟨h1, h2, h3, h4, h5⟩ := ht
  have h1' : t.value ≠ ['f', 'r', 'o', 'm'] := h1
  have h2' : t.value ≠ ['s', 'c', 'r', 'a', 't', 'c', 'h'] := h2
  have h3' : t.value ≠ ['i', 'm', 'a', 'g', 'e'] := h3
  have h4' : t.value ≠ ['h', 't', 't', 'p'] := h4
  have h5' : t.value ≠ ['g', 'i', 't'] := h5
  simp [Source.parse, strct, alt, altLoop, andThen, lit, capLit, h1', h2', h3', h4', h5']

theorem StateBody_parse_no_source {S : Type} (pState : List Token → Res S) (t0 t : Token)
    (rest : List Token) (ht : t.value ∉ sourceStarts) :
    StateBody.parse pState (t0 :: t :: rest)
      = if t0.value = "\x7b".toList
        then .err (.unexpected t (.rule "Source".toList)) { Pos := t0.pos } 1
        else .noMatch := by
  have hs := Source_parse_no_start pState t rest ht
  by_cases h0 : t0.value = ['\x7b']
  · simp [StateBody.parse, strct, andThen, lit, capStruct, h0, hs, peek]
  · simp [StateBody.parse, strct, andThen, lit, h0]

/-- C9: in every AST that `Parse` returns without error, the source of every
body, top-level or nested at any depth, has exactly one of its six variants
populated; and on `from <identifier>` the `Source` rule populates `From` only
(the `FromState` alternative, tried first, is abandoned after it consumed
`from`). -/
theorem source_exactly_one_variant (input : List Char) (ast : AST)
    (h : Parse input = (some ast, none)) :
    (∀ d, ast.allBodies (fun b => ∃ src, b.Source = some src ∧ src.variantCount = 1) d)
      ∧ ∀ (fuel : Nat) (t1 t2 : Token) (rest : List Token),
          t1.value = "from".toList → t2.kind = .Ident →
          t2.value ≠ "state".toList → t2.value ≠ "\x7b".toList →
          Source.parse (State.parse fuel) (t1 :: t2 :: rest)
            = .ok { Pos := t1.pos, FromState := none,
                    From := some { Pos := t2.pos, Input := t2.value } } 2 := by
  refine ⟨fun d => Parse_allBodies _ (fun pState ts b n hr => ?_) input ast h d,
    fun fuel t1 t2 rest h1 h2 h3 h4 => Source_parse_from_ident fuel t1 t2 rest h1 h2 h3 h4⟩
  have hb := StateBody_post (post_true pState) ts b n hr
  cases hsrc : b.Source with
  | none => exact absurd hsrc hb.2
  | some src => exact ⟨src, rfl, (hb.1.1 src hsrc).1⟩

theorem source_exactly_one_variant_witness :
    Parse "state a \x7b from state \x7b from b \x7d \x7d".toList = (some fromStateAST, none)
      ∧ fromStateAST.allBodies
          (fun b => ∃ src, b.Source = some src ∧ src.variantCount = 1) 2 :=
  ⟨rfl, (source_exactly_one_variant
    "state a \x7b from state \x7b from b \x7d \x7d".toList fromStateAST rfl).1 2⟩

/-- C10: in every AST that `Parse` returns without error every body, top-level
or nested at any depth, has a source; the `StateBody` rule fails with an error
at the token after the opening brace when that token starts no `Source`; and
`Parse` fails on the two documents written out. -/
theorem body_begins_with_source (input : List Char) (ast : AST)
    (h : Parse input = (some ast, none)) :
    (∀ d, ast.allBodies (fun b => b.Source ≠ none) d)
      ∧ (∀ (pState : List Token → Res State) (t0 t : Token) (rest : List Token),
          t0.value = "\x7b".toList → t.value ∉ sourceStarts →
          StateBody.parse pState (t0 :: t :: rest)
            = .err (.unexpected t (.rule "Source".toList)) { Pos := t0.pos } 1)
      ∧ (Parse "state a \x7b \x7d".toList).2
          = some (.grammar (.unexpected ⟨.Operator, "\x7d".toList, onLine1 10⟩
              (.rule "Source".toList)))
      ∧ (Parse "state a \x7b exec \"x\" \x7d".toList).2
          = some (.grammar (.unexpected ⟨.Ident, "exec".toList, onLine1 10⟩
              (.rule "Source".toList))) := by
  refine ⟨fun d => Parse_allBodies _ (fun pState ts b n hr => ?_) input ast h d,
    fun pState t0 t rest h0 ht => ?_, rfl, rfl⟩
  · exact (StateBody_post (post_true pState) ts b n hr).2
  · rw [StateBody_parse_no_source pState t0 t rest ht, if_pos h0]

theorem body_begins_with_source_witness :
    Parse "state a \x7b from \x7b scratch \x7d \x7d".toList = (some fromBodyAST, none)
      ∧ fromBodyAST.allBodies (fun b => b.Source ≠ none) 2 :=
  ⟨rfl, (body_begins_with_source
    "state a \x7b from \x7b scratch \x7d \x7d".toList fromBodyAST rfl).1 2⟩

/-! ## The two forms of `copy` -/

theorem CopyState_parse_inline {S : Type} (pState : List Token → Res S) (inl : List Token)
    (st : S) (src dst nxt : Token) (rest : List Token)
    (hst : pState (inl ++ src :: dst :: nxt :: rest) = .ok st inl.length)
    (hs : src.kind = .String) (hd : dst.kind = .String) (hn : nxt.value ≠ "with".toList) :
    CopyState.parse pState (inl ++ src :: dst :: nxt :: rest)
      = .ok { Pos := (peek (inl ++ src :: dst :: nxt :: rest)).pos, Input := some st,
              CopyBase := { Src := src.value, Dst := dst.value } } (inl.length + 2) := by
  have hn' : nxt.value ≠ ['w', 'i', 't', 'h'] := hn
  have hdrop : List.drop (inl.length + 1 + 1) (inl ++ src :: dst :: nxt :: rest)
      = nxt :: rest := by
    rw [Nat.add_assoc, List.drop_append]
    rfl
  simp [CopyState.parse, withOption, strct, andThen, capStruct, capTok, opt, lit, hst, hs, hd,
    hn', hdrop]

theorem Copy_parse_ident (i src dst nxt : Token) (rest : List Token)
    (hi : i.kind = .Ident) (hs : src.kind = .String) (hd : dst.kind = .String)
    (hn : nxt.value ≠ "with".toList) :
    Copy.parse (i :: src :: dst :: nxt :: rest)
      = .ok { Pos := i.pos, Input := i.value,
              CopyBase := { Src := src.value, Dst := dst.value } } 3 := by
  have hn' : nxt.value ≠ ['w', 'i', 't', 'h'] := hn
  simp [Copy.parse, withOption, strct, andThen, capTok, opt, lit, hi, hs, hd, hn', peek]

theorem CopyState_parse_ident (fuel : Nat) (i : Token) (rest : List Token)
    (h3 : i.value ≠ "state".toList) (h4 : i.value ≠ "\x7b".toList) :
    CopyState.parse (State.parse fuel) (i :: rest) = .noMatch
      ∨ ∃ e v, CopyState.parse (State.parse fuel) (i :: rest) = .err e v 0 := by
  have h3' : i.value ≠ ['s', 't', 'a', 't', 'e'] := h3
  have h4' : i.value ≠ ['\x7b'] := h4
  cases fuel <;>
    simp [CopyState.parse, strct, andThen, capStruct, State.parse, opt, capLit, StateBody.parse,
      lit, h3', h4']

/-- C4: an op `copy <input> "src" "dst"` (not followed by `with`) populates
exactly one of `CopyState` and `Copy`.  When `<input>` is an inline state, that
is, the `State` rule accepts the tokens `inl` after `copy` as the state `st`,
the op has `CopyState` set with `Input` holding `st` and `Copy` unset; when
`<input>` is an identifier the op has `Copy` set with `Input` the identifier
and `CopyState` unset. -/
theorem copy_input_forms (fuel : Nat) (c src dst nxt : Token) (rest : List Token)
    (hc : c.value = "copy".toList) (hs : src.kind = .String) (hd : dst.kind = .String)
    (hn : nxt.value ≠ "with".toList) :
    (∀ (inl : List Token) (st : State),
        State.parse fuel (inl ++ src :: dst :: nxt :: rest) = .ok st inl.length →
        Op.parse (State.parse fuel) (c :: (inl ++ src :: dst :: nxt :: rest))
          = .ok { Pos := c.pos,
                  CopyState := some
                    { Pos := (peek (inl ++ src :: dst :: nxt :: rest)).pos, Input := some st,
                      CopyBase := { Src := src.value, Dst := dst.value } },
                  Copy := none } (inl.length + 3))
      ∧ (∀ (i : Token), i.kind = .Ident → i.value ≠ "state".toList →
          i.value ≠ "\x7b".toList →
          Op.parse (State.parse fuel) (c :: i :: src :: dst :: nxt :: rest)
            = .ok { Pos := c.pos,
                    CopyState := none,
                    Copy := some
                      { Pos := i.pos, Input := i.value,
                        CopyBase := { Src := src.value, Dst := dst.value } } } 4) := by
  have hc' : c.value = ['c', 'o', 'p', 'y'] := hc
  constructor
  · intro inl st hst
    have h := CopyState_parse_inline (State.parse fuel) inl st src dst nxt rest hst hs hd hn
    simp [Op.parse, strct, alt, altLoop, andThen, lit, capStruct, hc', h, peek]
    omega
  · intro i hi h3 h4
    have h := Copy_parse_ident i src dst nxt rest hi hs hd hn
    rcases CopyState_parse_ident fuel i (src :: dst :: nxt :: rest) h3 h4 with h0 | ⟨e, v, h0⟩
    · simp [Op.parse, strct, alt, altLoop, andThen, lit, capStruct, hc', h, h0, peek,
        lookahead]
    · simp [Op.parse, strct, alt, altLoop, andThen, lit, capStruct, hc', h, h0, peek,
        lookahead]

theorem copy_input_forms_witness :
    Op.parse (State.parse 3)
        (tokAt .Ident "copy" 0 :: (mkfileStateTokens ++ tokAt .String "/f" 46 ::
          tokAt .String "/f" 51 :: tokAt .Operator "\x7d" 56 :: []))
      = .ok { Pos := onLine1 0,
              CopyState := some
                { Pos := onLine1 5, Input := some mkfileState,
                  CopyBase := { Src := "/f".toList, Dst := "/f".toList } },
              Copy := none } 12
    ∧ Op.parse (State.parse 3)
        [tokAt .Ident "copy" 0, tokAt .Ident "b" 5, tokAt .String "/f" 7,
          tokAt .String "/f" 12, tokAt .Operator "\x7d" 17]
      = .ok { Pos := onLine1 0,
              CopyState := none,
              Copy := some
                { Pos := onLine1 5, Input := "b".toList,
                  CopyBase := { Src := "/f".toList, Dst := "/f".toList } } } 4 :=
  ⟨(copy_input_forms 3 (tokAt .Ident "copy" 0) (tokAt .String "/f" 46) (tokAt .String "/f" 51)
      (tokAt .Operator "\x7d" 56) [] rfl rfl rfl (by decide)).1 mkfileStateTokens mkfileState
      rfl,
   (copy_input_forms 3 (tokAt .Ident "copy" 0) (tokAt .String "/f" 7) (tokAt .String "/f" 12)
      (tokAt .Operator "\x7d" 17) [] rfl rfl rfl (by decide)).2 (tokAt .Ident "b" 5) rfl
      (by decide) (by decide)⟩

/-! ## Positions reached by the tokenizer -/

theorem takeWhile_append_all {α : Type} (f : α → Bool) :
    ∀ (l1 l2 : List α), (∀ x ∈ l1, f x = true) →
      List.takeWhile f (l1 ++ l2) = l1 ++ List.takeWhile f l2 := by
  intro l1
  induction l1 with
  | nil => intro l2 _; rfl
  | cons a l1 ih =>
    intro l2 h
    have ha : f a = true := h a (List.mem_cons_self _ _)
    rw [List.cons_append, List.takeWhile_cons, ha, ih l2 (fun x hx => h x (List.mem_cons_of_mem _ hx))]
    rfl

theorem takeWhile_append_stop {α : Type} (f : α → Bool) :
    ∀ (l1 l2 : List α), (∃ x ∈ l1, f x = false) →
      List.takeWhile f (l1 ++ l2) = List.takeWhile f l1 := by
  intro l1
  induction l1 with
  | nil => intro l2 h; obtain ⟨x, hx, _⟩ := h; cases hx
  | cons a l1 ih =>
    intro l2 h
    rw [List.cons_append, List.takeWhile_cons, List.takeWhile_cons]
    cases ha : f a with
    | false => rfl
    | true =>
      obtain ⟨x, hx, hfx⟩ := h
      rcases List.mem_cons.mp hx with rfl | hx'
      · rw [ha] at hfx; cases hfx
      · simp only [if_true]
        rw [ih l2 ⟨x, hx', hfx⟩]

theorem byteLen_append (a b : List Char) : byteLen (a ++ b) = byteLen a + byteLen b := by
  simp [byteLen, List.map_append, List.sum_append]

theorem afterLastNewline_append_none (a b : List Char) (hb : b.count '\n' = 0) :
    afterLastNewline (a ++ b) = afterLastNewline a ++ b := by
  unfold afterLastNewline
  rw [List.reverse_append, takeWhile_append_all, List.reverse_append, List.reverse_reverse]
  intro x hx
  have hx' : x ∈ b := List.mem_reverse.mp hx
  have hn : '\n' ∉ b := List.count_eq_zero.mp hb
  simp only [bne_iff_ne, ne_eq]
  intro h
  exact hn (h ▸ hx')

theorem afterLastNewline_append_some (a b : List Char) (hb : b.count '\n' ≠ 0) :
    afterLastNewline (a ++ b) = afterLastNewline b := by
  unfold afterLastNewline
  rw [List.reverse_append, takeWhile_append_stop]
  have hn : '\n' ∈ b := by
    by_contra h
    exact hb (List.count_eq_zero.mpr h)
  exact ⟨'\n', List.mem_reverse.mpr hn, by simp⟩

/-- Advancing over a text in two parts. -/
theorem Position.advance_append (p : Position) (a b : List Char) :
    (p.advance a).advance b = p.advance (a ++ b) := by
  unfold Position.advance
  simp only [List.count_append, byteLen_append, List.length_append]
  by_cases hb : b.count '\n' = 0
  · by_cases ha : a.count '\n' = 0
    · simp [ha, hb]
      omega
    · have hab : ¬ (a.count '\n' + b.count '\n' = 0) := by omega
      rw [if_pos hb, if_neg ha, if_neg hab, afterLastNewline_append_none a b hb]
      simp [hb]
      omega
  · have hab : ¬ (a.count '\n' + b.count '\n' = 0) := by omega
    rw [if_neg hb, if_neg hab, afterLastNewline_append_some a b hb]
    simp
    omega

theorem Position.advance_nil (p : Position) : p.advance [] = p := by
  simp [Position.advance, byteLen]

theorem lexKeys_nil : lexKeys [] = some [(.EOF, [])] := rfl

theorem manyLoop_ne_noMatch (p : Node σ) (f : Nat) (s : σ) (ts : List Token) :
    manyLoop p f s ts ≠ .noMatch := by
  cases f with
  | zero => intro h; cases h
  | succ f =>
    unfold manyLoop
    cases p s ts with
    | noMatch => intro h; cases h
    | err e s1 n =>
      simp only
      split <;> intro h <;> cases h
    | ok s1 n =>
      simp only
      cases manyLoop p f s1 (ts.drop n) <;> intro h <;> cases h

theorem opt_lit_result (v : Str) (s : σ) (ts : List Token) :
    opt (lit v) s ts = .ok s 0 ∨ opt (lit v) s ts = .ok s 1 := by
  unfold opt lit
  cases ts with
  | nil => exact Or.inl rfl
  | cons t r =>
    by_cases h : t.value = v
    · right; simp only [if_pos h]
    · left; simp only [if_neg h]

theorem entryItem_appends (pState : List Token → Res State) (ast : AST) (ts : List Token)
    (s1 : AST) (h : (entryItem pState ast ts).state? = some s1) :
    ∃ e, s1.Entries = ast.Entries ++ [e] := by
  unfold entryItem andThen capStruct at h
  cases hp : Entry.parse pState ts with
  | noMatch => rw [hp] at h; cases h
  | err e v n =>
    rw [hp] at h
    simp only [Res.state?, Option.some.injEq] at h
    exact ⟨v, by rw [← h]⟩
  | ok v n =>
    rw [hp] at h
    simp only at h
    rcases opt_lit_result ";".toList ({ ast with Entries := ast.Entries ++ [v] } : AST)
      (ts.drop n) with ho | ho
    · rw [ho] at h
      simp only [Res.state?, Option.some.injEq] at h
      exact ⟨v, by rw [← h]⟩
    · rw [ho] at h
      simp only [Res.state?, Option.some.injEq] at h
      exact ⟨v, by rw [← h]⟩

/-- The repetition of `AST` only appends entries, also when it stops on an
error. -/
theorem manyLoop_entries_prefix (pState : List Token → Res State) :
    ∀ (f : Nat) (ast : AST) (ts : List Token) (s1 : AST),
      (manyLoop (entryItem pState) f ast ts).state? = some s1 →
      ast.Entries <+: s1.Entries := by
  intro f
  induction f with
  | zero =>
    intro ast ts s1 h
    simp only [manyLoop, Res.state?, Option.some.injEq] at h
    rw [h]
  | succ f ih =>
    intro ast ts s1 h
    unfold manyLoop at h
    cases hp : entryItem pState ast ts with
    | noMatch =>
      rw [hp] at h
      simp only [Res.state?, Option.some.injEq] at h
      rw [h]
    | err e s2 n =>
      rw [hp] at h
      simp only at h
      obtain ⟨e0, he0⟩ := entryItem_appends pState ast ts s2 (by rw [hp]; rfl)
      split at h
      · simp only [Res.state?, Option.some.injEq] at h
        rw [← h, he0]
        exact List.prefix_append _ _
      · simp only [Res.state?, Option.some.injEq] at h
        rw [h]
    | ok s2 n =>
      rw [hp] at h
      simp only at h
      obtain ⟨e0, he0⟩ := entryItem_appends pState ast ts s2 (by rw [hp]; rfl)
      have h2 : ast.Entries <+: s2.Entries := by rw [he0]; exact List.prefix_append _ _
      cases hr : manyLoop (entryItem pState) f s2 (ts.drop n) with
      | noMatch => exact absurd hr (manyLoop_ne_noMatch _ _ _ _)
      | ok s3 m =>
        rw [hr] at h
        simp only [Res.state?, Option.some.injEq] at h
        subst h
        exact h2.trans (ih s2 _ s3 (by rw [hr]; rfl))
      | err e s3 m =>
        rw [hr] at h
        simp only [Res.state?, Option.some.injEq] at h
        subst h
        exact h2.trans (ih s2 _ s3 (by rw [hr]; rfl))

theorem manyLoop_step_ok (p : Node σ) (f : Nat) (s s1 : σ) (ts : List Token) (n : Nat)
    (h : p s ts = .ok s1 n) :
    manyLoop p (f + 1) s ts = (manyLoop p f s1 (ts.drop n)).shift n := by
  have hne := manyLoop_ne_noMatch p f s1 (ts.drop n)
  cases hr : manyLoop p f s1 (ts.drop n) with
  | noMatch => exact absurd hr hne
  | ok s2 m => simp only [manyLoop, h, hr, Res.shift]
  | err e s2 m => simp only [manyLoop, h, hr, Res.shift]

theorem Res.shift_shift (a b : Nat) (r : Res σ) : (r.shift b).shift a = r.shift (a + b) := by
  cases r with
  | noMatch => rfl
  | ok s n => simp only [Res.shift, Nat.add_assoc]
  | err e s n => simp only [Res.shift, Nat.add_assoc]

theorem Res.shift_zero (r : Res σ) : r.shift 0 = r := by
  cases r with
  | noMatch => rfl
  | ok s n => simp only [Res.shift, Nat.zero_add]
  | err e s n => simp only [Res.shift, Nat.zero_add]

theorem Res.state?_shift (k : Nat) (r : Res σ) : (r.shift k).state? = r.state? := by
  cases r <;> rfl

theorem joinDecls_head_state (rest : List Token) :
    ∀ (ds : List (List Token × Option Token)) (es : List Entry), ds ≠ [] →
      List.Forall₂ (fun p e => ValidDecl p.1 e) ds es →
      ∃ t r, joinDecls ds ++ rest = t :: r ∧ t.value = "state".toList := by
  intro ds es hne hv
  match ds, es, hv with
  | [], _, _ => exact absurd rfl hne
  | (d, sep) :: ds', e :: es', hv =>
    rw [List.forall₂_cons] at hv
    obtain ⟨t0, r0, h0, hs⟩ := Entry.parse_head hv.1.2
    have h0' : d = t0 :: r0 := h0
    subst h0'
    cases sep with
    | none => exact ⟨t0, r0 ++ (joinDecls ds' ++ rest), by simp [joinDecls], hs⟩
    | some s => exact ⟨t0, r0 ++ s :: (joinDecls ds' ++ rest), by simp [joinDecls], hs⟩

/-- The repetition of `AST` on valid declarations followed by `rest`: the
declarations are consumed, then the repetition goes on at `rest`. -/
theorem manyLoop_decls_then (F : Nat) (rest : List Token) :
    ∀ (ds : List (List Token × Option Token)) (es : List Entry) (ast : AST) (f : Nat),
      List.Forall₂ (fun p e => ValidDecl p.1 e) ds es →
      (∀ p ∈ ds, ∀ t, p.2 = some t → t.value = ";".toList) →
      (joinDecls ds).length ≤ F → ds.length ≤ f → SepClosed ds rest →
      manyLoop (entryItem (State.parse F)) f ast (joinDecls ds ++ rest)
        = (manyLoop (entryItem (State.parse F)) (f - ds.length)
            { ast with Entries := ast.Entries ++ es } rest).shift (joinDecls ds).length := by
  intro ds
  induction ds with
  | nil =>
    intro es ast f hv _ _ _ _
    cases hv
    simp only [joinDecls, List.nil_append, List.length_nil, Nat.sub_zero, List.append_nil,
      Res.shift_zero]
  | cons p ds ih =>
    intro es ast f hv hsep hF hf hc
    obtain ⟨g, rfl⟩ : ∃ g, f = g + 1 := ⟨f - 1, by simp only [List.length_cons] at hf; omega⟩
    obtain ⟨d, sep⟩ := p
    match es, hv with
    | e :: es', hv =>
      rw [List.forall₂_cons] at hv
      obtain ⟨hd0, htl⟩ := hv
      have hd : ValidDecl d e := hd0
      have hsep' : ∀ p ∈ ds, ∀ t, p.2 = some t → t.value = ";".toList :=
        fun p hp => hsep p (List.mem_cons_of_mem _ hp)
      have hlen : ds.length ≤ g := by simpa using hf
      have hc' : SepClosed ds rest := by
        intro d0 hl
        cases ds with
        | nil => cases hl
        | cons q qs => exact hc d0 (by rw [List.getLast?_cons_cons]; exact hl)
      have hsub : g + 1 - ((d, sep) :: ds).length = g - ds.length := by
        simp only [List.length_cons]; omega
      rw [hsub]
      cases sep with
      | none =>
        simp only [joinDecls, List.length_append] at hF ⊢
        have hdF : d.length ≤ F := by omega
        have hne : ∀ t r, joinDecls ds ++ rest = t :: r → t.value ≠ ";".toList := by
          intro t r hx
          cases ds with
          | nil =>
            exact hc d rfl t r (by simpa [joinDecls] using hx)
          | cons q qs =>
            obtain ⟨t1, r1, h1, h2⟩ := joinDecls_head_state rest (q :: qs) es'
              (List.cons_ne_nil _ _) htl
            rw [h1] at hx
            cases hx
            rw [h2]
            decide
        rw [List.append_assoc, manyLoop_step_ok _ g ast _ _ _
          (entryItem_decl hd hdF ast _ hne)]
        simp only [List.drop_left']
        rw [ih es' _ g htl hsep' (by omega) hlen hc', Res.shift_shift]
        simp only [List.append_assoc, List.singleton_append]
      | some s =>
        have hs : s.value = ";".toList := hsep (d, some s) (List.mem_cons_self _ _) s rfl
        simp only [joinDecls, List.length_append, List.length_cons] at hF ⊢
        have hdF : d.length ≤ F := by omega
        rw [List.append_assoc, List.cons_append, manyLoop_step_ok _ g ast _ _ _
          (entryItem_decl_sep hd hdF ast s _ hs)]
        have hdrop : List.drop (d.length + 1) (d ++ s :: (joinDecls ds ++ rest))
            = joinDecls ds ++ rest := by
          rw [List.drop_append]; rfl
        rw [hdrop, ih es' _ g htl hsep' (by omega) hlen hc', Res.shift_shift]
        simp only [List.append_assoc, List.singleton_append]
        congr 1
        omega

/-- After valid declarations the entries built so far are kept, whatever
follows and however the repetition ends. -/
theorem manyLoop_decls_prefix (F : Nat) (rest : List Token) :
    ∀ (ds : List (List Token × Option Token)) (es : List Entry) (ast : AST) (f : Nat)
      (s1 : AST),
      List.Forall₂ (fun p e => ValidDecl p.1 e) ds es →
      (∀ p ∈ ds, ∀ t, p.2 = some t → t.value = ";".toList) →
      (joinDecls ds).length ≤ F → ds.length ≤ f →
      (manyLoop (entryItem (State.parse F)) f ast (joinDecls ds ++ rest)).state? = some s1 →
      (ast.Entries ++ es) <+: s1.Entries := by
  intro ds
  induction ds with
  | nil =>
    intro es ast f s1 hv _ _ _ h
    cases hv
    rw [List.append_nil]
    exact manyLoop_entries_prefix _ f ast _ s1 h
  | cons p ds ih =>
    intro es ast f s1 hv hsep hF hf h
    obtain ⟨g, rfl⟩ : ∃ g, f = g + 1 := ⟨f - 1, by simp only [List.length_cons] at hf; omega⟩
    obtain ⟨d, sep⟩ := p
    match es, hv with
    | e :: es', hv =>
      rw [List.forall₂_cons] at hv
      obtain ⟨hd0, htl⟩ := hv
      have hd : ValidDecl d e := hd0
      have hsep' : ∀ p ∈ ds, ∀ t, p.2 = some t → t.value = ";".toList :=
        fun p hp => hsep p (List.mem_cons_of_mem _ hp)
      have hlen : ds.length ≤ g := by simpa using hf
      have hfin : ∀ s2 : AST, (s2.Entries ++ es') <+: s1.Entries →
          s2.Entries = ast.Entries ++ [e] → (ast.Entries ++ e :: es') <+: s1.Entries := by
        intro s2 h1 h2
        rw [h2] at h1
        simpa using h1
      cases sep with
      | some s =>
        have hs : s.value = ";".toList := hsep (d, some s) (List.mem_cons_self _ _) s rfl
        simp only [joinDecls, List.length_append, List.length_cons] at hF h
        have hdF : d.length ≤ F := by omega
        rw [List.append_assoc, List.cons_append, manyLoop_step_ok _ g ast _ _ _
          (entryItem_decl_sep hd hdF ast s _ hs), Res.state?_shift] at h
        have hdrop : List.drop (d.length + 1) (d ++ s :: (joinDecls ds ++ rest))
            = joinDecls ds ++ rest := by
          rw [List.drop_append]; rfl
        rw [hdrop] at h
        exact hfin _ (ih es' _ g s1 htl hsep' (by omega) hlen h) rfl
      | none =>
        simp only [joinDecls, List.length_append] at hF h
        have hdF : d.length ≤ F := by omega
        by_cases hne : ∀ t r, joinDecls ds ++ rest = t :: r → t.value ≠ ";".toList
        · rw [List.append_assoc, manyLoop_step_ok _ g ast _ _ _
            (entryItem_decl hd hdF ast _ hne), Res.state?_shift] at h
          simp only [List.drop_left'] at h
          exact hfin _ (ih es' _ g s1 htl hsep' (by omega) hlen h) rfl
        · simp only [not_forall, not_not] at hne
          obtain ⟨t, r, hx, ht⟩ := hne
          have hds : ds = [] := by
            by_contra hds
            obtain ⟨t1, r1, h1, h2⟩ := joinDecls_head_state rest ds es' hds htl
            rw [h1] at hx
            cases hx
            rw [h2] at ht
            revert ht
            decide
          subst hds
          cases htl
          rw [List.append_assoc, hx, manyLoop_step_ok _ g ast _ _ _
            (entryItem_decl_sep hd hdF ast t r ht), Res.state?_shift] at h
          exact manyLoop_entries_prefix _ g _ _ s1 h

theorem parseTokens_decls_prefix (ds : List (List Token × Option Token)) (es : List Entry)
    (rest : List Token) (hvalid : List.Forall₂ (fun p e => ValidDecl p.1 e) ds es)
    (hsep : ∀ p ∈ ds, ∀ t, p.2 = some t → t.value = ";".toList) :
    ∃ ast, (parseTokens (joinDecls ds ++ rest)).1 = some ast ∧ es <+: ast.Entries := by
  have hA : AST.parse (State.parse (joinDecls ds ++ rest).length) (joinDecls ds ++ rest)
      = manyLoop (entryItem (State.parse (joinDecls ds ++ rest).length))
          (joinDecls ds ++ rest).length { Pos := (peek (joinDecls ds ++ rest)).pos }
          (joinDecls ds ++ rest) := rfl
  have hge := joinDecls_length_ge ds es hvalid
  have hpre := fun s1 => manyLoop_decls_prefix (joinDecls ds ++ rest).length rest ds es
    { Pos := (peek (joinDecls ds ++ rest)).pos } (joinDecls ds ++ rest).length s1 hvalid hsep
    (by simp) (by simp only [List.length_append]; omega)
  unfold parseTokens
  rw [hA]
  cases hr : manyLoop (entryItem (State.parse (joinDecls ds ++ rest).length))
      (joinDecls ds ++ rest).length { Pos := (peek (joinDecls ds ++ rest)).pos }
      (joinDecls ds ++ rest) with
  | noMatch => exact absurd hr (manyLoop_ne_noMatch _ _ _ _)
  | err e a n =>
    have := hpre a (by rw [hr]; rfl)
    exact ⟨a, rfl, by simpa using this⟩
  | ok a n =>
    have := hpre a (by rw [hr]; rfl)
    refine ⟨a, ?_, by simpa using this⟩
    simp only
    split <;> rfl

/-- C11: when the tokens of the input are k valid top-level declarations (each
optionally followed by `;`) followed by anything, `Parse` returns an AST, also
when it fails with a syntax error further on, and the entries of that AST
begin with the k entries of these declarations, in source order. -/
theorem syntax_error_keeps_entries (input : List Char)
    (ds : List (List Token × Option Token)) (es : List Entry) (rest : List Token)
    (hlex : lex input = .ok (joinDecls ds ++ rest))
    (hvalid : List.Forall₂ (fun p e => ValidDecl p.1 e) ds es)
    (hsep : ∀ p ∈ ds, ∀ t, p.2 = some t → t.value = ";".toList) :
    ∃ ast, (Parse input).1 = some ast ∧ es <+: ast.Entries ∧ es.length = ds.length := by
  obtain ⟨ast, h1, h2⟩ := parseTokens_decls_prefix ds es rest hvalid hsep
  refine ⟨ast, ?_, h2, (List.Forall₂.length_eq hvalid).symm⟩
  unfold Parse
  rw [hlex]
  exact h1

theorem syntax_error_keeps_entries_witness :
    (Parse "state a \x7b scratch \x7d; state b \x7b exec \x7d".toList).2
        = some (.grammar (.unexpected (tokAt .Ident "exec" 31) (.rule "Source".toList)))
      ∧ ∃ ast, (Parse "state a \x7b scratch \x7d; state b \x7b exec \x7d".toList).1 = some ast
          ∧ [scratchEntry "a" 0] <+: ast.Entries ∧ [scratchEntry "a" 0].length = 1 :=
  ⟨rfl, syntax_error_keeps_entries "state a \x7b scratch \x7d; state b \x7b exec \x7d".toList
    [(scratchDecl "a" 0, some (tokAt .Operator ";" 19))] [scratchEntry "a" 0]
    [tokAt .Keyword "state" 21, tokAt .Ident "b" 27, tokAt .Operator "\x7b" 29,
      tokAt .Ident "exec" 31, tokAt .Operator "\x7d" 36, tokAt .EOF "" 37]
    rfl (List.Forall₂.cons scratchDecl_valid_a List.Forall₂.nil) (by decide)⟩

/-! ## Lexical errors -/

theorem parseTokens_not_lexical (ts : List Token) (e : LexError) :
    (parseTokens ts).2 ≠ some (.lexical e) := by
  unfold parseTokens
  cases AST.parse (State.parse ts.length) ts with
  | noMatch => intro h; cases h
  | err e1 a n => intro h; cases h
  | ok a n =>
    simp only
    split <;> intro h <;> cases h

/-- A lexical error after a complete declaration: no AST is returned, although
the text before the error is a valid document of one entry. -/
theorem lexical_error_drops_entries :
    Parse "state a \x7b scratch \x7d \"".toList = (none, some (.lexical ⟨⟨20, 1, 21⟩⟩))
      ∧ Parse "state a \x7b scratch \x7d ".toList
        = (some { Pos := ⟨0, 1, 1⟩, Entries := [scratchEntry "a" 0] }, none) :=
  ⟨rfl, rfl⟩

/-- C12, amended.  `Parse` fails with a lexical error exactly when the
tokenizer fails, wherever in the input that is, and then it returns no AST:
the declarations completed before the error are not handed back. -/
theorem lexical_error_no_ast (input : List Char) (e : LexError)
    (h : (Parse input).2 = some (.lexical e)) :
    lex input = .error e ∧ (Parse input).1 = none := by
  unfold Parse at h ⊢
  cases hl : lex input with
  | error e1 =>
    rw [hl] at h
    simp only [Option.some.injEq, Error.lexical.injEq] at h
    rw [h]
    exact ⟨rfl, rfl⟩
  | ok ts =>
    rw [hl] at h
    exact absurd h (parseTokens_not_lexical ts e)

theorem lexical_error_no_ast_witness :
    lex "state a \x7b scratch \x7d \"".toList = .error ⟨⟨20, 1, 21⟩⟩
      ∧ (Parse "state a \x7b scratch \x7d \"".toList).1 = none :=
  lexical_error_no_ast "state a \x7b scratch \x7d \"".toList ⟨⟨20, 1, 21⟩⟩ rfl

/-! ## Parse options -/

theorem applyOptions_builtin {W E : Type} :
    ∀ (opts : List (ParseOption W E)) (info : ParseInfo W), (∀ o ∈ opts, Builtin o) →
      ∃ info1, applyOptions info opts = .ok info1 := by
  intro opts
  induction opts with
  | nil => intro info _; exact ⟨info, rfl⟩
  | cons o opts ih =>
    intro info h
    have ho := h o (List.mem_cons_self _ _)
    have ht : ∀ o ∈ opts, Builtin o := fun x hx => h x (List.mem_cons_of_mem _ hx)
    rcases ho with ⟨w, rfl⟩ | ⟨w, rfl⟩ | ⟨c, rfl⟩
    · exact ih _ ht
    · exact ih _ ht
    · exact ih _ ht

theorem ParseWithOptions_of_info {W E D : Type} (R : Renderers D) (stdout stderr : W)
    (input : List Char) (opts : List (ParseOption W E)) (info : ParseInfo W)
    (h : applyOptions { Stdout := stdout, Stderr := stderr, Color := false } opts = .ok info) :
    (ParseWithOptions R stdout stderr input opts).1 = (Parse input).1
      ∧ (ParseWithOptions R stdout stderr input opts).2.isSome = (Parse input).2.isSome
      ∧ (∀ e, (Parse input).2 = some (.lexical e) →
          (ParseWithOptions R stdout stderr input opts).2
            = some (.diagnostic (R.lexical info.Color input e)))
      ∧ (∀ e, (Parse input).2 = some (.grammar e) →
          (ParseWithOptions R stdout stderr input opts).2
            = some (.diagnostic (R.grammar info.Color input e))) := by
  unfold ParseWithOptions Parse
  rw [h]
  simp only
  cases lex input with
  | error e =>
    refine ⟨rfl, rfl, ?_, ?_⟩
    · intro e1 h1; cases h1; rfl
    · intro e1 h1; cases h1
  | ok ts =>
    simp only
    rcases hp : parseTokens ts with ⟨ast, _ | e⟩
    · refine ⟨rfl, rfl, ?_, ?_⟩ <;> intro e1 h1 <;> cases h1
    · cases e with
      | lexical e0 =>
        refine ⟨rfl, rfl, ?_, ?_⟩
        · intro e1 h1; cases h1; rfl
        · intro e1 h1; cases h1
      | grammar e0 =>
        refine ⟨rfl, rfl, ?_, ?_⟩
        · intro e1 h1; cases h1
        · intro e1 h1; cases h1; rfl

/-- C13: for every input and every two lists of options built from
`WithStdout`, `WithStderr` and `WithColor`, `Parse` returns the same AST and
fails or succeeds alike; both are those of the parse without options; and with
no options the diagnostics are rendered with colour off.  This holds for every
pair of rendering functions. -/
theorem options_do_not_influence_parsing {W E D : Type} (R : Renderers D)
    (stdout stderr : W) (input : List Char) (opts opts' : List (ParseOption W E))
    (h : ∀ o ∈ opts, Builtin o) (h' : ∀ o ∈ opts', Builtin o) :
    (ParseWithOptions R stdout stderr input opts).1
        = (ParseWithOptions R stdout stderr input opts').1
      ∧ (ParseWithOptions R stdout stderr input opts).2.isSome
        = (ParseWithOptions R stdout stderr input opts').2.isSome
      ∧ (ParseWithOptions R stdout stderr input opts).1 = (Parse input).1
      ∧ (ParseWithOptions R stdout stderr input opts).2.isSome = (Parse input).2.isSome
      ∧ (∀ e, (Parse input).2 = some (.lexical e) →
          (ParseWithOptions R stdout stderr input ([] : List (ParseOption W E))).2
            = some (.diagnostic (R.lexical false input e)))
      ∧ (∀ e, (Parse input).2 = some (.grammar e) →
          (ParseWithOptions R stdout stderr input ([] : List (ParseOption W E))).2
            = some (.diagnostic (R.grammar false input e))) := by
  obtain ⟨i1, h1⟩ := applyOptions_builtin opts
    { Stdout := stdout, Stderr := stderr, Color := false } h
  obtain ⟨i2, h2⟩ := applyOptions_builtin opts'
    { Stdout := stdout, Stderr := stderr, Color := false } h'
  have a := ParseWithOptions_of_info R stdout stderr input opts i1 h1
  have b := ParseWithOptions_of_info R stdout stderr input opts' i2 h2
  have c := ParseWithOptions_of_info R stdout stderr input ([] : List (ParseOption W E))
    { Stdout := stdout, Stderr := stderr, Color := false } rfl
  exact ⟨a.1.trans b.1.symm, a.2.1.trans b.2.1.symm, a.1, a.2.1, c.2.2.1, c.2.2.2⟩

theorem options_do_not_influence_parsing_witness :
    (ParseWithOptions colourOnly 1 2 "state a \x7b exec \x7d".toList
          [(WithColor true : ParseOption Nat Unit), WithStdout 7]).1
        = (ParseWithOptions colourOnly 1 2 "state a \x7b exec \x7d".toList
          [(WithStderr 3 : ParseOption Nat Unit)]).1
      ∧ (ParseWithOptions colourOnly 1 2 "state a \x7b exec \x7d".toList
          [(WithColor true : ParseOption Nat Unit), WithStdout 7]).2.isSome
        = (ParseWithOptions colourOnly 1 2 "state a \x7b exec \x7d".toList
          [(WithStderr 3 : ParseOption Nat Unit)]).2.isSome
      ∧ (ParseWithOptions colourOnly 1 2 "state a \x7b exec \x7d".toList
          [(WithColor true : ParseOption Nat Unit), WithStdout 7]).1
        = (Parse "state a \x7b exec \x7d".toList).1
      ∧ (ParseWithOptions colourOnly 1 2 "state a \x7b exec \x7d".toList
          [(WithColor true : ParseOption Nat Unit), WithStdout 7]).2.isSome
        = (Parse "state a \x7b exec \x7d".toList).2.isSome
      ∧ (∀ e, (Parse "state a \x7b exec \x7d".toList).2 = some (.lexical e) →
          (ParseWithOptions colourOnly 1 2 "state a \x7b exec \x7d".toList
            ([] : List (ParseOption Nat Unit))).2
            = some (.diagnostic (colourOnly.lexical false "state a \x7b exec \x7d".toList e)))
      ∧ (∀ e, (Parse "state a \x7b exec \x7d".toList).2 = some (.grammar e) →
          (ParseWithOptions colourOnly 1 2 "state a \x7b exec \x7d".toList
            ([] : List (ParseOption Nat Unit))).2
            = some (.diagnostic (colourOnly.grammar false "state a \x7b exec \x7d".toList e))) :=
  options_do_not_influence_parsing colourOnly 1 2 "state a \x7b exec \x7d".toList
    [WithColor true, WithStdout 7] [WithStderr 3]
    (by
      intro o ho
      simp only [List.mem_cons, List.mem_singleton, List.not_mem_nil, or_false] at ho
      rcases ho with rfl | rfl
      · exact Or.inr (Or.inr ⟨true, rfl⟩)
      · exact Or.inl ⟨7, rfl⟩)
    (by
      intro o ho
      simp only [List.mem_singleton] at ho
      subst ho
      exact Or.inr (Or.inl ⟨3, rfl⟩))

/-! ## The end of a body -/

theorem andThen_err_right {σ : Type} {p q : Node σ} {e : Expect} {s s1 s2 : σ}
    {ts : List Token} {n m : Nat} {err : ParseError} (hp : p s ts = .ok s1 n)
    (hq : q s1 (ts.drop n) = .err err s2 m) :
    andThen p e q s ts = .err err s2 (n + m) := by
  unfold andThen
  rw [hp]
  simp only
  rw [hq]

theorem SepClosed.tail {p : List Token × Option Token} {ds : List (List Token × Option Token)}
    {rest : List Token} (h : SepClosed (p :: ds) rest) : SepClosed ds rest := by
  intro d0 hl
  cases ds with
  | nil => cases hl
  | cons q qs => exact h d0 (by rw [List.getLast?_cons_cons]; exact hl)

theorem entryItem_other {F : Nat} (ast : AST) (t : Token) (rest : List Token)
    (ht : t.value ≠ "state".toList) :
    entryItem (State.parse F) ast (t :: rest) = .noMatch := by
  simp only [entryItem, andThen, capStruct, Entry.parse, strct, lit, if_neg ht]

theorem manyLoop_other {F : Nat} (f : Nat) (ast : AST) (t : Token) (rest : List Token)
    (ht : t.value ≠ "state".toList) :
    manyLoop (entryItem (State.parse F)) f ast (t :: rest) = .ok ast 0 := by
  cases f with
  | zero => rfl
  | succ f => simp only [manyLoop, entryItem_other ast t rest ht]

/-- C16: when the tokens of the input are valid top-level declarations (none,
one or more, each optionally followed by `;`) followed by a further token `t`
that is not the end of input and does not begin a declaration, `Parse` returns
an error: the unexpected token `t` where the end of input is expected.  (A `;`
right after a declaration that has no separator is the separator of that
declaration, not a further token.)  The AST handed back holds the entries of
the declarations. -/
theorem trailing_token_is_error (input : List Char)
    (ds : List (List Token × Option Token)) (es : List Entry) (t : Token) (rest : List Token)
    (hlex : lex input = .ok (joinDecls ds ++ t :: rest))
    (hvalid : List.Forall₂ (fun p e => ValidDecl p.1 e) ds es)
    (hsep : ∀ p ∈ ds, ∀ s, p.2 = some s → s.value = ";".toList)
    (hc : SepClosed ds (t :: rest))
    (ht : t.value ≠ "state".toList) (hk : t.kind ≠ .EOF) :
    Parse input
      = (some { Pos := (peek (joinDecls ds ++ t :: rest)).pos, Entries := es },
         some (.grammar (.unexpected t .endOfInput))) := by
  have hA : AST.parse (State.parse (joinDecls ds ++ t :: rest).length)
        (joinDecls ds ++ t :: rest)
      = manyLoop (entryItem (State.parse (joinDecls ds ++ t :: rest).length))
          (joinDecls ds ++ t :: rest).length { Pos := (peek (joinDecls ds ++ t :: rest)).pos }
          (joinDecls ds ++ t :: rest) := rfl
  have hge := joinDecls_length_ge ds es hvalid
  have hthen := manyLoop_decls_then (joinDecls ds ++ t :: rest).length (t :: rest) ds es
    { Pos := (peek (joinDecls ds ++ t :: rest)).pos } (joinDecls ds ++ t :: rest).length
    hvalid hsep (by simp) (by simp only [List.length_append]; omega) hc
  have hP : parseTokens (joinDecls ds ++ t :: rest)
      = (some { Pos := (peek (joinDecls ds ++ t :: rest)).pos, Entries := es },
         some (.grammar (.unexpected t .endOfInput))) := by
    unfold parseTokens
    rw [hA, hthen, manyLoop_other _ _ t rest ht]
    simp only [Res.shift, Nat.add_zero, List.drop_left', peek, List.headD_cons, if_neg hk,
      List.nil_append]
  unfold Parse
  rw [hlex]
  exact hP

theorem trailing_token_is_error_witness :
    Parse "state a \x7b scratch \x7d;;".toList
      = (some { Pos := onLine1 0, Entries := [scratchEntry "a" 0] },
         some (.grammar (.unexpected (tokAt .Operator ";" 20) .endOfInput))) :=
  trailing_token_is_error "state a \x7b scratch \x7d;;".toList
    [(scratchDecl "a" 0, some (tokAt .Operator ";" 19))] [scratchEntry "a" 0]
    (tokAt .Operator ";" 20) [tokAt .EOF "" 21] rfl
    (List.Forall₂.cons scratchDecl_valid_a List.Forall₂.nil) (by decide)
    (by
      intro d hd
      cases hd)
    (by decide) (by decide)

/-! ## File modes -/

theorem afterLastNewline_of_none (s : List Char) (h : s.count '\n' = 0) :
    afterLastNewline s = s := by
  have := afterLastNewline_append_none [] s h
  simpa [afterLastNewline] using this

theorem start_advance (pre : List Char) : Position.start.advance pre = sourcePosition pre := by
  unfold Position.advance sourcePosition Position.start
  by_cases h : pre.count '\n' = 0
  · simp only [h, if_true, afterLastNewline_of_none pre h]
    simp [Nat.add_comm]
  · simp only [h, if_false]
    simp [Nat.add_comm]

/-- Every token of a tokenizer run starts where its position says. -/
theorem lexFrom_token_pos : ∀ (f : Nat) (pos : Position) (s : List Char) (toks : List Token),
    lexFrom f pos s = .ok toks →
    ∀ t ∈ toks, ∃ pre suf, s = pre ++ suf ∧ t.pos = pos.advance pre ∧ TokenAt t suf := by
  intro f
  induction f with
  | zero =>
    intro pos s toks h t ht
    cases s with
    | nil =>
      simp only [lexFrom, Except.ok.injEq] at h
      subst h
      rw [List.mem_singleton] at ht
      subst ht
      exact ⟨[], [], rfl, (Position.advance_nil pos).symm, Or.inl ⟨rfl, rfl, rfl⟩⟩
    | cons c s => simp [lexFrom] at h
  | succ f ih =>
    intro pos s toks h t ht
    cases s with
    | nil =>
      simp only [lexFrom, Except.ok.injEq] at h
      subst h
      rw [List.mem_singleton] at ht
      subst ht
      exact ⟨[], [], rfl, (Position.advance_nil pos).symm, Or.inl ⟨rfl, rfl, rfl⟩⟩
    | cons c s =>
      rw [lexFrom_succ] at h
      unfold lexStep at h
      have tailCase : ∀ n toks1,
          lexFrom f (pos.advance ((c :: s).take n)) ((c :: s).drop n) = .ok toks1 → t ∈ toks1 →
          ∃ pre suf, c :: s = pre ++ suf ∧ t.pos = pos.advance pre ∧ TokenAt t suf := by
        intro n toks1 h1 ht1
        obtain ⟨pre, suf, hs, hp, ha⟩ := ih _ _ _ h1 t ht1
        refine ⟨(c :: s).take n ++ pre, suf, ?_, ?_, ha⟩
        · rw [List.append_assoc, ← hs, List.take_append_drop]
        · rw [hp, Position.advance_append]
      cases hm : matchRules (c :: s) with
      | none => rw [hm] at h; cases h
      | some m =>
        rw [hm] at h
        cases m with
        | skip n => exact tailCase n toks h ht
        | emit k n =>
          simp only at h
          cases hv : (if k = .String then unquote ((c :: s).take n) else some ((c :: s).take n)) with
          | none => rw [hv] at h; cases h
          | some v =>
            rw [hv] at h
            simp only at h
            cases h1 : lexFrom f (pos.advance ((c :: s).take n)) ((c :: s).drop n) with
            | error e => rw [h1] at h; cases h
            | ok toks1 =>
              rw [h1] at h
              simp only [Except.ok.injEq] at h
              subst h
              rcases List.mem_cons.mp ht with h0 | h0
              · subst h0
                exact ⟨[], c :: s, rfl, (Position.advance_nil pos).symm, Or.inr ⟨n, hm, hv⟩⟩
              · exact tailCase n toks1 h1 h0

/-- Every token of the stream of an input carries the position of its first
character in the input. -/
theorem lex_token_pos (input : List Char) (toks : List Token) (h : lex input = .ok toks) :
    ∀ t ∈ toks, ∃ pre suf, input = pre ++ suf ∧ t.pos = sourcePosition pre ∧ TokenAt t suf := by
  intro t ht
  obtain ⟨pre, suf, hs, hp, ha⟩ := lexFrom_token_pos _ _ _ _ h t ht
  exact ⟨pre, suf, hs, by rw [hp, start_advance], ha⟩

/-! ## The position a struct node records -/

theorem keeps_lit (pos : σ → Position) (v : Str) : Keeps pos (lit v) := by
  intro s ts s1 n h
  unfold lit at h
  split at h
  · cases h
  · split at h <;> cases h
    rfl

theorem keeps_capLit {pos : σ → Position} (v : Str) (set : σ → Str → σ)
    (hset : ∀ s x, pos (set s x) = pos s) : Keeps pos (capLit v set) := by
  intro s ts s1 n h
  unfold capLit at h
  split at h
  · cases h
  · split at h <;> cases h
    exact hset _ _

theorem keeps_capTok {pos : σ → Position} (k : TokenKind) (set : σ → Str → σ)
    (hset : ∀ s x, pos (set s x) = pos s) : Keeps pos (capTok k set) := by
  intro s ts s1 n h
  unfold capTok at h
  split at h
  · cases h
  · split at h <;> cases h
    exact hset _ _

theorem keeps_capNum {pos : σ → Position} (k : TokenKind) (conv : Str → Option β)
    (set : σ → β → σ) (hset : ∀ s x, pos (set s x) = pos s) : Keeps pos (capNum k conv set) := by
  intro s ts s1 n h
  unfold capNum at h
  split at h
  · cases h
  · split at h
    · split at h <;> cases h
      exact hset _ _
    · cases h

theorem keeps_capStruct {pos : σ → Position} (child : List Token → Res τ) (set : σ → τ → σ)
    (hset : ∀ s x, pos (set s x) = pos s) : Keeps pos (capStruct child set) := by
  intro s ts s1 n h
  unfold capStruct at h
  cases hc : child ts with
  | noMatch => rw [hc] at h; cases h
  | err e v m => rw [hc] at h; cases h
  | ok v m => rw [hc] at h; cases h; exact hset _ _

theorem keeps_andThen {pos : σ → Position} {p q : Node σ} (e : Expect)
    (hp : Keeps pos p) (hq : Keeps pos q) : Keeps pos (andThen p e q) := by
  intro s ts s2 n h
  unfold andThen at h
  cases h1 : p s ts with
  | noMatch => rw [h1] at h; cases h
  | err e1 s1 m => rw [h1] at h; cases h
  | ok s1 m =>
    rw [h1] at h
    simp only at h
    cases h2 : q s1 (List.drop m ts) with
    | noMatch => rw [h2] at h; cases h
    | err e1 s3 k => rw [h2] at h; cases h
    | ok s3 k =>
      rw [h2] at h
      cases h
      rw [hq _ _ _ _ h2, hp _ _ _ _ h1]

theorem keeps_opt {pos : σ → Position} {p : Node σ} (hp : Keeps pos p) : Keeps pos (opt p) := by
  intro s ts s1 n h
  unfold opt at h
  cases h1 : p s ts with
  | noMatch => rw [h1] at h; cases h; rfl
  | ok s2 m => rw [h1] at h; cases h; exact hp _ _ _ _ h1
  | err e s2 m =>
    rw [h1] at h
    simp only at h
    split at h <;> cases h
    rfl

theorem manyLoop_keeps {pos : σ → Position} {p : Node σ} (hp : Keeps pos p) :
    ∀ (f : Nat) (s : σ) (ts : List Token) (s1 : σ) (n : Nat),
      manyLoop p f s ts = .ok s1 n → pos s1 = pos s := by
  intro f
  induction f with
  | zero => intro s ts s1 n h; cases h; rfl
  | succ f ih =>
    intro s ts s1 n h
    unfold manyLoop at h
    cases h1 : p s ts with
    | noMatch => rw [h1] at h; cases h; rfl
    | err e s2 m =>
      rw [h1] at h
      simp only at h
      split at h <;> cases h
      rfl
    | ok s2 m =>
      rw [h1] at h
      simp only at h
      have h0 := hp _ _ _ _ h1
      cases h2 : manyLoop p f s2 (List.drop m ts) with
      | noMatch => rw [h2] at h; cases h; exact h0
      | err e s3 k => rw [h2] at h; cases h
      | ok s3 k => rw [h2] at h; cases h; rw [ih _ _ _ _ h2, h0]

theorem keeps_many {pos : σ → Position} {p : Node σ} (hp : Keeps pos p) :
    Keeps pos (many p) :=
  fun s ts s1 n h => manyLoop_keeps hp _ s ts s1 n h

theorem altLoop_keeps {pos : σ → Position} (s : σ) (ts : List Token) :
    ∀ (ps : List (Node σ)) (best : Option (ParseError × Nat)),
      AllNodes (Keeps pos) ps →
      ∀ s1 n, altLoop s ts ps best = .ok s1 n → pos s1 = pos s := by
  intro ps
  induction ps with
  | nil => intro best _ s1 n h; cases best <;> cases h
  | cons p ps ih =>
    intro best hall s1 n h
    obtain ⟨hp, hps⟩ := hall
    unfold altLoop at h
    cases h1 : p s ts with
    | noMatch => rw [h1] at h; exact ih best hps s1 n h
    | ok s2 m => rw [h1] at h; cases h; exact hp _ _ _ _ h1
    | err e s2 m =>
      rw [h1] at h
      simp only at h
      split at h
      · cases h
      · exact ih _ hps s1 n h

theorem keeps_alt {pos : σ → Position} {ps : List (Node σ)} (h : AllNodes (Keeps pos) ps) :
    Keeps pos (alt ps) :=
  fun s ts s1 n hr => altLoop_keeps s ts ps none h s1 n hr

theorem stampsNext_strct {pos : τ → Position} {expr : Node τ} (zero : Position → τ)
    (hz : ∀ p, pos (zero p) = p) (h : Keeps pos expr) : StampsNext pos (strct zero expr) := by
  intro ts v n hr
  rw [h _ ts v n hr, hz]

theorem starts_lit (v : Str) : Starts (lit v : Node σ) := by
  intro s ts s1 n h
  unfold lit at h
  split at h
  · cases h
  · split at h <;> cases h
    exact ⟨List.cons_ne_nil _ _, Nat.le_refl 1⟩

theorem starts_capLit (v : Str) (set : σ → Str → σ) : Starts (capLit v set) := by
  intro s ts s1 n h
  unfold capLit at h
  split at h
  · cases h
  · split at h <;> cases h
    exact ⟨List.cons_ne_nil _ _, Nat.le_refl 1⟩

theorem starts_capTok (k : TokenKind) (set : σ → Str → σ) : Starts (capTok k set) := by
  intro s ts s1 n h
  unfold capTok at h
  split at h
  · cases h
  · split at h <;> cases h
    exact ⟨List.cons_ne_nil _ _, Nat.le_refl 1⟩

theorem starts_capNum (k : TokenKind) (conv : Str → Option β) (set : σ → β → σ) :
    Starts (capNum k conv set) := by
  intro s ts s1 n h
  unfold capNum at h
  split at h
  · cases h
  · split at h
    · split at h <;> cases h
      exact ⟨List.cons_ne_nil _ _, Nat.le_refl 1⟩
    · cases h

theorem starts_capStruct {child : List Token → Res τ} (set : σ → τ → σ) (hc : StartsP child) :
    Starts (capStruct child set) := by
  intro s ts s1 n h
  unfold capStruct at h
  cases h1 : child ts with
  | noMatch => rw [h1] at h; cases h
  | err e v m => rw [h1] at h; cases h
  | ok v m => rw [h1] at h; cases h; exact hc _ _ _ h1

theorem starts_andThen {p : Node σ} (e : Expect) (q : Node σ) (hp : Starts p) :
    Starts (andThen p e q) := by
  intro s ts s2 n h
  unfold andThen at h
  cases h1 : p s ts with
  | noMatch => rw [h1] at h; cases h
  | err e1 s1 m => rw [h1] at h; cases h
  | ok s1 m =>
    rw [h1] at h
    simp only at h
    have h0 := hp _ _ _ _ h1
    cases h2 : q s1 (List.drop m ts) with
    | noMatch => rw [h2] at h; cases h
    | err e1 s3 k => rw [h2] at h; cases h
    | ok s3 k =>
      rw [h2] at h
      cases h
      exact ⟨h0.1, Nat.le_trans h0.2 (Nat.le_add_right _ _)⟩

theorem starts_andThen_right (p : Node σ) (e : Expect) {q : Node σ} (hq : Starts q) :
    Starts (andThen p e q) := by
  intro s ts s2 n h
  unfold andThen at h
  cases h1 : p s ts with
  | noMatch => rw [h1] at h; cases h
  | err e1 s1 m => rw [h1] at h; cases h
  | ok s1 m =>
    rw [h1] at h
    simp only at h
    cases h2 : q s1 (List.drop m ts) with
    | noMatch => rw [h2] at h; cases h
    | err e1 s3 k => rw [h2] at h; cases h
    | ok s3 k =>
      rw [h2] at h
      cases h
      have h0 := hq _ _ _ _ h2
      refine ⟨?_, Nat.le_trans h0.2 (Nat.le_add_left _ _)⟩
      intro hts
      apply h0.1
      rw [hts, List.drop_nil]

theorem altLoop_starts (s : σ) (ts : List Token) :
    ∀ (ps : List (Node σ)) (best : Option (ParseError × Nat)),
      AllNodes Starts ps →
      ∀ s1 n, altLoop s ts ps best = .ok s1 n → ts ≠ [] ∧ 1 ≤ n := by
  intro ps
  induction ps with
  | nil => intro best _ s1 n h; cases best <;> cases h
  | cons p ps ih =>
    intro best hall s1 n h
    obtain ⟨hp, hps⟩ := hall
    unfold altLoop at h
    cases h1 : p s ts with
    | noMatch => rw [h1] at h; exact ih best hps s1 n h
    | ok s2 m => rw [h1] at h; cases h; exact hp _ _ _ _ h1
    | err e s2 m =>
      rw [h1] at h
      simp only at h
      split at h
      · cases h
      · exact ih _ hps s1 n h

theorem starts_alt {ps : List (Node σ)} (h : AllNodes Starts ps) : Starts (alt ps) :=
  fun s ts s1 n hr => altLoop_starts s ts ps none h s1 n hr

theorem startsP_strct {expr : Node τ} (zero : Position → τ) (h : Starts expr) :
    StartsP (strct zero expr) :=
  fun ts v n hr => h _ ts v n hr

theorem stampsFirst_intro {pos : τ → Position} {p : List Token → Res τ}
    (hn : StampsNext pos p) (hs : StartsP p) : StampsFirst pos p := by
  intro ts v n h
  obtain ⟨hne, h1⟩ := hs ts v n h
  cases ts with
  | nil => exact absurd rfl hne
  | cons t rest => exact ⟨t, rest, rfl, h1, hn _ v n h⟩

/-! ## The position recorded by each grammar rule -/

theorem BlockEnd_stampsNext :
    StampsNext BlockEnd.Pos BlockEnd.parse := by
  unfold BlockEnd.parse
  refine stampsNext_strct _ (fun _ => rfl) ?_
  apply_rules [keeps_andThen, keeps_lit, keeps_capLit, keeps_capTok, keeps_capNum, keeps_capStruct,
    keeps_opt, keeps_many, keeps_alt, allNodes_cons, allNodes_nil]
  all_goals intros; rfl

theorem BlockEnd_startsP :
    StartsP BlockEnd.parse := by
  unfold BlockEnd.parse
  refine startsP_strct _ ?_
  apply_rules [starts_andThen, starts_lit, starts_capLit, starts_capTok, starts_capNum, starts_capStruct,
    starts_alt, allNodes_cons, allNodes_nil]

theorem OptionBlock_stampsNext {F : Type} (field : List Token → Res F) :
    StampsNext OptionBlock.Pos (OptionBlock.parse field) := by
  unfold OptionBlock.parse
  refine stampsNext_strct _ (fun _ => rfl) ?_
  apply_rules [keeps_andThen, keeps_lit, keeps_capLit, keeps_capTok, keeps_capNum, keeps_capStruct,
    keeps_opt, keeps_many, keeps_alt, allNodes_cons, allNodes_nil]
  all_goals intros; rfl

theorem OptionBlock_startsP {F : Type} (field : List Token → Res F) :
    StartsP (OptionBlock.parse field) := by
  unfold OptionBlock.parse
  refine startsP_strct _ ?_
  apply_rules [starts_andThen, starts_lit, starts_capLit, starts_capTok, starts_capNum, starts_capStruct,
    starts_alt, allNodes_cons, allNodes_nil]

theorem FileMode_stampsNext :
    StampsNext FileMode.Pos FileMode.parse := by
  unfold FileMode.parse
  refine stampsNext_strct _ (fun _ => rfl) ?_
  apply_rules [keeps_andThen, keeps_lit, keeps_capLit, keeps_capTok, keeps_capNum, keeps_capStruct,
    keeps_opt, keeps_many, keeps_alt, allNodes_cons, allNodes_nil]
  all_goals intros; rfl

theorem FileMode_startsP :
    StartsP FileMode.parse := by
  unfold FileMode.parse
  refine startsP_strct _ ?_
  apply_rules [starts_andThen, starts_lit, starts_capLit, starts_capTok, starts_capNum, starts_capStruct,
    starts_alt, allNodes_cons, allNodes_nil]

theorem ImageField_stampsNext :
    StampsNext ImageField.Pos ImageField.parse := by
  unfold ImageField.parse
  refine stampsNext_strct _ (fun _ => rfl) ?_
  apply_rules [keeps_andThen, keeps_lit, keeps_capLit, keeps_capTok, keeps_capNum, keeps_capStruct,
    keeps_opt, keeps_many, keeps_alt, allNodes_cons, allNodes_nil]
  all_goals intros; rfl

theorem ImageField_startsP :
    StartsP ImageField.parse := by
  unfold ImageField.parse
  refine startsP_strct _ ?_
  apply_rules [starts_andThen, starts_lit, starts_capLit, starts_capTok, starts_capNum, starts_capStruct,
    starts_alt, allNodes_cons, allNodes_nil]

theorem Image_stampsNext :
    StampsNext Image.Pos Image.parse := by
  unfold Image.parse withOption
  refine stampsNext_strct _ (fun _ => rfl) ?_
  apply_rules [keeps_andThen, keeps_lit, keeps_capLit, keeps_capTok, keeps_capNum, keeps_capStruct,
    keeps_opt, keeps_many, keeps_alt, allNodes_cons, allNodes_nil]
  all_goals intros; rfl

theorem Image_startsP :
    StartsP Image.parse := by
  unfold Image.parse withOption
  refine startsP_strct _ ?_
  apply_rules [starts_andThen, starts_lit, starts_capLit, starts_capTok, starts_capNum, starts_capStruct,
    starts_alt, allNodes_cons, allNodes_nil]

theorem Checksum_stampsNext :
    StampsNext Checksum.Pos Checksum.parse := by
  unfold Checksum.parse
  refine stampsNext_strct _ (fun _ => rfl) ?_
  apply_rules [keeps_andThen, keeps_lit, keeps_capLit, keeps_capTok, keeps_capNum, keeps_capStruct,
    keeps_opt, keeps_many, keeps_alt, allNodes_cons, allNodes_nil]
  all_goals intros; rfl

theorem Checksum_startsP :
    StartsP Checksum.parse := by
  unfold Checksum.parse
  refine startsP_strct _ ?_
  apply_rules [starts_andThen, starts_lit, starts_capLit, starts_capTok, starts_capNum, starts_capStruct,
    starts_alt, allNodes_cons, allNodes_nil]

theorem Chmod_stampsNext :
    StampsNext Chmod.Pos Chmod.parse := by
  unfold Chmod.parse
  refine stampsNext_strct _ (fun _ => rfl) ?_
  apply_rules [keeps_andThen, keeps_lit, keeps_capLit, keeps_capTok, keeps_capNum, keeps_capStruct,
    keeps_opt, keeps_many, keeps_alt, allNodes_cons, allNodes_nil]
  all_goals intros; rfl

theorem Chmod_startsP :
    StartsP Chmod.parse := by
  unfold Chmod.parse
  refine startsP_strct _ ?_
  apply_rules [FileMode_startsP, starts_andThen, starts_lit, starts_capLit, starts_capTok, starts_capNum,
    starts_capStruct, starts_alt, allNodes_cons, allNodes_nil]

theorem Filename_stampsNext :
    StampsNext Filename.Pos Filename.parse := by
  unfold Filename.parse
  refine stampsNext_strct _ (fun _ => rfl) ?_
  apply_rules [keeps_andThen, keeps_lit, keeps_capLit, keeps_capTok, keeps_capNum, keeps_capStruct,
    keeps_opt, keeps_many, keeps_alt, allNodes_cons, allNodes_nil]
  all_goals intros; rfl

theorem Filename_startsP :
    StartsP Filename.parse := by
  unfold Filename.parse
  refine startsP_strct _ ?_
  apply_rules [starts_andThen, starts_lit, starts_capLit, starts_capTok, starts_capNum, starts_capStruct,
    starts_alt, allNodes_cons, allNodes_nil]

theorem HTTPField_stampsNext :
    StampsNext HTTPField.Pos HTTPField.parse := by
  unfold HTTPField.parse
  refine stampsNext_strct _ (fun _ => rfl) ?_
  apply_rules [keeps_andThen, keeps_lit, keeps_capLit, keeps_capTok, keeps_capNum, keeps_capStruct,
    keeps_opt, keeps_many, keeps_alt, allNodes_cons, allNodes_nil]
  all_goals intros; rfl

theorem HTTPField_startsP :
    StartsP HTTPField.parse := by
  unfold HTTPField.parse
  refine startsP_strct _ ?_
  apply_rules [starts_andThen, starts_lit, starts_capLit, starts_capTok, starts_capNum, starts_capStruct,
    starts_alt, allNodes_cons, allNodes_nil]

theorem HTTP_stampsNext :
    StampsNext HTTP.Pos HTTP.parse := by
  unfold HTTP.parse withOption
  refine stampsNext_strct _ (fun _ => rfl) ?_
  apply_rules [keeps_andThen, keeps_lit, keeps_capLit, keeps_capTok, keeps_capNum, keeps_capStruct,
    keeps_opt, keeps_many, keeps_alt, allNodes_cons, allNodes_nil]
  all_goals intros; rfl

theorem HTTP_startsP :
    StartsP HTTP.parse := by
  unfold HTTP.parse withOption
  refine startsP_strct _ ?_
  apply_rules [starts_andThen, starts_lit, starts_capLit, starts_capTok, starts_capNum, starts_capStruct,
    starts_alt, allNodes_cons, allNodes_nil]

theorem GitField_stampsNext :
    StampsNext GitField.Pos GitField.parse := by
  unfold GitField.parse
  refine stampsNext_strct _ (fun _ => rfl) ?_
  apply_rules [keeps_andThen, keeps_lit, keeps_capLit, keeps_capTok, keeps_capNum, keeps_capStruct,
    keeps_opt, keeps_many, keeps_alt, allNodes_cons, allNodes_nil]
  all_goals intros; rfl

theorem GitField_startsP :
    StartsP GitField.parse := by
  unfold GitField.parse
  refine startsP_strct _ ?_
  apply_rules [starts_andThen, starts_lit, starts_capLit, starts_capTok, starts_capNum, starts_capStruct,
    starts_alt, allNodes_cons, allNodes_nil]

theorem Git_stampsNext :
    StampsNext Git.Pos Git.parse := by
  unfold Git.parse withOption
  refine stampsNext_strct _ (fun _ => rfl) ?_
  apply_rules [keeps_andThen, keeps_lit, keeps_capLit, keeps_capTok, keeps_capNum, keeps_capStruct,
    keeps_opt, keeps_many, keeps_alt, allNodes_cons, allNodes_nil]
  all_goals intros; rfl

theorem Git_startsP :
    StartsP Git.parse := by
  unfold Git.parse withOption
  refine startsP_strct _ ?_
  apply_rules [starts_andThen, starts_lit, starts_capLit, starts_capTok, starts_capNum, starts_capStruct,
    starts_alt, allNodes_cons, allNodes_nil]

theorem Network_stampsNext :
    StampsNext Network.Pos Network.parse := by
  unfold Network.parse
  refine stampsNext_strct _ (fun _ => rfl) ?_
  apply_rules [keeps_andThen, keeps_lit, keeps_capLit, keeps_capTok, keeps_capNum, keeps_capStruct,
    keeps_opt, keeps_many, keeps_alt, allNodes_cons, allNodes_nil]
  all_goals intros; rfl

theorem Network_startsP :
    StartsP Network.parse := by
  unfold Network.parse
  refine startsP_strct _ ?_
  apply_rules [starts_andThen, starts_lit, starts_capLit, starts_capTok, starts_capNum, starts_capStruct,
    starts_alt, allNodes_cons, allNodes_nil]

theorem Security_stampsNext :
    StampsNext Security.Pos Security.parse := by
  unfold Security.parse
  refine stampsNext_strct _ (fun _ => rfl) ?_
  apply_rules [keeps_andThen, keeps_lit, keeps_capLit, keeps_capTok, keeps_capNum, keeps_capStruct,
    keeps_opt, keeps_many, keeps_alt, allNodes_cons, allNodes_nil]
  all_goals intros; rfl

theorem Security_startsP :
    StartsP Security.parse := by
  unfold Security.parse
  refine startsP_strct _ ?_
  apply_rules [starts_andThen, starts_lit, starts_capLit, starts_capTok, starts_capNum, starts_capStruct,
    starts_alt, allNodes_cons, allNodes_nil]

theorem Host_stampsNext :
    StampsNext Host.Pos Host.parse := by
  unfold Host.parse
  refine stampsNext_strct _ (fun _ => rfl) ?_
  apply_rules [keeps_andThen, keeps_lit, keeps_capLit, keeps_capTok, keeps_capNum, keeps_capStruct,
    keeps_opt, keeps_many, keeps_alt, allNodes_cons, allNodes_nil]
  all_goals intros; rfl

theorem Host_startsP :
    StartsP Host.parse := by
  unfold Host.parse
  refine startsP_strct _ ?_
  apply_rules [starts_andThen, starts_lit, starts_capLit, starts_capTok, starts_capNum, starts_capStruct,
    starts_alt, allNodes_cons, allNodes_nil]

theorem CacheID_stampsNext :
    StampsNext CacheID.Pos CacheID.parse := by
  unfold CacheID.parse
  refine stampsNext_strct _ (fun _ => rfl) ?_
  apply_rules [keeps_andThen, keeps_lit, keeps_capLit, keeps_capTok, keeps_capNum, keeps_capStruct,
    keeps_opt, keeps_many, keeps_alt, allNodes_cons, allNodes_nil]
  all_goals intros; rfl

theorem CacheID_startsP :
    StartsP CacheID.parse := by
  unfold CacheID.parse
  refine startsP_strct _ ?_
  apply_rules [starts_andThen, starts_lit, starts_capLit, starts_capTok, starts_capNum, starts_capStruct,
    starts_alt, allNodes_cons, allNodes_nil]

theorem SystemID_stampsNext :
    StampsNext SystemID.Pos SystemID.parse := by
  unfold SystemID.parse
  refine stampsNext_strct _ (fun _ => rfl) ?_
  apply_rules [keeps_andThen, keeps_lit, keeps_capLit, keeps_capTok, keeps_capNum, keeps_capStruct,
    keeps_opt, keeps_many, keeps_alt, allNodes_cons, allNodes_nil]
  all_goals intros; rfl

theorem SystemID_startsP :
    StartsP SystemID.parse := by
  unfold SystemID.parse
  refine startsP_strct _ ?_
  apply_rules [starts_andThen, starts_lit, starts_capLit, starts_capTok, starts_capNum, starts_capStruct,
    starts_alt, allNodes_cons, allNodes_nil]

theorem Mountpoint_stampsNext :
    StampsNext Mountpoint.Pos Mountpoint.parse := by
  unfold Mountpoint.parse
  refine stampsNext_strct _ (fun _ => rfl) ?_
  apply_rules [keeps_andThen, keeps_lit, keeps_capLit, keeps_capTok, keeps_capNum, keeps_capStruct,
    keeps_opt, keeps_many, keeps_alt, allNodes_cons, allNodes_nil]
  all_goals intros; rfl

theorem Mountpoint_startsP :
    StartsP Mountpoint.parse := by
  unfold Mountpoint.parse
  refine startsP_strct _ ?_
  apply_rules [starts_andThen, starts_lit, starts_capLit, starts_capTok, starts_capNum, starts_capStruct,
    starts_alt, allNodes_cons, allNodes_nil]

theorem SSHField_stampsNext :
    StampsNext SSHField.Pos SSHField.parse := by
  unfold SSHField.parse
  refine stampsNext_strct _ (fun _ => rfl) ?_
  apply_rules [keeps_andThen, keeps_lit, keeps_capLit, keeps_capTok, keeps_capNum, keeps_capStruct,
    keeps_opt, keeps_many, keeps_alt, allNodes_cons, allNodes_nil]
  all_goals intros; rfl

theorem SSHField_startsP :
    StartsP SSHField.parse := by
  unfold SSHField.parse
  refine startsP_strct _ ?_
  apply_rules [CacheID_startsP, starts_andThen, starts_lit, starts_capLit, starts_capTok, starts_capNum,
    starts_capStruct, starts_alt, allNodes_cons, allNodes_nil]

theorem SSH_stampsNext :
    StampsNext SSH.Pos SSH.parse := by
  unfold SSH.parse withOption
  refine stampsNext_strct _ (fun _ => rfl) ?_
  apply_rules [keeps_andThen, keeps_lit, keeps_capLit, keeps_capTok, keeps_capNum, keeps_capStruct,
    keeps_opt, keeps_many, keeps_alt, allNodes_cons, allNodes_nil]
  all_goals intros; rfl

theorem SecretField_stampsNext :
    StampsNext SecretField.Pos SecretField.parse := by
  unfold SecretField.parse
  refine stampsNext_strct _ (fun _ => rfl) ?_
  apply_rules [keeps_andThen, keeps_lit, keeps_capLit, keeps_capTok, keeps_capNum, keeps_capStruct,
    keeps_opt, keeps_many, keeps_alt, allNodes_cons, allNodes_nil]
  all_goals intros; rfl

theorem SecretField_startsP :
    StartsP SecretField.parse := by
  unfold SecretField.parse
  refine startsP_strct _ ?_
  apply_rules [CacheID_startsP, starts_andThen, starts_lit, starts_capLit, starts_capTok, starts_capNum,
    starts_capStruct, starts_alt, allNodes_cons, allNodes_nil]

theorem Secret_stampsNext :
    StampsNext Secret.Pos Secret.parse := by
  unfold Secret.parse withOption
  refine stampsNext_strct _ (fun _ => rfl) ?_
  apply_rules [keeps_andThen, keeps_lit, keeps_capLit, keeps_capTok, keeps_capNum, keeps_capStruct,
    keeps_opt, keeps_many, keeps_alt, allNodes_cons, allNodes_nil]
  all_goals intros; rfl

theorem Secret_startsP :
    StartsP Secret.parse := by
  unfold Secret.parse withOption
  refine startsP_strct _ ?_
  apply_rules [starts_andThen, starts_lit, starts_capLit, starts_capTok, starts_capNum, starts_capStruct,
    starts_alt, allNodes_cons, allNodes_nil]

theorem Cache_stampsNext :
    StampsNext Cache.Pos Cache.parse := by
  unfold Cache.parse
  refine stampsNext_strct _ (fun _ => rfl) ?_
  apply_rules [keeps_andThen, keeps_lit, keeps_capLit, keeps_capTok, keeps_capNum, keeps_capStruct,
    keeps_opt, keeps_many, keeps_alt, allNodes_cons, allNodes_nil]
  all_goals intros; rfl

theorem Cache_startsP :
    StartsP Cache.parse := by
  unfold Cache.parse
  refine startsP_strct _ ?_
  apply_rules [starts_andThen, starts_lit, starts_capLit, starts_capTok, starts_capNum, starts_capStruct,
    starts_alt, allNodes_cons, allNodes_nil]

theorem MountField_stampsNext :
    StampsNext MountField.Pos MountField.parse := by
  unfold MountField.parse
  refine stampsNext_strct _ (fun _ => rfl) ?_
  apply_rules [keeps_andThen, keeps_lit, keeps_capLit, keeps_capTok, keeps_capNum, keeps_capStruct,
    keeps_opt, keeps_many, keeps_alt, allNodes_cons, allNodes_nil]
  all_goals intros; rfl

theorem MountField_startsP :
    StartsP MountField.parse := by
  unfold MountField.parse
  refine startsP_strct _ ?_
  apply_rules [starts_andThen, starts_lit, starts_capLit, starts_capTok, starts_capNum, starts_capStruct,
    starts_alt, allNodes_cons, allNodes_nil]

theorem Env_stampsNext :
    StampsNext Env.Pos Env.parse := by
  unfold Env.parse
  refine stampsNext_strct _ (fun _ => rfl) ?_
  apply_rules [keeps_andThen, keeps_lit, keeps_capLit, keeps_capTok, keeps_capNum, keeps_capStruct,
    keeps_opt, keeps_many, keeps_alt, allNodes_cons, allNodes_nil]
  all_goals intros; rfl

theorem Env_startsP :
    StartsP Env.parse := by
  unfold Env.parse
  refine startsP_strct _ ?_
  apply_rules [starts_andThen, starts_lit, starts_capLit, starts_capTok, starts_capNum, starts_capStruct,
    starts_alt, allNodes_cons, allNodes_nil]

theorem Dir_stampsNext :
    StampsNext Dir.Pos Dir.parse := by
  unfold Dir.parse
  refine stampsNext_strct _ (fun _ => rfl) ?_
  apply_rules [keeps_andThen, keeps_lit, keeps_capLit, keeps_capTok, keeps_capNum, keeps_capStruct,
    keeps_opt, keeps_many, keeps_alt, allNodes_cons, allNodes_nil]
  all_goals intros; rfl

theorem Dir_startsP :
    StartsP Dir.parse := by
  unfold Dir.parse
  refine startsP_strct _ ?_
  apply_rules [starts_andThen, starts_lit, starts_capLit, starts_capTok, starts_capNum, starts_capStruct,
    starts_alt, allNodes_cons, allNodes_nil]

theorem User_stampsNext :
    StampsNext User.Pos User.parse := by
  unfold User.parse
  refine stampsNext_strct _ (fun _ => rfl) ?_
  apply_rules [keeps_andThen, keeps_lit, keeps_capLit, keeps_capTok, keeps_capNum, keeps_capStruct,
    keeps_opt, keeps_many, keeps_alt, allNodes_cons, allNodes_nil]
  all_goals intros; rfl

theorem User_startsP :
    StartsP User.parse := by
  unfold User.parse
  refine startsP_strct _ ?_
  apply_rules [starts_andThen, starts_lit, starts_capLit, starts_capTok, starts_capNum, starts_capStruct,
    starts_alt, allNodes_cons, allNodes_nil]

theorem Chown_stampsNext :
    StampsNext Chown.Pos Chown.parse := by
  unfold Chown.parse
  refine stampsNext_strct _ (fun _ => rfl) ?_
  apply_rules [keeps_andThen, keeps_lit, keeps_capLit, keeps_capTok, keeps_capNum, keeps_capStruct,
    keeps_opt, keeps_many, keeps_alt, allNodes_cons, allNodes_nil]
  all_goals intros; rfl

theorem Chown_startsP :
    StartsP Chown.parse := by
  unfold Chown.parse
  refine startsP_strct _ ?_
  apply_rules [starts_andThen, starts_lit, starts_capLit, starts_capTok, starts_capNum, starts_capStruct,
    starts_alt, allNodes_cons, allNodes_nil]

theorem Time_stampsNext :
    StampsNext Time.Pos Time.parse := by
  unfold Time.parse
  refine stampsNext_strct _ (fun _ => rfl) ?_
  apply_rules [keeps_andThen, keeps_lit, keeps_capLit, keeps_capTok, keeps_capNum, keeps_capStruct,
    keeps_opt, keeps_many, keeps_alt, allNodes_cons, allNodes_nil]
  all_goals intros; rfl

theorem Time_startsP :
    StartsP Time.parse := by
  unfold Time.parse
  refine startsP_strct _ ?_
  apply_rules [starts_andThen, starts_lit, starts_capLit, starts_capTok, starts_capNum, starts_capStruct,
    starts_alt, allNodes_cons, allNodes_nil]

theorem MountState_stampsNext {S : Type} (pState : List Token → Res S) :
    StampsNext MountState.Pos (MountState.parse pState) := by
  unfold MountState.parse withOption
  refine stampsNext_strct _ (fun _ => rfl) ?_
  apply_rules [keeps_andThen, keeps_lit, keeps_capLit, keeps_capTok, keeps_capNum, keeps_capStruct,
    keeps_opt, keeps_many, keeps_alt, allNodes_cons, allNodes_nil]
  all_goals intros; rfl

theorem MountState_startsP {S : Type} (pState : List Token → Res S) (hs : StartsP pState) :
    StartsP (MountState.parse pState) := by
  unfold MountState.parse withOption
  refine startsP_strct _ ?_
  apply_rules [starts_andThen, starts_lit, starts_capLit, starts_capTok, starts_capNum, starts_capStruct,
    starts_alt, allNodes_cons, allNodes_nil]

theorem Mount_stampsNext :
    StampsNext Mount.Pos Mount.parse := by
  unfold Mount.parse withOption
  refine stampsNext_strct _ (fun _ => rfl) ?_
  apply_rules [keeps_andThen, keeps_lit, keeps_capLit, keeps_capTok, keeps_capNum, keeps_capStruct,
    keeps_opt, keeps_many, keeps_alt, allNodes_cons, allNodes_nil]
  all_goals intros; rfl

theorem Mount_startsP :
    StartsP Mount.parse := by
  unfold Mount.parse withOption
  refine startsP_strct _ ?_
  apply_rules [starts_andThen, starts_lit, starts_capLit, starts_capTok, starts_capNum, starts_capStruct,
    starts_alt, allNodes_cons, allNodes_nil]

theorem ExecField_stampsNext {S : Type} (pState : List Token → Res S) :
    StampsNext ExecField.Pos (ExecField.parse pState) := by
  unfold ExecField.parse
  refine stampsNext_strct _ (fun _ => rfl) ?_
  apply_rules [keeps_andThen, keeps_lit, keeps_capLit, keeps_capTok, keeps_capNum, keeps_capStruct,
    keeps_opt, keeps_many, keeps_alt, allNodes_cons, allNodes_nil]
  all_goals try apply_rules [keeps_andThen, keeps_lit, keeps_capLit, keeps_capTok, keeps_capNum, keeps_capStruct,
    keeps_opt, keeps_many, keeps_alt, allNodes_cons, allNodes_nil]
  all_goals intros; rfl

theorem ExecField_startsP {S : Type} (pState : List Token → Res S) :
    StartsP (ExecField.parse pState) := by
  unfold ExecField.parse
  refine startsP_strct _ ?_
  apply_rules [starts_andThen, starts_lit, starts_capLit, starts_capTok, starts_capNum, starts_capStruct,
    starts_alt, allNodes_cons, allNodes_nil]

theorem Exec_stampsNext {S : Type} (pState : List Token → Res S) :
    StampsNext Exec.Pos (Exec.parse pState) := by
  unfold Exec.parse withOption
  refine stampsNext_strct _ (fun _ => rfl) ?_
  apply_rules [keeps_andThen, keeps_lit, keeps_capLit, keeps_capTok, keeps_capNum, keeps_capStruct,
    keeps_opt, keeps_many, keeps_alt, allNodes_cons, allNodes_nil]
  all_goals intros; rfl

theorem Exec_startsP {S : Type} (pState : List Token → Res S) :
    StartsP (Exec.parse pState) := by
  unfold Exec.parse withOption
  refine startsP_strct _ ?_
  apply_rules [starts_andThen, starts_lit, starts_capLit, starts_capTok, starts_capNum, starts_capStruct,
    starts_alt, allNodes_cons, allNodes_nil]

theorem MkdirField_stampsNext :
    StampsNext MkdirField.Pos MkdirField.parse := by
  unfold MkdirField.parse
  refine stampsNext_strct _ (fun _ => rfl) ?_
  apply_rules [keeps_andThen, keeps_lit, keeps_capLit, keeps_capTok, keeps_capNum, keeps_capStruct,
    keeps_opt, keeps_many, keeps_alt, allNodes_cons, allNodes_nil]
  all_goals intros; rfl

theorem MkdirField_startsP :
    StartsP MkdirField.parse := by
  unfold MkdirField.parse
  refine startsP_strct _ ?_
  apply_rules [starts_andThen, starts_lit, starts_capLit, starts_capTok, starts_capNum, starts_capStruct,
    starts_alt, allNodes_cons, allNodes_nil]

theorem Mkdir_stampsNext :
    StampsNext Mkdir.Pos Mkdir.parse := by
  unfold Mkdir.parse withOption
  refine stampsNext_strct _ (fun _ => rfl) ?_
  apply_rules [keeps_andThen, keeps_lit, keeps_capLit, keeps_capTok, keeps_capNum, keeps_capStruct,
    keeps_opt, keeps_many, keeps_alt, allNodes_cons, allNodes_nil]
  all_goals intros; rfl

theorem Mkdir_startsP :
    StartsP Mkdir.parse := by
  unfold Mkdir.parse withOption
  refine startsP_strct _ ?_
  apply_rules [starts_andThen, starts_lit, starts_capLit, starts_capTok, starts_capNum, starts_capStruct,
    starts_alt, allNodes_cons, allNodes_nil]

theorem MkfileField_stampsNext :
    StampsNext MkfileField.Pos MkfileField.parse := by
  unfold MkfileField.parse
  refine stampsNext_strct _ (fun _ => rfl) ?_
  apply_rules [keeps_andThen, keeps_lit, keeps_capLit, keeps_capTok, keeps_capNum, keeps_capStruct,
    keeps_opt, keeps_many, keeps_alt, allNodes_cons, allNodes_nil]
  all_goals intros; rfl

theorem MkfileField_startsP :
    StartsP MkfileField.parse := by
  unfold MkfileField.parse
  refine startsP_strct _ ?_
  apply_rules [starts_andThen, starts_lit, starts_capLit, starts_capTok, starts_capNum, starts_capStruct,
    starts_alt, allNodes_cons, allNodes_nil]

theorem Mkfile_stampsNext :
    StampsNext Mkfile.Pos Mkfile.parse := by
  unfold Mkfile.parse withOption
  refine stampsNext_strct _ (fun _ => rfl) ?_
  apply_rules [keeps_andThen, keeps_lit, keeps_capLit, keeps_capTok, keeps_capNum, keeps_capStruct,
    keeps_opt, keeps_many, keeps_alt, allNodes_cons, allNodes_nil]
  all_goals intros; rfl

theorem Mkfile_startsP :
    StartsP Mkfile.parse := by
  unfold Mkfile.parse withOption
  refine startsP_strct _ ?_
  apply_rules [starts_andThen, starts_lit, starts_capLit, starts_capTok, starts_capNum, starts_capStruct,
    starts_alt, allNodes_cons, allNodes_nil]

theorem RmField_stampsNext :
    StampsNext RmField.Pos RmField.parse := by
  unfold RmField.parse
  refine stampsNext_strct _ (fun _ => rfl) ?_
  apply_rules [keeps_andThen, keeps_lit, keeps_capLit, keeps_capTok, keeps_capNum, keeps_capStruct,
    keeps_opt, keeps_many, keeps_alt, allNodes_cons, allNodes_nil]
  all_goals intros; rfl

theorem RmField_startsP :
    StartsP RmField.parse := by
  unfold RmField.parse
  refine startsP_strct _ ?_
  apply_rules [starts_andThen, starts_lit, starts_capLit, starts_capTok, starts_capNum, starts_capStruct,
    starts_alt, allNodes_cons, allNodes_nil]

theorem Rm_stampsNext :
    StampsNext Rm.Pos Rm.parse := by
  unfold Rm.parse withOption
  refine stampsNext_strct _ (fun _ => rfl) ?_
  apply_rules [keeps_andThen, keeps_lit, keeps_capLit, keeps_capTok, keeps_capNum, keeps_capStruct,
    keeps_opt, keeps_many, keeps_alt, allNodes_cons, allNodes_nil]
  all_goals intros; rfl

theorem Rm_startsP :
    StartsP Rm.parse := by
  unfold Rm.parse withOption
  refine startsP_strct _ ?_
  apply_rules [starts_andThen, starts_lit, starts_capLit, starts_capTok, starts_capNum, starts_capStruct,
    starts_alt, allNodes_cons, allNodes_nil]

theorem CopyField_stampsNext :
    StampsNext CopyField.Pos CopyField.parse := by
  unfold CopyField.parse
  refine stampsNext_strct _ (fun _ => rfl) ?_
  apply_rules [keeps_andThen, keeps_lit, keeps_capLit, keeps_capTok, keeps_capNum, keeps_capStruct,
    keeps_opt, keeps_many, keeps_alt, allNodes_cons, allNodes_nil]
  all_goals intros; rfl

theorem CopyField_startsP :
    StartsP CopyField.parse := by
  unfold CopyField.parse
  refine startsP_strct _ ?_
  apply_rules [starts_andThen, starts_lit, starts_capLit, starts_capTok, starts_capNum, starts_capStruct,
    starts_alt, allNodes_cons, allNodes_nil]

theorem CopyState_stampsNext {S : Type} (pState : List Token → Res S) :
    StampsNext CopyState.Pos (CopyState.parse pState) := by
  unfold CopyState.parse withOption
  refine stampsNext_strct _ (fun _ => rfl) ?_
  apply_rules [keeps_andThen, keeps_lit, keeps_capLit, keeps_capTok, keeps_capNum, keeps_capStruct,
    keeps_opt, keeps_many, keeps_alt, allNodes_cons, allNodes_nil]
  all_goals intros; rfl

theorem CopyState_startsP {S : Type} (pState : List Token → Res S) (hs : StartsP pState) :
    StartsP (CopyState.parse pState) := by
  unfold CopyState.parse withOption
  refine startsP_strct _ ?_
  apply_rules [starts_andThen, starts_lit, starts_capLit, starts_capTok, starts_capNum, starts_capStruct,
    starts_alt, allNodes_cons, allNodes_nil]

theorem Copy_stampsNext :
    StampsNext Copy.Pos Copy.parse := by
  unfold Copy.parse withOption
  refine stampsNext_strct _ (fun _ => rfl) ?_
  apply_rules [keeps_andThen, keeps_lit, keeps_capLit, keeps_capTok, keeps_capNum, keeps_capStruct,
    keeps_opt, keeps_many, keeps_alt, allNodes_cons, allNodes_nil]
  all_goals intros; rfl

theorem Copy_startsP :
    StartsP Copy.parse := by
  unfold Copy.parse withOption
  refine startsP_strct _ ?_
  apply_rules [starts_andThen, starts_lit, starts_capLit, starts_capTok, starts_capNum, starts_capStruct,
    starts_alt, allNodes_cons, allNodes_nil]

theorem Op_stampsNext {S : Type} (pState : List Token → Res S) :
    StampsNext Op.Pos (Op.parse pState) := by
  unfold Op.parse
  refine stampsNext_strct _ (fun _ => rfl) ?_
  apply_rules [keeps_andThen, keeps_lit, keeps_capLit, keeps_capTok, keeps_capNum, keeps_capStruct,
    keeps_opt, keeps_many, keeps_alt, allNodes_cons, allNodes_nil]
  all_goals intros; rfl

theorem Op_startsP {S : Type} (pState : List Token → Res S) :
    StartsP (Op.parse pState) := by
  unfold Op.parse
  refine startsP_strct _ ?_
  apply_rules [starts_andThen, starts_lit, starts_capLit, starts_capTok, starts_capNum, starts_capStruct,
    starts_alt, allNodes_cons, allNodes_nil]

theorem FromState_stampsNext {S : Type} (pState : List Token → Res S) :
    StampsNext FromState.Pos (FromState.parse pState) := by
  unfold FromState.parse
  refine stampsNext_strct _ (fun _ => rfl) ?_
  apply_rules [keeps_andThen, keeps_lit, keeps_capLit, keeps_capTok, keeps_capNum, keeps_capStruct,
    keeps_opt, keeps_many, keeps_alt, allNodes_cons, allNodes_nil]
  all_goals intros; rfl

theorem FromState_startsP {S : Type} (pState : List Token → Res S) (hs : StartsP pState) :
    StartsP (FromState.parse pState) := by
  unfold FromState.parse
  refine startsP_strct _ ?_
  apply_rules [starts_andThen, starts_lit, starts_capLit, starts_capTok, starts_capNum, starts_capStruct,
    starts_alt, allNodes_cons, allNodes_nil]

theorem From_stampsNext :
    StampsNext From.Pos From.parse := by
  unfold From.parse
  refine stampsNext_strct _ (fun _ => rfl) ?_
  apply_rules [keeps_andThen, keeps_lit, keeps_capLit, keeps_capTok, keeps_capNum, keeps_capStruct,
    keeps_opt, keeps_many, keeps_alt, allNodes_cons, allNodes_nil]
  all_goals intros; rfl

theorem From_startsP :
    StartsP From.parse := by
  unfold From.parse
  refine startsP_strct _ ?_
  apply_rules [starts_andThen, starts_lit, starts_capLit, starts_capTok, starts_capNum, starts_capStruct,
    starts_alt, allNodes_cons, allNodes_nil]

theorem Source_stampsNext {S : Type} (pState : List Token → Res S) :
    StampsNext Source.Pos (Source.parse pState) := by
  unfold Source.parse
  refine stampsNext_strct _ (fun _ => rfl) ?_
  apply_rules [keeps_andThen, keeps_lit, keeps_capLit, keeps_capTok, keeps_capNum, keeps_capStruct,
    keeps_opt, keeps_many, keeps_alt, allNodes_cons, allNodes_nil]
  all_goals intros; rfl

theorem Source_startsP {S : Type} (pState : List Token → Res S) :
    StartsP (Source.parse pState) := by
  unfold Source.parse
  refine startsP_strct _ ?_
  apply_rules [starts_andThen, starts_lit, starts_capLit, starts_capTok, starts_capNum, starts_capStruct,
    starts_alt, allNodes_cons, allNodes_nil]

theorem StateBody_stampsNext {S : Type} (pState : List Token → Res S) :
    StampsNext StateBody.Pos (StateBody.parse pState) := by
  unfold StateBody.parse
  refine stampsNext_strct _ (fun _ => rfl) ?_
  apply_rules [keeps_andThen, keeps_lit, keeps_capLit, keeps_capTok, keeps_capNum, keeps_capStruct,
    keeps_opt, keeps_many, keeps_alt, allNodes_cons, allNodes_nil]
  all_goals intros; rfl

theorem StateBody_startsP {S : Type} (pState : List Token → Res S) :
    StartsP (StateBody.parse pState) := by
  unfold StateBody.parse
  refine startsP_strct _ ?_
  apply_rules [starts_andThen, starts_lit, starts_capLit, starts_capTok, starts_capNum, starts_capStruct,
    starts_alt, allNodes_cons, allNodes_nil]

theorem StateEntry_stampsNext (pState : List Token → Res State) :
    StampsNext StateEntry.Pos (StateEntry.parse pState) := by
  unfold StateEntry.parse
  refine stampsNext_strct _ (fun _ => rfl) ?_
  apply_rules [keeps_andThen, keeps_lit, keeps_capLit, keeps_capTok, keeps_capNum, keeps_capStruct,
    keeps_opt, keeps_many, keeps_alt, allNodes_cons, allNodes_nil]
  all_goals intros; rfl

theorem StateEntry_startsP (pState : List Token → Res State) :
    StartsP (StateEntry.parse pState) := by
  unfold StateEntry.parse
  refine startsP_strct _ ?_
  apply_rules [starts_andThen, starts_lit, starts_capLit, starts_capTok, starts_capNum, starts_capStruct,
    starts_alt, allNodes_cons, allNodes_nil]

theorem Entry_stampsNext (pState : List Token → Res State) :
    StampsNext Entry.Pos (Entry.parse pState) := by
  unfold Entry.parse
  refine stampsNext_strct _ (fun _ => rfl) ?_
  apply_rules [keeps_andThen, keeps_lit, keeps_capLit, keeps_capTok, keeps_capNum, keeps_capStruct,
    keeps_opt, keeps_many, keeps_alt, allNodes_cons, allNodes_nil]
  all_goals intros; rfl

theorem Entry_startsP (pState : List Token → Res State) :
    StartsP (Entry.parse pState) := by
  unfold Entry.parse
  refine startsP_strct _ ?_
  apply_rules [starts_andThen, starts_lit, starts_capLit, starts_capTok, starts_capNum, starts_capStruct,
    starts_alt, allNodes_cons, allNodes_nil]

theorem AST_stampsNext (pState : List Token → Res State) :
    StampsNext AST.Pos (AST.parse pState) := by
  unfold AST.parse
  refine stampsNext_strct _ (fun _ => rfl) ?_
  apply_rules [keeps_andThen, keeps_lit, keeps_capLit, keeps_capTok, keeps_capNum, keeps_capStruct,
    keeps_opt, keeps_many, keeps_alt, allNodes_cons, allNodes_nil]
  all_goals intros; rfl

theorem State_stampsNext (fuel : Nat) : StampsNext State.Pos (State.parse fuel) := by
  cases fuel with
  | zero => intro ts v n h; cases h
  | succ fuel =>
    unfold State.parse
    refine stampsNext_strct _ (fun _ => rfl) ?_
    apply_rules [keeps_andThen, keeps_lit, keeps_capLit, keeps_capTok, keeps_capNum, keeps_capStruct,
    keeps_opt, keeps_many, keeps_alt, allNodes_cons, allNodes_nil]
    all_goals intros; rfl

theorem State_startsP (fuel : Nat) : StartsP (State.parse fuel) := by
  cases fuel with
  | zero => intro ts v n h; cases h
  | succ fuel =>
    unfold State.parse
    exact startsP_strct _
      (starts_andThen_right _ _ (starts_capStruct _ (StateBody_startsP (State.parse fuel))))

/-! ## Positions in a parsed document -/

/-- An `ssh` field without options consumes no token: the node records the
position of the token that follows the keyword, here the `;` at offset 45 that
the field list of the option block consumes.  The root of the empty document
records the position of the end of input. -/
theorem ssh_pos_not_consumed :
    Parse "state a \x7b scratch; exec \"x\" with option \x7b ssh; \x7d \x7d".toList
        = (some
            { Pos := onLine1 0,
              Entries := [{
                Pos := onLine1 0,
                State := some
                  { Pos := onLine1 6, Name := "a".toList,
                    Body := some
                      { Pos := onLine1 8,
                        Source := some { Pos := onLine1 10, Scratch := some "scratch".toList },
                        Ops := [{
                          Pos := onLine1 19,
                          Exec := some
                            { Pos := onLine1 24, Shlex := "x".toList,
                              Option := some
                                { Pos := onLine1 33,
                                  Fields := [{
                                    Pos := onLine1 42,
                                    SSH := some { Pos := onLine1 45, Option := none } }],
                                  BlockEnd := { Pos := onLine1 47, Brace := "\x7d".toList } } } }],
                        BlockEnd := { Pos := onLine1 49, Brace := "\x7d".toList } } } }] },
           none)
      ∧ SSH.parse [tokAt .Operator ";" 45, tokAt .Operator "\x7d" 47, tokAt .Operator "\x7d" 49,
            tokAt .EOF "" 50]
          = .ok { Pos := (tokAt .Operator ";" 45).pos, Option := none } 0
      ∧ Parse [] = (some { Pos := ⟨0, 1, 1⟩, Entries := [] }, none) :=
  ⟨rfl, rfl, rfl⟩

theorem andThen_ok_inv {p q : Node σ} {e : Expect} {s : σ} {ts : List Token} {s2 : σ}
    {n : Nat} (h : andThen p e q s ts = .ok s2 n) :
    ∃ s1 m k, p s ts = .ok s1 m ∧ q s1 (ts.drop m) = .ok s2 k ∧ n = m + k := by
  unfold andThen at h
  cases h1 : p s ts with
  | noMatch => rw [h1] at h; cases h
  | err e1 s1 m => rw [h1] at h; cases h
  | ok s1 m =>
    rw [h1] at h
    simp only at h
    cases h2 : q s1 (List.drop m ts) with
    | noMatch => rw [h2] at h; cases h
    | err e1 s3 k => rw [h2] at h; cases h
    | ok s3 k =>
      rw [h2] at h
      cases h
      exact ⟨s1, m, k, rfl, h2, rfl⟩

theorem lit_ok_inv {v : Str} {s : σ} {ts : List Token} {s1 : σ} {n : Nat}
    (h : lit v s ts = .ok s1 n) : ∃ t rest, ts = t :: rest ∧ t.value = v ∧ s1 = s ∧ n = 1 := by
  unfold lit at h
  cases ts with
  | nil => cases h
  | cons t rest =>
    simp only at h
    by_cases hv : t.value = v
    · rw [if_pos hv] at h
      cases h
      exact ⟨t, rest, rfl, hv, rfl, rfl⟩
    · rw [if_neg hv] at h
      cases h

theorem capStruct_ok_inv {child : List Token → Res τ} {set : σ → τ → σ} {s : σ}
    {ts : List Token} {s1 : σ} {n : Nat} (h : capStruct child set s ts = .ok s1 n) :
    ∃ v, child ts = .ok v n ∧ s1 = set s v := by
  unfold capStruct at h
  cases h1 : child ts with
  | noMatch => rw [h1] at h; cases h
  | err e v m => rw [h1] at h; cases h
  | ok v m => rw [h1] at h; cases h; exact ⟨v, rfl, rfl⟩

theorem BlockEnd_ok_inv {ts : List Token} {be : BlockEnd} {n : Nat}
    (h : BlockEnd.parse ts = .ok be n) :
    ∃ t rest, ts = t :: rest ∧ t.value = "\x7d".toList
      ∧ be = { Pos := t.pos, Brace := t.value } ∧ n = 1 := by
  unfold BlockEnd.parse strct capLit at h
  cases ts with
  | nil => cases h
  | cons t rest =>
    simp only at h
    by_cases hv : t.value = "\x7d".toList
    · rw [if_pos hv] at h
      cases h
      exact ⟨t, rest, rfl, hv, rfl, rfl⟩
    · rw [if_neg hv] at h
      cases h

/-- An entry records the position of its `state` keyword, the first token it
consumes. -/
theorem Entry_first (pState : List Token → Res State) (ts : List Token) (e : Entry) (n : Nat)
    (h : Entry.parse pState ts = .ok e n) :
    ∃ t rest, ts = t :: rest ∧ 1 ≤ n ∧ t.value = "state".toList ∧ e.Pos = t.pos := by
  have hp := Entry_stampsNext pState ts e n h
  unfold Entry.parse strct at h
  obtain ⟨s1, m, k, h1, _, hn⟩ := andThen_ok_inv h
  obtain ⟨t, rest, hts, hv, _, hm⟩ := lit_ok_inv h1
  subst hts
  exact ⟨t, rest, rfl, by omega, hv, hp⟩

/-- A body records the position of its opening brace, the first token it
consumes, and its block end the position of the closing brace, the last token
it consumes. -/
theorem StateBody_ends {S : Type} (pState : List Token → Res S) (ts : List Token)
    (b : StateBody S) (n : Nat) (h : StateBody.parse pState ts = .ok b n) :
    ∃ lb rb, ts[0]? = some lb ∧ ts[n - 1]? = some rb ∧ 2 ≤ n
      ∧ lb.value = "\x7b".toList ∧ rb.value = "\x7d".toList
      ∧ b.Pos = lb.pos ∧ b.BlockEnd.Pos = rb.pos := by
  have hp := StateBody_stampsNext pState ts b n h
  unfold StateBody.parse strct at h
  obtain ⟨s3, m3, k3, h3, hbe, hn3⟩ := andThen_ok_inv h
  obtain ⟨s2, m2, k2, h2, _, hn2⟩ := andThen_ok_inv h3
  obtain ⟨s1, m1, k1, h1, _, hn1⟩ := andThen_ok_inv h2
  obtain ⟨s0, m0, k0, h0, _, hn0⟩ := andThen_ok_inv h1
  obtain ⟨lb, rest, hts, hlb, _, hm0⟩ := lit_ok_inv h0
  obtain ⟨be, hbe1, hb⟩ := capStruct_ok_inv hbe
  obtain ⟨rb, rest1, hdrop, hrb, hbe2, hk3⟩ := BlockEnd_ok_inv hbe1
  subst hts
  have hget : (lb :: rest)[m3]? = some rb := by
    have := List.getElem?_drop (lb :: rest) m3 0
    rw [hdrop] at this
    simpa using this.symm
  have hn : n - 1 = m3 := by omega
  refine ⟨lb, rb, by simp, by rw [hn]; exact hget, by omega, hlb, hrb, hp, ?_⟩
  rw [hb, hbe2]

/-! ## What a parse of a part of a document returns -/

theorem tripleOn_of_triple {toks : List Token} {A B : σ → Prop} {p : Node σ}
    (h : Triple A p B) : TripleOn toks A p B :=
  fun s ts s1 n _ ha hr => h s ts s1 n ha hr

theorem tripleOn_lit {toks : List Token} (A : σ → Prop) (v : Str) :
    TripleOn toks A (lit v) A :=
  tripleOn_of_triple (triple_lit A v)

theorem tripleOn_capLit {toks : List Token} {A B : σ → Prop} (v : Str) (set : σ → Str → σ)
    (h : ∀ s x, A s → B (set s x)) : TripleOn toks A (capLit v set) B :=
  tripleOn_of_triple (triple_capLit v set h)

theorem tripleOn_capTok {toks : List Token} {A B : σ → Prop} (k : TokenKind)
    (set : σ → Str → σ) (h : ∀ s x, A s → B (set s x)) : TripleOn toks A (capTok k set) B :=
  tripleOn_of_triple (triple_capTok k set h)

theorem tripleOn_capStruct {toks : List Token} {A B : σ → Prop} {Q : τ → Prop}
    {child : List Token → Res τ} (set : σ → τ → σ) (hc : PostOn toks Q child)
    (h : ∀ s v, A s → Q v → B (set s v)) : TripleOn toks A (capStruct child set) B := by
  intro s ts s1 n hg ha hr
  obtain ⟨v, hv, hs⟩ := capStruct_ok_inv hr
  rw [hs]
  exact h _ _ ha (hc _ _ _ hg hv)

theorem postOn_true {toks : List Token} (p : List Token → Res τ) :
    PostOn toks (fun _ => True) p :=
  fun _ _ _ _ _ => trivial

theorem postOn_strct {toks : List Token} {A B : τ → Prop} {expr : Node τ}
    (zero : Position → τ) (hz : ∀ pos, A (zero pos)) (h : TripleOn toks A expr B) :
    PostOn toks B (strct zero expr) :=
  fun ts v n hg hr => h _ ts v n hg (hz _) hr

theorem tripleOn_andThen {toks : List Token} {A B C : σ → Prop} {p q : Node σ} (e : Expect)
    (hp : TripleOn toks A p B) (hq : TripleOn toks B q C) :
    TripleOn toks A (andThen p e q) C := by
  intro s ts s2 n hg ha hr
  obtain ⟨s1, m, k, h1, h2, _⟩ := andThen_ok_inv hr
  exact hq _ _ _ _ ((List.drop_suffix m ts).trans hg) (hp _ _ _ _ hg ha h1) h2

theorem tripleOn_opt_weak {toks : List Token} {A B : σ → Prop} {p : Node σ}
    (hp : TripleOn toks A p B) (hab : ∀ s, A s → B s) : TripleOn toks A (opt p) B := by
  intro s ts s1 n hg ha hr
  unfold opt at hr
  cases h1 : p s ts with
  | noMatch => rw [h1] at hr; cases hr; exact hab _ ha
  | ok s2 m => rw [h1] at hr; cases hr; exact hp _ _ _ _ hg ha h1
  | err e s2 m =>
    rw [h1] at hr
    simp only at hr
    split at hr <;> cases hr
    exact hab _ ha

theorem tripleOn_opt {toks : List Token} {A : σ → Prop} {p : Node σ}
    (hp : TripleOn toks A p A) : TripleOn toks A (opt p) A :=
  tripleOn_opt_weak hp (fun _ h => h)

theorem manyLoop_tripleOn {toks : List Token} {A : σ → Prop} {p : Node σ}
    (hp : TripleOn toks A p A) :
    ∀ (f : Nat) (s : σ) (ts : List Token) (s1 : σ) (n : Nat), ts <:+ toks → A s →
      manyLoop p f s ts = .ok s1 n → A s1 := by
  intro f
  induction f with
  | zero => intro s ts s1 n _ ha hr; cases hr; exact ha
  | succ f ih =>
    intro s ts s1 n hg ha hr
    unfold manyLoop at hr
    cases h1 : p s ts with
    | noMatch => rw [h1] at hr; cases hr; exact ha
    | err e s2 m =>
      rw [h1] at hr
      simp only at hr
      split at hr <;> cases hr
      exact ha
    | ok s2 m =>
      rw [h1] at hr
      simp only at hr
      have ha2 := hp _ _ _ _ hg ha h1
      cases h2 : manyLoop p f s2 (List.drop m ts) with
      | noMatch => rw [h2] at hr; cases hr; exact ha2
      | err e s3 k => rw [h2] at hr; cases hr
      | ok s3 k =>
        rw [h2] at hr
        cases hr
        exact ih _ _ _ _ ((List.drop_suffix m ts).trans hg) ha2 h2

theorem tripleOn_many {toks : List Token} {A : σ → Prop} {p : Node σ}
    (hp : TripleOn toks A p A) : TripleOn toks A (many p) A :=
  fun s ts s1 n hg ha hr => manyLoop_tripleOn hp _ s ts s1 n hg ha hr

theorem altLoop_tripleOn {toks : List Token} {A B : σ → Prop} (s : σ) (ts : List Token)
    (hg : ts <:+ toks) (ha : A s) :
    ∀ (ps : List (Node σ)) (best : Option (ParseError × Nat)),
      AllNodes (fun p => TripleOn toks A p B) ps →
      ∀ s1 n, altLoop s ts ps best = .ok s1 n → B s1 := by
  intro ps
  induction ps with
  | nil => intro best _ s1 n hr; cases best <;> cases hr
  | cons p ps ih =>
    intro best hall s1 n hr
    obtain ⟨hp, hps⟩ := hall
    unfold altLoop at hr
    cases h1 : p s ts with
    | noMatch => rw [h1] at hr; exact ih best hps s1 n hr
    | ok s2 m => rw [h1] at hr; cases hr; exact hp _ _ _ _ hg ha h1
    | err e s2 m =>
      rw [h1] at hr
      simp only at hr
      split at hr
      · cases hr
      · exact ih _ hps s1 n hr

theorem tripleOn_alt {toks : List Token} {A B : σ → Prop} {ps : List (Node σ)}
    (h : AllNodes (fun p => TripleOn toks A p B) ps) : TripleOn toks A (alt ps) B :=
  fun s ts s1 n hg ha hr => altLoop_tripleOn s ts hg ha ps none h s1 n hr

theorem FromState_postOn {S : Type} {P : S → Prop} {pState : List Token → Res S}
    {toks : List Token} (h : PostOn toks P pState) : PostOn toks (FromState.nested P) (FromState.parse pState) := by
  unfold FromState.parse
  refine postOn_strct (A := fun _ => True) _ (fun _ => trivial)
    (tripleOn_capStruct _ h (fun s v _ hv => ?_))
  intro st hst
  have hst' : some v = some st := hst
  cases hst'
  exact hv

theorem MountState_postOn {S : Type} {P : S → Prop} {pState : List Token → Res S}
    {toks : List Token} (h : PostOn toks P pState) : PostOn toks (MountState.nested P) (MountState.parse pState) := by
  unfold MountState.parse withOption
  refine postOn_strct (A := fun _ => True) _ (fun _ => trivial)
    (tripleOn_andThen _ (tripleOn_andThen _ (tripleOn_capStruct _ h (fun s v _ hv => ?_))
      (tripleOn_capTok _ _ (fun s x hs => hs)))
      (tripleOn_opt (tripleOn_andThen _ (tripleOn_lit _ _)
        (tripleOn_capStruct _ (postOn_true _) (fun s v hs _ => hs)))))
  intro st hst
  have hst' : some v = some st := hst
  cases hst'
  exact hv

theorem CopyState_postOn {S : Type} {P : S → Prop} {pState : List Token → Res S}
    {toks : List Token} (h : PostOn toks P pState) : PostOn toks (CopyState.nested P) (CopyState.parse pState) := by
  unfold CopyState.parse withOption
  refine postOn_strct (A := fun _ => True) _ (fun _ => trivial)
    (tripleOn_andThen _ (tripleOn_andThen _ (tripleOn_andThen _
      (tripleOn_capStruct _ h (fun s v _ hv => ?_))
      (tripleOn_capTok _ _ (fun s x hs => hs))) (tripleOn_capTok _ _ (fun s x hs => hs)))
      (tripleOn_opt (tripleOn_andThen _ (tripleOn_lit _ _)
        (tripleOn_capStruct _ (postOn_true _) (fun s v hs _ => hs)))))
  intro st hst
  have hst' : some v = some st := hst
  cases hst'
  exact hv

theorem OptionBlock_postOn {F : Type} {Q : F → Prop} {field : List Token → Res F}
    {toks : List Token} (h : PostOn toks Q field) :
    PostOn toks (fun ob => ∀ f ∈ ob.Fields, Q f) (OptionBlock.parse field) := by
  unfold OptionBlock.parse
  refine postOn_strct (A := fun ob => ∀ f ∈ ob.Fields, Q f) _
    (fun _ f hf => absurd hf (List.not_mem_nil f))
    (tripleOn_alt (allNodes_cons
      (tripleOn_andThen _ (tripleOn_andThen _ (tripleOn_andThen _ (tripleOn_lit _ _) (tripleOn_lit _ _))
        (tripleOn_many (tripleOn_andThen _ (tripleOn_capStruct _ h (fun s v hs hv => ?_))
          (tripleOn_opt (tripleOn_lit _ _)))))
        (tripleOn_capStruct _ (postOn_true _) (fun s v hs _ => hs)))
      (allNodes_cons (tripleOn_capTok _ _ (fun s x hs => hs)) (allNodes_nil _))))
  intro f hf
  have hf' : f ∈ s.Fields ++ [v] := hf
  rcases List.mem_append.mp hf' with h1 | h1
  · exact hs f h1
  · rw [List.mem_singleton.mp h1]; exact hv

theorem ExecField_postOn {S : Type} {P : S → Prop} {pState : List Token → Res S}
    {toks : List Token} (h : PostOn toks P pState) : PostOn toks (ExecField.nested P) (ExecField.parse pState) := by
  have hk : ∀ (s : ExecField S) (m : MountState S), s.MountState = none →
      s.MountState = some m → m.nested P := by
    intro s m h0 h1; rw [h0] at h1; cases h1
  unfold ExecField.parse
  refine postOn_strct (A := fun s => s.MountState = none) _ (fun _ => rfl) (tripleOn_alt ?_)
  refine allNodes_cons (tripleOn_capLit _ _ (fun s x hs m hm => hk s m hs hm)) ?_
  refine allNodes_cons (tripleOn_andThen _ (tripleOn_lit _ _)
    (tripleOn_capStruct _ (postOn_true _) (fun s v hs _ m hm => hk s m hs hm))) ?_
  refine allNodes_cons (tripleOn_andThen _ (tripleOn_lit _ _)
    (tripleOn_capStruct _ (postOn_true _) (fun s v hs _ m hm => hk s m hs hm))) ?_
  refine allNodes_cons (tripleOn_andThen _ (tripleOn_lit _ _)
    (tripleOn_capStruct _ (postOn_true _) (fun s v hs _ m hm => hk s m hs hm))) ?_
  refine allNodes_cons (tripleOn_andThen _ (tripleOn_lit _ _)
    (tripleOn_capStruct _ (postOn_true _) (fun s v hs _ m hm => hk s m hs hm))) ?_
  refine allNodes_cons (tripleOn_andThen _ (tripleOn_lit _ _)
    (tripleOn_capStruct _ (postOn_true _) (fun s v hs _ m hm => hk s m hs hm))) ?_
  refine allNodes_cons (tripleOn_andThen _ (tripleOn_lit _ _)
    (tripleOn_capStruct _ (postOn_true _) (fun s v hs _ m hm => hk s m hs hm))) ?_
  refine allNodes_cons (tripleOn_andThen _ (tripleOn_lit _ _)
    (tripleOn_capStruct _ (postOn_true _) (fun s v hs _ m hm => hk s m hs hm))) ?_
  refine allNodes_cons (tripleOn_andThen _ (tripleOn_lit _ _)
    (tripleOn_capStruct _ (postOn_true _) (fun s v hs _ m hm => hk s m hs hm))) ?_
  refine allNodes_cons (tripleOn_andThen _ (tripleOn_lit _ _)
    (tripleOn_capStruct _ (MountState_postOn h) (fun s v hs hv m hm => ?_))) ?_
  · have hm' : some v = some m := hm
    cases hm'
    exact hv
  refine allNodes_cons (tripleOn_andThen _ (tripleOn_lit _ _)
    (tripleOn_capStruct _ (postOn_true _) (fun s v hs _ m hm => hk s m hs hm))) ?_
  exact allNodes_nil _

theorem Exec_postOn {S : Type} {P : S → Prop} {pState : List Token → Res S}
    {toks : List Token} (h : PostOn toks P pState) : PostOn toks (Exec.nested P) (Exec.parse pState) := by
  unfold Exec.parse withOption
  refine postOn_strct (A := fun s => s.Option = none) _ (fun _ => rfl)
    (tripleOn_andThen (B := fun s => s.Option = none) _ (tripleOn_capTok _ _ (fun s x hs => hs))
      (tripleOn_opt_weak ?_ ?_))
  · exact tripleOn_andThen _ (tripleOn_lit _ _)
      (tripleOn_capStruct _ (OptionBlock_postOn (ExecField_postOn h)) (fun s v hs hv ob hob => by
        have hob' : some v = some ob := hob
        cases hob'
        exact hv))
  · intro s hs ob hob
    rw [hs] at hob
    cases hob

theorem Op_postOn {S : Type} {P : S → Prop} {pState : List Token → Res S}
    {toks : List Token} (h : PostOn toks P pState) : PostOn toks (Op.nested P) (Op.parse pState) := by
  have hk : ∀ (s : Op S), (s.Exec = none ∧ s.CopyState = none) →
      (∀ e, s.Exec = some e → e.nested P) ∧ (∀ c, s.CopyState = some c → c.nested P) := by
    intro s h0
    refine ⟨fun e he => ?_, fun c hc => ?_⟩
    · rw [h0.1] at he; cases he
    · rw [h0.2] at hc; cases hc
  unfold Op.parse
  refine postOn_strct (A := fun s => s.Exec = none ∧ s.CopyState = none) _
    (fun _ => ⟨rfl, rfl⟩) (tripleOn_alt ?_)
  refine allNodes_cons (tripleOn_andThen _ (tripleOn_lit _ _)
    (tripleOn_capStruct _ (Exec_postOn h) (fun s v hs hv => ⟨fun e he => ?_, fun c hc => ?_⟩))) ?_
  · have he' : some v = some e := he
    cases he'
    exact hv
  · have hc' : s.CopyState = some c := hc
    rw [hs.2] at hc'
    cases hc'
  refine allNodes_cons (tripleOn_andThen _ (tripleOn_lit _ _)
    (tripleOn_capStruct _ (postOn_true _) (fun s v hs _ => hk s hs))) ?_
  refine allNodes_cons (tripleOn_andThen _ (tripleOn_lit _ _)
    (tripleOn_capStruct _ (postOn_true _) (fun s v hs _ => hk s hs))) ?_
  refine allNodes_cons (tripleOn_andThen _ (tripleOn_lit _ _)
    (tripleOn_capStruct _ (postOn_true _) (fun s v hs _ => hk s hs))) ?_
  refine allNodes_cons (tripleOn_andThen _ (tripleOn_lit _ _)
    (tripleOn_capStruct _ (postOn_true _) (fun s v hs _ => hk s hs))) ?_
  refine allNodes_cons (tripleOn_andThen _ (tripleOn_lit _ _)
    (tripleOn_capStruct _ (postOn_true _) (fun s v hs _ => hk s hs))) ?_
  refine allNodes_cons (tripleOn_andThen _ (tripleOn_lit _ _)
    (tripleOn_capStruct _ (postOn_true _) (fun s v hs _ => hk s hs))) ?_
  refine allNodes_cons (tripleOn_andThen _ (tripleOn_lit _ _)
    (tripleOn_capStruct _ (CopyState_postOn h)
      (fun s v hs hv => ⟨fun e he => ?_, fun c hc => ?_⟩))) ?_
  · have he' : s.Exec = some e := he
    rw [hs.1] at he'
    cases he'
  · have hc' : some v = some c := hc
    cases hc'
    exact hv
  refine allNodes_cons (tripleOn_andThen _ (tripleOn_lit _ _)
    (tripleOn_capStruct _ (postOn_true _) (fun s v hs _ => hk s hs))) ?_
  exact allNodes_nil _

theorem Source_postOn {S : Type} {P : S → Prop} {pState : List Token → Res S}
    {toks : List Token} (h : PostOn toks P pState) :
    PostOn toks (fun src => src.variantCount = 1 ∧ src.nested P) (Source.parse pState) := by
  have hn : ∀ (s t : Source S), s.FromState = none → t.FromState = s.FromState →
      t.nested P := by
    intro s t h0 h1 fs hfs
    rw [h1, h0] at hfs
    cases hfs
  unfold Source.parse
  refine postOn_strct (A := Source.blank) _ (fun _ => ⟨rfl, rfl, rfl, rfl, rfl, rfl⟩)
    (tripleOn_alt ?_)
  refine allNodes_cons (tripleOn_andThen _ (tripleOn_lit _ _)
    (tripleOn_capStruct _ (FromState_postOn h) (fun s v hs hv => ⟨?_, fun fs hfs => ?_⟩))) ?_
  · obtain ⟨h1, h2, h3, h4, h5, h6⟩ := hs
    simp [Source.variantCount, h2, h3, h4, h5, h6]
  · have hfs' : some v = some fs := hfs
    cases hfs'
    exact hv
  refine allNodes_cons (tripleOn_andThen _ (tripleOn_lit _ _)
    (tripleOn_capStruct _ (postOn_true _) (fun s v hs _ => ⟨?_, hn s _ hs.1 rfl⟩))) ?_
  · obtain ⟨h1, h2, h3, h4, h5, h6⟩ := hs
    simp [Source.variantCount, h1, h3, h4, h5, h6]
  refine allNodes_cons (tripleOn_capLit _ _ (fun s v hs => ⟨?_, hn s _ hs.1 rfl⟩)) ?_
  · obtain ⟨h1, h2, h3, h4, h5, h6⟩ := hs
    simp [Source.variantCount, h1, h2, h4, h5, h6]
  refine allNodes_cons (tripleOn_andThen _ (tripleOn_lit _ _)
    (tripleOn_capStruct _ (postOn_true _) (fun s v hs _ => ⟨?_, hn s _ hs.1 rfl⟩))) ?_
  · obtain ⟨h1, h2, h3, h4, h5, h6⟩ := hs
    simp [Source.variantCount, h1, h2, h3, h5, h6]
  refine allNodes_cons (tripleOn_andThen _ (tripleOn_lit _ _)
    (tripleOn_capStruct _ (postOn_true _) (fun s v hs _ => ⟨?_, hn s _ hs.1 rfl⟩))) ?_
  · obtain ⟨h1, h2, h3, h4, h5, h6⟩ := hs
    simp [Source.variantCount, h1, h2, h3, h4, h6]
  refine allNodes_cons (tripleOn_andThen _ (tripleOn_lit _ _)
    (tripleOn_capStruct _ (postOn_true _) (fun s v hs _ => ⟨?_, hn s _ hs.1 rfl⟩))) ?_
  · obtain ⟨h1, h2, h3, h4, h5, h6⟩ := hs
    simp [Source.variantCount, h1, h2, h3, h4, h5]
  exact allNodes_nil _

theorem StateBody_postOn {S : Type} {P : S → Prop} {pState : List Token → Res S}
    {toks : List Token} (h : PostOn toks P pState) :
    PostOn toks (fun b => b.sound P ∧ b.Source ≠ none) (StateBody.parse pState) := by
  unfold StateBody.parse
  refine postOn_strct (A := StateBody.sound P) _ ?_
    (tripleOn_andThen _ (tripleOn_andThen _ (tripleOn_andThen _ (tripleOn_andThen _
      (tripleOn_lit _ _)
      (tripleOn_capStruct (B := fun b => b.sound P ∧ b.Source ≠ none) _ (Source_postOn h)
        (fun s v hs hv => ?_)))
      (tripleOn_opt (tripleOn_lit _ _)))
      (tripleOn_many (tripleOn_andThen _ (tripleOn_capStruct _ (Op_postOn h) (fun s v hs hv => ?_))
        (tripleOn_opt (tripleOn_lit _ _)))))
      (tripleOn_capStruct _ (postOn_true _) (fun s v hs _ => hs)))
  · intro pos
    refine ⟨fun src hsrc => ?_, fun op hop => absurd hop (List.not_mem_nil op)⟩
    cases hsrc
  · refine ⟨⟨fun src hsrc => ?_, hs.2⟩, fun hnone => ?_⟩
    · have hsrc' : some v = some src := hsrc
      cases hsrc'
      exact hv
    · cases hnone
  · refine ⟨⟨hs.1.1, fun op hop => ?_⟩, hs.2⟩
    have hop' : op ∈ s.Ops ++ [v] := hop
    rcases List.mem_append.mp hop' with h1 | h1
    · exact hs.1.2 op h1
    · rw [List.mem_singleton.mp h1]; exact hv

/-- The bodies of a state parsed at a suffix of the token stream satisfy every
property that the results of the `StateBody` rule have on such suffixes. -/
theorem State_allBodiesOn (toks : List Token) (Q : StateBody State → Prop)
    (hQ : ∀ pState : List Token → Res State, PostOn toks Q (StateBody.parse pState)) :
    ∀ (d fuel : Nat), PostOn toks (State.allBodies Q d) (State.parse fuel) := by
  intro d
  induction d with
  | zero => intro fuel ts v n _ _; trivial
  | succ d ih =>
    intro fuel
    cases fuel with
    | zero => intro ts v n _ hr; cases hr
    | succ fuel =>
      unfold State.parse
      refine postOn_strct (A := fun st => st.Body = none) _ (fun _ => rfl)
        (tripleOn_andThen (B := fun st => st.Body = none) _
          (tripleOn_opt (tripleOn_capLit _ _ (by intro s x hs; exact hs)))
          (tripleOn_capStruct (Q := fun b => Q b ∧ b.nested (State.allBodies Q d)) _ ?_
            (fun s v _ hv b hb => ?_)))
      · intro ts v n hg hr
        exact ⟨hQ _ ts v n hg hr,
          fun src hsrc => ((StateBody_postOn (ih fuel) ts v n hg hr).1.1 src hsrc).2,
          (StateBody_postOn (ih fuel) ts v n hg hr).1.2⟩
      · have hb' : some v = some b := hb
        cases hb'
        exact hv

theorem Entry_allBodiesOn (toks : List Token) (Q : StateBody Hlb.State → Prop)
    (hQ : ∀ pState : List Token → Res Hlb.State, PostOn toks Q (StateBody.parse pState))
    (d fuel : Nat) : PostOn toks (Entry.allBodies Q d) (Entry.parse (Hlb.State.parse fuel)) := by
  have hb : PostOn toks (fun b => Q b ∧ b.nested (Hlb.State.allBodies Q d))
      (StateBody.parse (Hlb.State.parse fuel)) := by
    intro ts v n hg hr
    have h1 := StateBody_postOn (State_allBodiesOn toks Q hQ d fuel) ts v n hg hr
    exact ⟨hQ _ ts v n hg hr, fun src hsrc => (h1.1.1 src hsrc).2, h1.1.2⟩
  have hse : PostOn toks (fun se : StateEntry => ∀ b, se.Body = some b →
      Q b ∧ b.nested (Hlb.State.allBodies Q d)) (StateEntry.parse (Hlb.State.parse fuel)) := by
    unfold StateEntry.parse
    refine postOn_strct (A := fun se => se.Body = none) _ (fun _ => rfl)
      (tripleOn_andThen (B := fun se => se.Body = none) _
        (tripleOn_andThen (B := fun se => se.Body = none) _
          (tripleOn_capTok _ _ (by intro s x hs; exact hs))
          (tripleOn_opt (tripleOn_capStruct _ (postOn_true _) (by intro s v hs _; exact hs))))
        (tripleOn_capStruct _ hb (fun s v _ hv b hbb => ?_)))
    have hb' : some v = some b := hbb
    cases hb'
    exact hv
  unfold Entry.parse
  refine postOn_strct (A := fun _ => True) _ (fun _ => trivial)
    (tripleOn_andThen _ (tripleOn_lit _ _) (tripleOn_capStruct _ hse (fun s v _ hv se hs => ?_)))
  have hs' : some v = some se := hs
  cases hs'
  exact hv

theorem AST_allBodiesOn (toks : List Token) (Q : StateBody State → Prop)
    (hQ : ∀ pState : List Token → Res State, PostOn toks Q (StateBody.parse pState))
    (d fuel : Nat) : PostOn toks (AST.allBodies Q d) (AST.parse (State.parse fuel)) := by
  unfold AST.parse
  refine postOn_strct (A := AST.allBodies Q d) _ (fun _ e he => absurd he (List.not_mem_nil e))
    (tripleOn_many (tripleOn_andThen _
      (tripleOn_capStruct _ (Entry_allBodiesOn toks Q hQ d fuel) (fun s v hs hv e he => ?_))
      (tripleOn_opt (tripleOn_lit _ _))))
  have he' : e ∈ s.Entries ++ [v] := he
  rcases List.mem_append.mp he' with h1 | h1
  · exact hs e h1
  · rw [List.mem_singleton.mp h1]; exact hv

theorem getElem?_of_suffix {ts toks : List Token} (h : ts <:+ toks) (i : Nat) :
    toks[toks.length - ts.length + i]? = ts[i]? := by
  obtain ⟨pre, rfl⟩ := h
  have hl : (pre ++ ts).length - ts.length + i = pre.length + i := by
    rw [List.length_append]; omega
  rw [hl]
  have h1 := List.getElem?_drop (pre ++ ts) pre.length i
  rw [List.drop_left] at h1
  exact h1.symm

theorem StateBody_delimited {S : Type} (toks : List Token) (pState : List Token → Res S) :
    PostOn toks (StateBody.delimitedIn toks) (StateBody.parse pState) := by
  intro ts b n hg h
  obtain ⟨lb, rb, h0, h1, hn, hlb, hrb, hp, hq⟩ := StateBody_ends pState ts b n h
  refine ⟨toks.length - ts.length + 0, toks.length - ts.length + (n - 1), lb, rb, by omega,
    ?_, ?_, hlb, hrb, hp, hq⟩
  · rw [getElem?_of_suffix hg, h0]
  · rw [getElem?_of_suffix hg, h1]

theorem Entry_keyword (toks : List Token) (pState : List Token → Res State) :
    PostOn toks (Entry.keywordIn toks) (Entry.parse pState) := by
  intro ts e n hg h
  obtain ⟨t, rest, hts, _, hv, hp⟩ := Entry_first pState ts e n h
  refine ⟨toks.length - ts.length + 0, t, ?_, hv, hp⟩
  rw [getElem?_of_suffix hg, hts]
  simp

theorem AST_entries_keyword (toks : List Token) (pState : List Token → Res State) :
    PostOn toks (fun ast => ∀ e ∈ ast.Entries, e.keywordIn toks) (AST.parse pState) := by
  unfold AST.parse
  refine postOn_strct (A := fun ast => ∀ e ∈ ast.Entries, e.keywordIn toks) _
    (fun _ e he => absurd he (List.not_mem_nil e))
    (tripleOn_many (tripleOn_andThen _
      (tripleOn_capStruct _ (Entry_keyword toks pState) (fun s v hs hv e he => ?_))
      (tripleOn_opt (tripleOn_lit _ _))))
  have he' : e ∈ s.Entries ++ [v] := he
  rcases List.mem_append.mp he' with h1 | h1
  · exact hs e h1
  · rw [List.mem_singleton.mp h1]; exact hv

/-- What a successful `Parse` returns is what the root rule returns on the
token stream of the input. -/
theorem Parse_ok_inv (input : List Char) (toks : List Token) (ast : AST)
    (hlex : lex input = .ok toks) (h : Parse input = (some ast, none)) :
    ∃ n, AST.parse (State.parse toks.length) toks = .ok ast n := by
  unfold Parse at h
  rw [hlex] at h
  simp only [parseTokens] at h
  cases hp : AST.parse (State.parse toks.length) toks with
  | noMatch => rw [hp] at h; cases h
  | err e a n => rw [hp] at h; cases h
  | ok a n =>
    rw [hp] at h
    simp only at h
    split at h
    · cases h
      exact ⟨n, rfl⟩
    · cases h

/-! ## Every node records where its rule started -/

/-- C15, amended.  In the AST of a successful `Parse`, a node records the
position of the token under the cursor when its grammar rule started.  The
position of a token is the source position of its first character in the
input: byte offset counted from 0, line and column from 1.  For every rule but
two, a match consumes a token, so the recorded position is that of the first
token the rule consumed; the two exceptions are `SSH` and the root `AST`, which
can match without consuming a token and then record the position of the token
that follows.  In the document: the root records the position of the first
token, every entry the position of a `state` token of the stream, and every
body, at any depth of nesting, the position of a token `\x7b` and its block
end the position of a later token `\x7d`. -/
theorem node_positions (input : List Char) (toks : List Token) (ast : AST)
    (hlex : lex input = .ok toks) (hparse : Parse input = (some ast, none)) :
    (∀ t ∈ toks, ∃ pre suf, input = pre ++ suf ∧ t.pos = sourcePosition pre ∧ TokenAt t suf)
      ∧ ast.Pos = (peek toks).pos
      ∧ (∀ e ∈ ast.Entries, e.keywordIn toks)
      ∧ (∀ d : Nat, ast.allBodies (StateBody.delimitedIn toks) d)
      ∧ (∀ (F : Type) (field : List Token → Res F),
          StampsFirst OptionBlock.Pos (OptionBlock.parse field))
      ∧ StampsFirst BlockEnd.Pos BlockEnd.parse
      ∧ StampsFirst FileMode.Pos FileMode.parse
      ∧ StampsFirst ImageField.Pos ImageField.parse
      ∧ StampsFirst Image.Pos Image.parse
      ∧ StampsFirst Checksum.Pos Checksum.parse
      ∧ StampsFirst Chmod.Pos Chmod.parse
      ∧ StampsFirst Filename.Pos Filename.parse
      ∧ StampsFirst HTTPField.Pos HTTPField.parse
      ∧ StampsFirst HTTP.Pos HTTP.parse
      ∧ StampsFirst GitField.Pos GitField.parse
      ∧ StampsFirst Git.Pos Git.parse
      ∧ StampsFirst Network.Pos Network.parse
      ∧ StampsFirst Security.Pos Security.parse
      ∧ StampsFirst Host.Pos Host.parse
      ∧ StampsFirst CacheID.Pos CacheID.parse
      ∧ StampsFirst SystemID.Pos SystemID.parse
      ∧ StampsFirst Mountpoint.Pos Mountpoint.parse
      ∧ StampsFirst SSHField.Pos SSHField.parse
      ∧ StampsFirst SecretField.Pos SecretField.parse
      ∧ StampsFirst Secret.Pos Secret.parse
      ∧ StampsFirst Cache.Pos Cache.parse
      ∧ StampsFirst MountField.Pos MountField.parse
      ∧ StampsFirst Env.Pos Env.parse
      ∧ StampsFirst Dir.Pos Dir.parse
      ∧ StampsFirst User.Pos User.parse
      ∧ StampsFirst Chown.Pos Chown.parse
      ∧ StampsFirst Time.Pos Time.parse
      ∧ StampsFirst Mount.Pos Mount.parse
      ∧ StampsFirst MkdirField.Pos MkdirField.parse
      ∧ StampsFirst Mkdir.Pos Mkdir.parse
      ∧ StampsFirst MkfileField.Pos MkfileField.parse
      ∧ StampsFirst Mkfile.Pos Mkfile.parse
      ∧ StampsFirst RmField.Pos RmField.parse
      ∧ StampsFirst Rm.Pos Rm.parse
      ∧ StampsFirst CopyField.Pos CopyField.parse
      ∧ StampsFirst Copy.Pos Copy.parse
      ∧ StampsFirst From.Pos From.parse
      ∧ (∀ pState : List Token → Res State, StampsFirst ExecField.Pos (ExecField.parse pState))
      ∧ (∀ pState : List Token → Res State, StampsFirst Exec.Pos (Exec.parse pState))
      ∧ (∀ pState : List Token → Res State, StampsFirst Op.Pos (Op.parse pState))
      ∧ (∀ pState : List Token → Res State, StampsFirst Source.Pos (Source.parse pState))
      ∧ (∀ pState : List Token → Res State, StampsFirst StateBody.Pos (StateBody.parse pState))
      ∧ (∀ pState : List Token → Res State, StampsFirst StateEntry.Pos (StateEntry.parse pState))
      ∧ (∀ pState : List Token → Res State, StampsFirst Entry.Pos (Entry.parse pState))
      ∧ (∀ fuel : Nat, StampsFirst MountState.Pos (MountState.parse (State.parse fuel)))
      ∧ (∀ fuel : Nat, StampsFirst CopyState.Pos (CopyState.parse (State.parse fuel)))
      ∧ (∀ fuel : Nat, StampsFirst FromState.Pos (FromState.parse (State.parse fuel)))
      ∧ (∀ fuel : Nat, StampsFirst State.Pos (State.parse fuel))
      ∧ StampsNext SSH.Pos SSH.parse
      ∧ (∀ pState : List Token → Res State, StampsNext AST.Pos (AST.parse pState)) := by
  obtain ⟨n, hp⟩ := Parse_ok_inv input toks ast hlex hparse
  exact ⟨lex_token_pos input toks hlex, AST_stampsNext _ toks ast n hp,
    AST_entries_keyword toks _ toks ast n List.suffix_rfl hp,
    fun d => AST_allBodiesOn toks _ (fun pState => StateBody_delimited toks pState) d _ toks ast n
      List.suffix_rfl hp,
    fun _ field => stampsFirst_intro (OptionBlock_stampsNext field) (OptionBlock_startsP field),
    stampsFirst_intro BlockEnd_stampsNext BlockEnd_startsP,
    stampsFirst_intro FileMode_stampsNext FileMode_startsP,
    stampsFirst_intro ImageField_stampsNext ImageField_startsP,
    stampsFirst_intro Image_stampsNext Image_startsP,
    stampsFirst_intro Checksum_stampsNext Checksum_startsP,
    stampsFirst_intro Chmod_stampsNext Chmod_startsP,
    stampsFirst_intro Filename_stampsNext Filename_startsP,
    stampsFirst_intro HTTPField_stampsNext HTTPField_startsP,
    stampsFirst_intro HTTP_stampsNext HTTP_startsP,
    stampsFirst_intro GitField_stampsNext GitField_startsP,
    stampsFirst_intro Git_stampsNext Git_startsP,
    stampsFirst_intro Network_stampsNext Network_startsP,
    stampsFirst_intro Security_stampsNext Security_startsP,
    stampsFirst_intro Host_stampsNext Host_startsP,
    stampsFirst_intro CacheID_stampsNext CacheID_startsP,
    stampsFirst_intro SystemID_stampsNext SystemID_startsP,
    stampsFirst_intro Mountpoint_stampsNext Mountpoint_startsP,
    stampsFirst_intro SSHField_stampsNext SSHField_startsP,
    stampsFirst_intro SecretField_stampsNext SecretField_startsP,
    stampsFirst_intro Secret_stampsNext Secret_startsP,
    stampsFirst_intro Cache_stampsNext Cache_startsP,
    stampsFirst_intro MountField_stampsNext MountField_startsP,
    stampsFirst_intro Env_stampsNext Env_startsP,
    stampsFirst_intro Dir_stampsNext Dir_startsP,
    stampsFirst_intro User_stampsNext User_startsP,
    stampsFirst_intro Chown_stampsNext Chown_startsP,
    stampsFirst_intro Time_stampsNext Time_startsP,
    stampsFirst_intro Mount_stampsNext Mount_startsP,
    stampsFirst_intro MkdirField_stampsNext MkdirField_startsP,
    stampsFirst_intro Mkdir_stampsNext Mkdir_startsP,
    stampsFirst_intro MkfileField_stampsNext MkfileField_startsP,
    stampsFirst_intro Mkfile_stampsNext Mkfile_startsP,
    stampsFirst_intro RmField_stampsNext RmField_startsP,
    stampsFirst_intro Rm_stampsNext Rm_startsP,
    stampsFirst_intro CopyField_stampsNext CopyField_startsP,
    stampsFirst_intro Copy_stampsNext Copy_startsP,
    stampsFirst_intro From_stampsNext From_startsP,
    fun pState => stampsFirst_intro (ExecField_stampsNext pState) (ExecField_startsP pState),
    fun pState => stampsFirst_intro (Exec_stampsNext pState) (Exec_startsP pState),
    fun pState => stampsFirst_intro (Op_stampsNext pState) (Op_startsP pState),
    fun pState => stampsFirst_intro (Source_stampsNext pState) (Source_startsP pState),
    fun pState => stampsFirst_intro (StateBody_stampsNext pState) (StateBody_startsP pState),
    fun pState => stampsFirst_intro (StateEntry_stampsNext pState) (StateEntry_startsP pState),
    fun pState => stampsFirst_intro (Entry_stampsNext pState) (Entry_startsP pState),
    fun fuel => stampsFirst_intro (MountState_stampsNext _) (MountState_startsP _ (State_startsP fuel)),
    fun fuel => stampsFirst_intro (CopyState_stampsNext _) (CopyState_startsP _ (State_startsP fuel)),
    fun fuel => stampsFirst_intro (FromState_stampsNext _) (FromState_startsP _ (State_startsP fuel)),
    fun fuel => stampsFirst_intro (State_stampsNext fuel) (State_startsP fuel),
    SSH_stampsNext,
    fun pState => AST_stampsNext pState⟩

theorem node_positions_witness :
    (lex spreadDoc = .ok spreadTokens ∧ Parse spreadDoc = (some spreadAST, none))
      ∧ (∀ t ∈ spreadTokens, ∃ pre suf,
          spreadDoc = pre ++ suf ∧ t.pos = sourcePosition pre ∧ TokenAt t suf)
      ∧ spreadAST.Pos = (peek spreadTokens).pos
      ∧ (∀ e ∈ spreadAST.Entries, e.keywordIn spreadTokens)
      ∧ ∀ d : Nat, spreadAST.allBodies (StateBody.delimitedIn spreadTokens) d :=
  ⟨⟨rfl, rfl⟩, (node_positions spreadDoc spreadTokens spreadAST rfl rfl).1,
    (node_positions spreadDoc spreadTokens spreadAST rfl rfl).2.1,
    (node_positions spreadDoc spreadTokens spreadAST rfl rfl).2.2.1,
    (node_positions spreadDoc spreadTokens spreadAST rfl rfl).2.2.2.1⟩

end Hlb
